import Mathlib

/-!
# librdmacm address resolution (`src/addrinfo.c`)

A shallow embedding of `ucma_convert_to_ai`, `ucma_convert_to_rai`,
`ucma_convert_gai`, `ucma_copy_ai_addr`, `rdma_getaddrinfo` and
`rdma_freeaddrinfo`, with the C heap, `errno`, the allocator, the generic
resolver, the library initialiser and the active-side hook made explicit.

Conventions.
* A pointer is a natural number and `0` is `NULL`.
* The heap is an association list of live blocks, newest first.
* `int` fields that hold bit sets or enumerators (flags, family, socket type,
  protocol, queue-pair type, port space) are natural numbers; return codes are
  integers.
* A function that may touch memory it does not own returns `Option`; `none`
  stands for undefined behaviour (a read or a free of memory that is not live).
* The numeric values of the header constants are not part of the two source
  files, so every function takes them as a `Consts` argument.
-/

namespace Rdma

/-- A C pointer; `0` is `NULL`. -/
abbrev Ptr := Nat

/-- The header constants used by `addrinfo.c` (`rdma_cma.h`, `verbs.h`,
`netdb.h`, `sys/socket.h`, `netinet/in.h`, `errno.h`). -/
structure Consts where
  RAI_PASSIVE : Nat
  RAI_NUMERICHOST : Nat
  AI_PASSIVE : Nat
  AI_NUMERICHOST : Nat
  IBV_QPT_RC : Nat
  IBV_QPT_UD : Nat
  RDMA_PS_TCP : Nat
  RDMA_PS_UDP : Nat
  RDMA_PS_IPOIB : Nat
  SOCK_STREAM : Nat
  SOCK_DGRAM : Nat
  IPPROTO_TCP : Nat
  IPPROTO_UDP : Nat
  EINVAL : Int
  ENOMEM : Int
deriving DecidableEq, Repr

/-- The values the constants have in the Linux and librdmacm headers. -/
def hdr : Consts where
  RAI_PASSIVE := 1
  RAI_NUMERICHOST := 2
  AI_PASSIVE := 1
  AI_NUMERICHOST := 4
  IBV_QPT_RC := 2
  IBV_QPT_UD := 4
  RDMA_PS_TCP := 262
  RDMA_PS_UDP := 273
  RDMA_PS_IPOIB := 2
  SOCK_STREAM := 1
  SOCK_DGRAM := 2
  IPPROTO_TCP := 6
  IPPROTO_UDP := 17
  EINVAL := 22
  ENOMEM := 12

/-- The fields of `struct rdma_addrinfo` that `addrinfo.c` reads or writes. -/
structure rdma_addrinfo where
  ai_flags : Nat
  ai_family : Nat
  ai_qp_type : Nat
  ai_port_space : Nat
  ai_src_len : Nat
  ai_dst_len : Nat
  ai_src_addr : Ptr
  ai_dst_addr : Ptr
  ai_src_canonname : Ptr
  ai_dst_canonname : Ptr
  ai_route : Ptr
  ai_connect : Ptr
  ai_next : Ptr
deriving DecidableEq, Repr

/-- The node `calloc(1, sizeof(*rai))` hands back: every field zero. -/
def rai_zero : rdma_addrinfo :=
  ⟨0, 0, 0, 0, 0, 0, 0, 0, 0, 0, 0, 0, 0⟩

/-- The `struct addrinfo` of the sockets interface. -/
structure addrinfo where
  ai_flags : Nat
  ai_family : Nat
  ai_socktype : Nat
  ai_protocol : Nat
  ai_addrlen : Nat
  ai_addr : Ptr
  ai_canonname : Ptr
  ai_next : Ptr
deriving DecidableEq, Repr

/-- What `memset(ai, 0, sizeof *ai)` leaves. -/
def ai_zero : addrinfo :=
  ⟨0, 0, 0, 0, 0, 0, 0, 0⟩

/-- A live block of memory.  `bytes` is a buffer of `malloc`/`calloc` or of the
caller; `rai` is a `struct rdma_addrinfo` node; `gai` is one result set of the
generic resolver: its entries in order, and the resolver-owned memory that the
pointers of the entries reach. -/
inductive Obj where
  | bytes (bs : List Nat)
  | rai (r : rdma_addrinfo)
  | gai (l : List addrinfo) (mem : List (Ptr × List Nat))
deriving DecidableEq, Repr

/-- The calls the model records, oldest first in `World.trace`. -/
inductive Event where
  | init
  | alloc (p : Ptr)
  | getaddrinfo
  | freeaddrinfo (p : Ptr)
  | free (p : Ptr)
  | ib_resolve (p : Ptr)
deriving DecidableEq, Repr

/-- The state a call runs in: live blocks (newest first), the outcome of the
coming allocator calls (`false`: the call returns `NULL`; an exhausted plan
succeeds), `errno`, and the record of external calls. -/
structure World where
  heap : List (Ptr × Obj)
  plan : List Bool
  errno : Int
  trace : List Event
deriving DecidableEq, Repr

/-- First block stored under `p`. -/
def find {α : Type} : List (Ptr × α) → Ptr → Option α
  | [], _ => none
  | (q, o) :: t, p => if q = p then some o else find t p

/-- Remove the first block stored under `p`. -/
def erase : List (Ptr × Obj) → Ptr → List (Ptr × Obj)
  | [], _ => []
  | (q, o) :: t, p => if q = p then t else (q, o) :: erase t p

/-- Replace the first block stored under `p`. -/
def put : List (Ptr × Obj) → Ptr → Obj → List (Ptr × Obj)
  | [], _, _ => []
  | (q, o) :: t, p, n => if q = p then (q, n) :: t else (q, o) :: put t p n

/-- Largest live address. -/
def top : List (Ptr × Obj) → Nat
  | [] => 0
  | (q, _) :: t => max q (top t)

/-- One allocator call for a block holding `o`: `NULL` with `errno` set to
`ENOMEM`, as the allocator of the C library does, when the plan says so;
otherwise an address that is not `NULL` and not live. -/
def alloc (k : Consts) (o : Obj) (w : World) : Ptr × World :=
  if w.plan.head? = some false
  then (0, { w with plan := w.plan.tail, errno := k.ENOMEM,
                    trace := w.trace ++ [Event.alloc 0] })
  else
    (top w.heap + 1,
      { w with heap := (top w.heap + 1, o) :: w.heap, plan := w.plan.tail,
               trace := w.trace ++ [Event.alloc (top w.heap + 1)] })

/-- `malloc(n)`: the contents are indeterminate in C; every caller overwrites
the whole block before it is read. -/
def malloc (k : Consts) (n : Nat) (w : World) : Ptr × World :=
  alloc k (Obj.bytes (List.replicate n 0)) w

/-- `calloc(1, n)` for a byte buffer. -/
def calloc (k : Consts) (n : Nat) (w : World) : Ptr × World :=
  alloc k (Obj.bytes (List.replicate n 0)) w

/-- `calloc(1, sizeof(struct rdma_addrinfo))`. -/
def calloc_rai (k : Consts) (w : World) : Ptr × World :=
  alloc k (Obj.rai rai_zero) w

/-- `free(p)` for `p` not `NULL`: undefined when `p` is not live. -/
def free (p : Ptr) (w : World) : Option World :=
  match find w.heap p with
  | none => none
  | some _ =>
    some { w with heap := erase w.heap p, trace := w.trace ++ [Event.free p] }

/-- The guarded release `if (p) free(p);`. -/
def free_if (p : Ptr) (w : World) : Option World :=
  if p = 0 then some w else free p w

/-- Modelled from the spec: the `ERR` helper of `cma.h` is not among the source
files; a failure "with an invalid-argument condition" or "out-of-memory
condition" stores the code in `errno` and returns `-1`. -/
def ERR (e : Int) (w : World) : Int × World :=
  (-1, { w with errno := e })

/-- The `n` bytes a `memcpy` reads at `p` from the byte blocks `m`; a
zero-length read touches nothing. -/
def read_mem (m : List (Ptr × List Nat)) (p : Ptr) (n : Nat) : Option (List Nat) :=
  if n = 0 then some []
  else
    match find m p with
    | some bs => if n ≤ bs.length then some (bs.take n) else none
    | none => none

/-- The `n` bytes a `memcpy` reads at `p` from the heap. -/
def read_heap (h : List (Ptr × Obj)) (p : Ptr) (n : Nat) : Option (List Nat) :=
  if n = 0 then some []
  else
    match find h p with
    | some (Obj.bytes bs) => if n ≤ bs.length then some (bs.take n) else none
    | _ => none

/-- The string at `p`, terminator included: what `strcpy` copies, and
`strlen + 1` bytes long. -/
def read_str (m : List (Ptr × List Nat)) (p : Ptr) : Option (List Nat) :=
  match find m p with
  | some bs =>
    if bs.findIdx (fun b => b == 0) < bs.length
    then some (bs.take (bs.findIdx (fun b => b == 0) + 1))
    else none
  | none => none

/-- Store `bs` at the start of the byte block `dst` (`memcpy`, `strcpy`). -/
def write (dst : Ptr) (bs : List Nat) (w : World) : Option World :=
  if bs.length = 0 then some w
  else
    match find w.heap dst with
    | some (Obj.bytes old) =>
      if bs.length ≤ old.length
      then some { w with heap := put w.heap dst (Obj.bytes (bs ++ old.drop bs.length)) }
      else none
    | _ => none

/-- The collaborators of `rdma_getaddrinfo`: the value `ucma_init` returns, the
generic resolver (return code, entries, resolver-owned memory) and the
active-side hook `ucma_ib_resolve`, which works on the node in place. -/
structure Env where
  ucma_init : Int
  getaddrinfo : Ptr → Ptr → Option addrinfo → Int × List addrinfo × List (Ptr × List Nat)
  ucma_ib_resolve : Ptr → Option rdma_addrinfo → World → World

/-- Lines 48-83. -/
def ucma_convert_to_ai (k : Consts) (rai : rdma_addrinfo) : addrinfo :=
  let ai := ai_zero
  let ai := { ai with ai_flags := if rai.ai_flags &&& k.RAI_PASSIVE ≠ 0 then k.AI_PASSIVE else 0 }
  let ai := { ai with ai_flags :=
    ai.ai_flags ||| (if rai.ai_flags &&& k.RAI_NUMERICHOST ≠ 0 then k.AI_NUMERICHOST else 0) }
  let ai := { ai with ai_family := rai.ai_family }
  let ai :=
    if rai.ai_qp_type = k.IBV_QPT_RC then { ai with ai_socktype := k.SOCK_STREAM }
    else if rai.ai_qp_type = k.IBV_QPT_UD then { ai with ai_socktype := k.SOCK_DGRAM }
    else ai
  let ai :=
    if rai.ai_port_space = k.RDMA_PS_TCP then { ai with ai_protocol := k.IPPROTO_TCP }
    else if rai.ai_port_space = k.RDMA_PS_IPOIB ∨ rai.ai_port_space = k.RDMA_PS_UDP
    then { ai with ai_protocol := k.IPPROTO_UDP }
    else ai
  let ai :=
    if rai.ai_flags &&& k.RAI_PASSIVE ≠ 0
    then { ai with ai_addrlen := rai.ai_src_len, ai_addr := rai.ai_src_addr }
    else { ai with ai_addrlen := rai.ai_dst_len, ai_addr := rai.ai_dst_addr }
  let ai := { ai with ai_canonname := rai.ai_dst_canonname }
  { ai with ai_next := 0 }

/-- Lines 90-108: family, queue-pair type and port space of the entry `a`
written into `rai`; the two `switch` statements have no default. -/
def convert_fields (k : Consts) (rai : rdma_addrinfo) (a : addrinfo) : rdma_addrinfo :=
  let rai := { rai with ai_family := a.ai_family }
  let rai :=
    if a.ai_socktype = k.SOCK_STREAM then { rai with ai_qp_type := k.IBV_QPT_RC }
    else if a.ai_socktype = k.SOCK_DGRAM then { rai with ai_qp_type := k.IBV_QPT_UD }
    else rai
  if a.ai_protocol = k.IPPROTO_TCP then { rai with ai_port_space := k.RDMA_PS_TCP }
  else if a.ai_protocol = k.IPPROTO_UDP then { rai with ai_port_space := k.RDMA_PS_UDP }
  else rai

/-- Line 114-116: `ai->ai_canonname ? malloc(strlen(..) + 1) : NULL`, then the
`strcpy` when the pointer obtained is not `NULL`. -/
def copy_canonname (k : Consts) (mem : List (Ptr × List Nat)) (a : addrinfo) (w : World) :
    Option (Ptr × World) :=
  if a.ai_canonname = 0 then some (0, w)
  else
    match read_str mem a.ai_canonname with
    | none => none
    | some s =>
      if (malloc k s.length w).1 = 0 then some (0, (malloc k s.length w).2)
      else
        match write (malloc k s.length w).1 s (malloc k s.length w).2 with
        | none => none
        | some w2 => some ((malloc k s.length w).1, w2)

/-- Lines 118-127: the triple goes to the source side when the entry's
`ai_flags` has `RAI_PASSIVE`, to the destination side otherwise. -/
def place (k : Consts) (rai : rdma_addrinfo) (a : addrinfo) (addr canonname : Ptr) :
    rdma_addrinfo :=
  if a.ai_flags &&& k.RAI_PASSIVE ≠ 0
  then { rai with ai_src_addr := addr, ai_src_len := a.ai_addrlen,
                  ai_src_canonname := canonname }
  else { rai with ai_dst_addr := addr, ai_dst_len := a.ai_addrlen,
                  ai_dst_canonname := canonname }

/-- Lines 85-130.  `ai` points at a result set of the resolver; the entry read
is its first.  The node is returned on failure too: the fields of lines
90-108 are written before the first allocation. -/
def ucma_convert_to_rai (k : Consts) (rai : rdma_addrinfo) (ai : Ptr) (w : World) :
    Option (Int × rdma_addrinfo × World) :=
  match find w.heap ai with
  | some (Obj.gai (a :: _) mem) =>
    if (malloc k a.ai_addrlen w).1 = 0
    then some ((ERR k.ENOMEM (malloc k a.ai_addrlen w).2).1, convert_fields k rai a,
               (ERR k.ENOMEM (malloc k a.ai_addrlen w).2).2)
    else
      match copy_canonname k mem a (malloc k a.ai_addrlen w).2 with
      | none => none
      | some (canonname, w2) =>
        match read_mem mem a.ai_addr a.ai_addrlen with
        | none => none
        | some bs =>
          match write (malloc k a.ai_addrlen w).1 bs w2 with
          | none => none
          | some w3 =>
            some (0, place k (convert_fields k rai a) a (malloc k a.ai_addrlen w).1 canonname, w3)
  | _ => none

/-- The resolver call of line 148: on success the result set becomes one live
block, owned by the resolver, at a fresh address. -/
def getaddrinfo (env : Env) (node service : Ptr) (aih : Option addrinfo) (w : World) :
    Int × Ptr × World :=
  if (env.getaddrinfo node service aih).1 ≠ 0
  then ((env.getaddrinfo node service aih).1, 0,
        { w with trace := w.trace ++ [Event.getaddrinfo] })
  else
    (0, top w.heap + 1,
      { w with heap := (top w.heap + 1,
                 Obj.gai (env.getaddrinfo node service aih).2.1
                         (env.getaddrinfo node service aih).2.2) :: w.heap,
               trace := w.trace ++ [Event.getaddrinfo] })

/-- The resolver's `freeaddrinfo(ai)`: releases the whole result set. -/
def freeaddrinfo (ai : Ptr) (w : World) : Option World :=
  match find w.heap ai with
  | some (Obj.gai _ _) =>
    some { w with heap := erase w.heap ai, trace := w.trace ++ [Event.freeaddrinfo ai] }
  | _ => none

/-- Line 142: with hints, `rai->ai_flags = hints->ai_flags`. -/
def take_flags (hints : Option rdma_addrinfo) (rai : rdma_addrinfo) : rdma_addrinfo :=
  match hints with
  | some h => { rai with ai_flags := h.ai_flags }
  | none => rai

/-- Lines 132-155. -/
def ucma_convert_gai (k : Consts) (env : Env) (node service : Ptr)
    (hints : Option rdma_addrinfo) (rai : rdma_addrinfo) (w : World) :
    Option (Int × rdma_addrinfo × World) :=
  let aih := hints.map (ucma_convert_to_ai k)
  let rai := take_flags hints rai
  let g := getaddrinfo env node service aih w
  if g.1 ≠ 0 then some (g.1, rai, g.2.2)
  else
    match ucma_convert_to_rai k rai g.2.1 g.2.2 with
    | none => none
    | some (ret, rai2, w2) =>
      match freeaddrinfo g.2.1 w2 with
      | none => none
      | some w3 => some (ret, rai2, w3)

/-- Lines 157-167, returning the new values of `*dst` and `*dst_len`.  The
pointer `*dst` is overwritten by the `calloc` result whatever it held;
`*dst_len` keeps its value when the allocation fails. -/
def ucma_copy_ai_addr (k : Consts) (dst_len : Nat) (src : Ptr) (src_len : Nat) (w : World) :
    Option (Int × Ptr × Nat × World) :=
  if (calloc k src_len w).1 = 0
  then some ((ERR k.ENOMEM (calloc k src_len w).2).1, 0, dst_len,
             (ERR k.ENOMEM (calloc k src_len w).2).2)
  else
    match read_heap (calloc k src_len w).2.heap src src_len with
    | none => none
    | some bs =>
      match write (calloc k src_len w).1 bs (calloc k src_len w).2 with
      | none => none
      | some w2 => some (0, (calloc k src_len w).1, src_len, w2)

/-- Lines 224-247, the loop of `rdma_freeaddrinfo` with `n` iterations left. -/
def free_loop : Nat → Ptr → World → Option World
  | n, res, w =>
    if res = 0 then some w
    else
      match n with
      | 0 => none
      | m + 1 =>
        match find w.heap res with
        | some (Obj.rai rai) =>
          (free_if rai.ai_connect w).bind fun w1 =>
          (free_if rai.ai_route w1).bind fun w2 =>
          (free_if rai.ai_src_canonname w2).bind fun w3 =>
          (free_if rai.ai_dst_canonname w3).bind fun w4 =>
          (free_if rai.ai_src_addr w4).bind fun w5 =>
          (free_if rai.ai_dst_addr w5).bind fun w6 =>
          (free res w6).bind fun w7 =>
          free_loop m rai.ai_next w7
        | _ => none

/-- Lines 220-248.  Every iteration releases a live node, so the number of
live blocks bounds the number of iterations. -/
def rdma_freeaddrinfo (res : Ptr) (w : World) : Option World :=
  free_loop w.heap.length res w

/-- The call `ucma_init()` of line 179. -/
def ucma_init (env : Env) (w : World) : Int × World :=
  (env.ucma_init, { w with trace := w.trace ++ [Event.init] })

/-- The state of `rdma_getaddrinfo` between its stages: the value of `ret`,
the pointer `rai` (`NULL` before line 183), the fields of the node and the
world. -/
structure Stage where
  ret : Int
  rai : Ptr
  node : rdma_addrinfo
  w : World
deriving DecidableEq, Repr

/-- Lines 187-198: the name-based path when `node` or `service` is given, the
address-based path otherwise.  `ret` enters holding the `0` that `ucma_init`
returned. -/
def resolve_paths (k : Consts) (env : Env) (node service : Ptr)
    (hints : Option rdma_addrinfo) (ret : Int) (p : Ptr) (rai : rdma_addrinfo) (w : World) :
    Option Stage :=
  if node ≠ 0 ∨ service ≠ 0 then
    match ucma_convert_gai k env node service hints rai w with
    | none => none
    | some (ret2, rai2, w2) => some ⟨ret2, p, rai2, w2⟩
  else
    match hints with
    | none => none
    | some h =>
      let rai1 := { rai with ai_flags := h.ai_flags, ai_family := h.ai_family,
                             ai_qp_type := h.ai_qp_type, ai_port_space := h.ai_port_space }
      if h.ai_dst_len ≠ 0 then
        match ucma_copy_ai_addr k rai1.ai_dst_len h.ai_dst_addr h.ai_dst_len w with
        | none => none
        | some (ret2, d, dl, w2) =>
          some ⟨ret2, p, { rai1 with ai_dst_addr := d, ai_dst_len := dl }, w2⟩
      else some ⟨ret, p, rai1, w⟩

/-- Lines 202-207: the hints' source address is copied when the node has no
source length yet. -/
def backfill_src (k : Consts) (hints : Option rdma_addrinfo) (s : Stage) : Option Stage :=
  match hints with
  | none => some s
  | some h =>
    if s.node.ai_src_len = 0 ∧ h.ai_src_len ≠ 0 then
      match ucma_copy_ai_addr k s.node.ai_src_len h.ai_src_addr h.ai_src_len s.w with
      | none => none
      | some (ret2, a, al, w2) =>
        some ⟨ret2, s.rai, { s.node with ai_src_addr := a, ai_src_len := al }, w2⟩
    else some s

/-- The node's fields as they stand in memory at `s.rai`. -/
def commit (s : Stage) : World :=
  { s.w with heap := put s.w.heap s.rai (Obj.rai s.node) }

/-- Lines 215-217, the `err` label. -/
def err_exit (s : Stage) : Option Stage :=
  (rdma_freeaddrinfo s.rai (commit s)).map fun w2 => ⟨s.ret, s.rai, s.node, w2⟩

/-- Lines 176-207 and 215-217 of `rdma_getaddrinfo`: everything but the hook
and the store to `*res`.  On success (`ret = 0`) `rai` is the node built and
the world holds its fields. -/
def rdma_getaddrinfo_build (k : Consts) (env : Env) (node service : Ptr)
    (hints : Option rdma_addrinfo) (w : World) : Option Stage :=
  if service = 0 ∧ node = 0 ∧ hints = none
  then some ⟨(ERR k.EINVAL w).1, 0, rai_zero, (ERR k.EINVAL w).2⟩
  else if (ucma_init env w).1 ≠ 0
  then some ⟨(ucma_init env w).1, 0, rai_zero, (ucma_init env w).2⟩
  else if (calloc_rai k (ucma_init env w).2).1 = 0
  then some ⟨(ERR k.ENOMEM (calloc_rai k (ucma_init env w).2).2).1, 0, rai_zero,
             (ERR k.ENOMEM (calloc_rai k (ucma_init env w).2).2).2⟩
  else
    match resolve_paths k env node service hints (ucma_init env w).1
        (calloc_rai k (ucma_init env w).2).1 rai_zero (calloc_rai k (ucma_init env w).2).2 with
    | none => none
    | some s1 =>
      if s1.ret ≠ 0 then err_exit s1
      else
        match backfill_src k hints s1 with
        | none => none
        | some s2 =>
          if s2.ret ≠ 0 then err_exit s2
          else some ⟨0, s2.rai, s2.node, commit s2⟩

/-- What the caller sees: the value returned, the content of `*res` and the
world. -/
structure Outcome where
  ret : Int
  res : Ptr
  w : World
deriving DecidableEq, Repr

/-- Lines 169-218.  `res` is the content of the caller's slot `*res` on
entry. -/
def rdma_getaddrinfo (k : Consts) (env : Env) (node service : Ptr)
    (hints : Option rdma_addrinfo) (res : Ptr) (w : World) : Option Outcome :=
  match rdma_getaddrinfo_build k env node service hints w with
  | none => none
  | some s =>
    if s.ret ≠ 0 then some ⟨s.ret, res, s.w⟩
    else if s.node.ai_flags &&& k.RAI_PASSIVE = 0
    then some ⟨0, s.rai,
      env.ucma_ib_resolve s.rai hints
        { s.w with trace := s.w.trace ++ [Event.ib_resolve s.rai] }⟩
    else some ⟨0, s.rai, s.w⟩

/-- The world at line 187: `ucma_init` has returned `0` and the node has been
allocated at `top w.heap + 1`. -/
def entered (w : World) : World :=
  ⟨(top w.heap + 1, Obj.rai rai_zero) :: w.heap, w.plan.tail, w.errno,
   w.trace ++ [Event.init, Event.alloc (top w.heap + 1)]⟩

/-! ## Concrete scenarios -/

/-- Resolver-owned memory of the scenarios: an IPv4 socket address at `100`
and the name `"h"` at `200`. -/
def ex_mem : List (Ptr × List Nat) :=
  [(100, [2, 0, 19, 136, 10, 0, 0, 1, 0, 0, 0, 0, 0, 0, 0, 0]), (200, [104, 0])]

/-- A resolver entry: `AF_INET`, `SOCK_STREAM`, `IPPROTO_TCP`, a 16-byte
address and a canonical name; its `ai_flags` is `0`. -/
def ex_entry : addrinfo :=
  ⟨0, 2, 1, 6, 16, 100, 200, 0⟩

/-- A second resolver entry: `SOCK_DGRAM`, `IPPROTO_UDP`, no canonical name. -/
def ex_entry2 : addrinfo :=
  ⟨0, 2, 2, 17, 16, 100, 0, 0⟩

/-- An environment whose resolver answers every query with `ex_entry`; the
hook leaves the world as it is. -/
def ex_env : Env :=
  ⟨0, fun _ _ _ => (0, [ex_entry], ex_mem), fun _ _ w => w⟩

/-- An environment whose resolver fails with `-2` (`EAI_NONAME` on Linux). -/
def ex_env_fail : Env :=
  ⟨0, fun _ _ _ => (-2, [], []), fun _ _ w => w⟩

/-- A caller's world: one 4-byte buffer at address `7`, no allocation set to
fail. -/
def ex_world : World :=
  ⟨[(7, Obj.bytes [192, 168, 0, 1])], [], 0, []⟩

/-- Hints without flags that supply the buffer at `7` as source address. -/
def ex_hints_src : rdma_addrinfo :=
  { rai_zero with ai_src_len := 4, ai_src_addr := 7 }

/-- A world in which a resolver result set holding `ex_entry` is live at `50`;
the first allocation succeeds and the second fails. -/
def ex_world_gai : World :=
  ⟨[(50, Obj.gai [ex_entry] ex_mem)], [true, false], 0, []⟩

/-- Passive hints for `AF_INET`. -/
def ex_hints_passive : rdma_addrinfo :=
  { rai_zero with ai_flags := 1, ai_family := 2 }

/-- A resolver entry like `ex_entry` whose own `ai_flags` has bit `1`. -/
def ex_entry_flagged : addrinfo :=
  { ex_entry with ai_flags := 1 }

/-- An environment whose resolver answers every query with `ex_entry_flagged`. -/
def ex_env_flagged : Env :=
  ⟨0, fun _ _ _ => (0, [ex_entry_flagged], ex_mem), fun _ _ w => w⟩

/-- The node `rdma_getaddrinfo` builds from `ex_entry`. -/
def ex_node_dst : rdma_addrinfo :=
  { rai_zero with ai_family := 2, ai_qp_type := 2, ai_port_space := 262, ai_dst_len := 16,
                  ai_dst_addr := 10, ai_dst_canonname := 11 }

/-- The node `rdma_getaddrinfo` builds from `ex_entry_flagged`. -/
def ex_node_src : rdma_addrinfo :=
  { rai_zero with ai_family := 2, ai_qp_type := 2, ai_port_space := 262, ai_src_len := 16,
                  ai_src_addr := 10, ai_src_canonname := 11 }

/-- The blocks live after a successful name-based call from `ex_world` that
built `r`. -/
def ex_heap_built (r : rdma_addrinfo) : List (Ptr × Obj) :=
  [(11, Obj.bytes [104, 0]),
   (10, Obj.bytes [2, 0, 19, 136, 10, 0, 0, 1, 0, 0, 0, 0, 0, 0, 0, 0]),
   (8, Obj.rai r), (7, Obj.bytes [192, 168, 0, 1])]

/-- The trace of a successful name-based call from `ex_world`, before the hook. -/
def ex_trace_built : List Event :=
  [Event.init, Event.alloc 8, Event.getaddrinfo, Event.alloc 10, Event.alloc 11,
   Event.freeaddrinfo 9]

/-- Passive hints that supply only a destination address, the buffer at `7`. -/
def ex_hints_passive_dst : rdma_addrinfo :=
  { rai_zero with ai_flags := 1, ai_dst_len := 4, ai_dst_addr := 7 }

/-- Hints that carry only a queue-pair type and a port space. -/
def ex_hints_pair (qp ps : Nat) : rdma_addrinfo :=
  { rai_zero with ai_qp_type := qp, ai_port_space := ps }

/-- A world in which the resolver result set at `50` has one entry, whose
socket type and protocol are those `ucma_convert_to_ai` derives from the
hints `h`. -/
def ex_world_back (h : rdma_addrinfo) : World :=
  ⟨[(50, Obj.gai [{ ex_entry2 with ai_socktype := (ucma_convert_to_ai hdr h).ai_socktype,
                                   ai_protocol := (ucma_convert_to_ai hdr h).ai_protocol }]
        ex_mem)], [], 0, []⟩

/-- An environment whose resolver answers every query with `ex_entry`
followed by `ex_entry2`. -/
def ex_env_two : Env :=
  ⟨0, fun _ _ _ => (0, [ex_entry, ex_entry2], ex_mem), fun _ _ w => w⟩

/-- Hints for a reliable-connected TCP endpoint with the buffer at `7` as
destination address. -/
def ex_hints_dst : rdma_addrinfo :=
  { rai_zero with ai_family := 2, ai_qp_type := 2, ai_port_space := 262, ai_dst_len := 4,
                  ai_dst_addr := 7 }

/-- What the name-based path leaves from `ex_world` with `ex_env`: the node
`ex_node_dst`, not yet stored at address `8`. -/
def ex_stage_path : Stage :=
  ⟨0, 8, ex_node_dst, ⟨ex_heap_built rai_zero, [], 0, ex_trace_built⟩⟩

/-- The node after the back-fill from `ex_hints_src`. -/
def ex_node_both : rdma_addrinfo :=
  { ex_node_dst with ai_src_len := 4, ai_src_addr := 12 }

/-- What `rdma_getaddrinfo_build` returns from `ex_world` with `ex_env` and
`ex_hints_src`. -/
def ex_stage_done : Stage :=
  ⟨0, 8, ex_node_both,
   ⟨(12, Obj.bytes [192, 168, 0, 1]) :: ex_heap_built ex_node_both, [], 0,
    ex_trace_built ++ [Event.alloc 12]⟩⟩

/-- Modelled from the spec: the declaration of `ucma_ib_resolve` (`cma.h`) is
not among the source files; the spec lets the active-side hook fail with a
code.  A hook works on the node in place and reports a status, `0` for
success. -/
abbrev Hook := Ptr → Option rdma_addrinfo → World → Int × World

/-- Line 210, `ucma_ib_resolve(rai, hints);`: the call is an expression
statement, so whatever status the hook reports is dropped and only its effect
on the world remains. -/
def ib_resolve_stmt (hk : Hook) : Ptr → Option rdma_addrinfo → World → World :=
  fun rai hints w => (hk rai hints w).2

/-- A hook that fails with `-1` and leaves `ETIMEDOUT` (110) in `errno`. -/
def ex_hook_fail : Hook :=
  fun _ _ w => (-1, { w with errno := 110 })

/-- The environment of `ex_env` with the failing hook `ex_hook_fail`. -/
def ex_env_hook_fail : Env :=
  ⟨0, fun _ _ _ => (0, [ex_entry], ex_mem), ib_resolve_stmt ex_hook_fail⟩

/-- Hints with `RAI_PASSIVE`, a source address, a source name at `30` and no
destination name. -/
def ex_hints_names : rdma_addrinfo :=
  { rai_zero with ai_flags := 1, ai_src_len := 4, ai_src_addr := 7, ai_src_canonname := 30 }

/-- Hints whose flags word has every RDMA flag: `RAI_PASSIVE`,
`RAI_NUMERICHOST`, `RAI_NOROUTE` and `RAI_FAMILY`. -/
def ex_hints_all_flags : rdma_addrinfo :=
  { rai_zero with ai_flags := 15 }

/-- A world in which a resolver result set holding `ex_entry` is live at `50`
and no allocation is set to fail. -/
def ex_world_gai_ok : World :=
  ⟨[(50, Obj.gai [ex_entry] ex_mem)], [], 0, []⟩

/-- A resolver entry with socket type `SOCK_RAW` (3) and protocol
`IPPROTO_ICMP` (1), which the translation tables do not know. -/
def ex_entry_raw : addrinfo :=
  ⟨0, 2, 3, 1, 16, 100, 0, 0⟩

/-- An environment whose resolver answers every query with `ex_entry_raw`. -/
def ex_env_raw : Env :=
  ⟨0, fun _ _ _ => (0, [ex_entry_raw], ex_mem), fun _ _ w => w⟩

/-- The node `ucma_convert_to_rai` builds from `ex_entry` in `ex_world_gai_ok`. -/
def ex_node_built_51 : rdma_addrinfo :=
  { rai_zero with ai_family := 2, ai_qp_type := 2, ai_port_space := 262, ai_dst_len := 16,
                  ai_dst_addr := 51, ai_dst_canonname := 52 }

/-- The blocks live after that translation. -/
def ex_heap_51 : List (Ptr × Obj) :=
  [(52, Obj.bytes [104, 0]),
   (51, Obj.bytes [2, 0, 19, 136, 10, 0, 0, 1, 0, 0, 0, 0, 0, 0, 0, 0]),
   (50, Obj.gai [ex_entry] ex_mem)]

/-- Whether an event records a call of the active-side hook. -/
def is_hook_call : Event → Bool
  | Event.ib_resolve _ => true
  | _ => false

/-- How many calls of the active-side hook a trace records. -/
def hook_calls (l : List Event) : Nat :=
  (l.filter is_hook_call).length

/-- What the name-based call of `ex_env` without hints returns from
`ex_world`. -/
def ex_outcome_hooked : Outcome :=
  ⟨0, 8, ⟨ex_heap_built ex_node_dst, [], 0, ex_trace_built ++ [Event.ib_resolve 8]⟩⟩

/-- The guarded releases `if (p) free(p);` of a list of pointers, in order. -/
def free_ifs : List Ptr → World → Option World
  | [], w => some w
  | p :: t, w => (free_if p w).bind (free_ifs t)

/-- The six buffer fields of a node in the order lines 228-244 test them. -/
def buffer_fields (r : rdma_addrinfo) : List Ptr :=
  [r.ai_connect, r.ai_route, r.ai_src_canonname, r.ai_dst_canonname, r.ai_src_addr,
    r.ai_dst_addr]

/-- The spec's release sequence of one node stored at `p`: connection blob,
route blob, source canonical name, destination canonical name, source address
buffer, destination address buffer, each only when non-null, then the node. -/
def spec_node_releases (p : Ptr) (r : rdma_addrinfo) : List Ptr :=
  (buffer_fields r).filter (fun q => decide (q ≠ 0)) ++ [p]

/-- The spec's release sequence of a result list: the nodes head to tail. -/
def spec_release_order : List (Ptr × rdma_addrinfo) → List Ptr
  | [] => []
  | (p, r) :: rest => spec_node_releases p r ++ spec_release_order rest

/-- The list headed by `res` in heap `h` consists of `nodes`: each node is live
at its address, linked to the next by `ai_next`, the last link being `NULL`. -/
def chain (h : List (Ptr × Obj)) : Ptr → List (Ptr × rdma_addrinfo) → Bool
  | res, [] => decide (res = 0)
  | res, (p, r) :: rest =>
    decide (res = p) && decide (p ≠ 0) && decide (find h p = some (Obj.rai r)) &&
      chain h r.ai_next rest

/-- The world after the blocks of `l` were released in order. -/
def free_all (l : List Ptr) (w : World) : World :=
  ⟨l.foldl erase w.heap, w.plan, w.errno, w.trace ++ l.map Event.free⟩

/-- A list of two nodes: the first at `10` with a source address and a
destination name, the second at `20` with a connection blob, a route blob and a
destination address. -/
def ex_list_nodes : List (Ptr × rdma_addrinfo) :=
  [(10, ⟨0, 2, 2, 262, 4, 0, 11, 0, 0, 12, 0, 0, 20⟩),
   (20, ⟨0, 2, 2, 262, 0, 4, 0, 21, 0, 0, 23, 22, 0⟩)]

/-- A world holding the list `ex_list_nodes` and a block of the caller. -/
def ex_world_list : World :=
  ⟨[(23, Obj.bytes [9]), (22, Obj.bytes [8]), (21, Obj.bytes [10, 0, 0, 2]),
    (20, Obj.rai ⟨0, 2, 2, 262, 0, 4, 0, 21, 0, 0, 23, 22, 0⟩),
    (12, Obj.bytes [104, 0]), (11, Obj.bytes [10, 0, 0, 1]),
    (10, Obj.rai ⟨0, 2, 2, 262, 4, 0, 11, 0, 0, 12, 0, 0, 20⟩),
    (7, Obj.bytes [1])], [], 0, [Event.init]⟩

/-- A world whose single node at `10` names the block `11` as both its source
and its destination address. -/
def ex_world_alias : World :=
  ⟨[(11, Obj.bytes [10, 0, 0, 1]),
    (10, Obj.rai ⟨0, 2, 2, 262, 4, 4, 11, 11, 0, 0, 0, 0, 0⟩)], [], 0, []⟩

/-- The environment of `ex_env` with a first entry whose address length is
zero. -/
def ex_env_empty_addr : Env :=
  ⟨0, fun _ _ _ => (0, [{ ex_entry with ai_addrlen := 0 }], ex_mem), fun _ _ w => w⟩

theorem top_fresh (h : List (Ptr × Obj)) (o : Obj) :
    top ((top h + 1, o) :: h) = top h + 1 := by
  simp [top]

theorem find_le_top (h : List (Ptr × Obj)) (p : Nat) (o : Obj) (hf : find h p = some o) :
    p ≤ top h := by
  induction h with
  | nil => simp [find] at hf
  | cons b t ih =>
    obtain ⟨q, x⟩ := b
    simp only [find] at hf
    simp only [top]
    by_cases hq : q = p
    · subst hq; exact Nat.le_max_left _ _
    · rw [if_neg hq] at hf
      exact le_trans (ih hf) (Nat.le_max_right _ _)

theorem find_fresh (h : List (Ptr × Obj)) : find h (top h + 1) = none := by
  cases hf : find h (top h + 1) with
  | none => rfl
  | some o => exact absurd (find_le_top h _ o hf) (Nat.not_succ_le_self _)

theorem read_heap_length (h : List (Ptr × Obj)) (p : Ptr) (n : Nat) (bs : List Nat)
    (hr : read_heap h p n = some bs) : bs.length = n := by
  unfold read_heap at hr
  by_cases hn : n = 0
  · simp [hn] at hr; subst hn; simp [← hr]
  · rw [if_neg hn] at hr
    split at hr
    · split at hr
      · simp at hr; subst hr; simp; omega
      · simp at hr
    · simp at hr

theorem read_mem_length (m : List (Ptr × List Nat)) (p : Ptr) (n : Nat) (bs : List Nat)
    (hr : read_mem m p n = some bs) : bs.length = n := by
  unfold read_mem at hr
  by_cases hn : n = 0
  · simp [hn] at hr; subst hn; simp [← hr]
  · rw [if_neg hn] at hr
    split at hr
    · split at hr
      · simp at hr; subst hr; simp; omega
      · simp at hr
    · simp at hr

theorem read_heap_grow (h : List (Ptr × Obj)) (o : Obj) (p : Ptr) (n : Nat) :
    read_heap h p n = none ∨ read_heap ((top h + 1, o) :: h) p n = read_heap h p n := by
  unfold read_heap
  by_cases hn : n = 0
  · simp [hn]
  · simp only [if_neg hn, find]
    by_cases hp : top h + 1 = p
    · left; subst hp; simp [find_fresh]
    · right; simp [hp]

theorem write_head (p : Ptr) (bs : List Nat) (n : Nat) (h : List (Ptr × Obj)) (pl : List Bool)
    (e : Int) (tr : List Event) (hl : bs.length = n) :
    write p bs ⟨(p, Obj.bytes (List.replicate n 0)) :: h, pl, e, tr⟩ =
      some ⟨(p, Obj.bytes bs) :: h, pl, e, tr⟩ := by
  unfold write
  by_cases hb : bs.length = 0
  · have : bs = [] := List.length_eq_zero.mp hb
    subst this; simp at hl; subst hl; simp
  · simp [hb, find, put, hl]
    intro h0; exact absurd (hl.trans h0) hb

theorem write_second (p q : Ptr) (o : Obj) (bs : List Nat) (n : Nat) (h : List (Ptr × Obj))
    (pl : List Bool) (e : Int) (tr : List Event) (hl : bs.length = n) (hq : q ≠ p) :
    write p bs ⟨(q, o) :: (p, Obj.bytes (List.replicate n 0)) :: h, pl, e, tr⟩ =
      some ⟨(q, o) :: (p, Obj.bytes bs) :: h, pl, e, tr⟩ := by
  unfold write
  by_cases hb : bs.length = 0
  · have : bs = [] := List.length_eq_zero.mp hb
    subst this; simp at hl; subst hl; simp
  · simp [hb, find, put, hl, hq]
    intro h0; exact absurd (hl.trans h0) hb

/-- Normal form of `ucma_copy_ai_addr`. -/
theorem ucma_copy_ai_addr_eq (k : Consts) (dl : Nat) (src : Ptr) (n : Nat) (w : World) :
    ucma_copy_ai_addr k dl src n w =
      if w.plan.head? = some false
      then some (-1, 0, dl, ⟨w.heap, w.plan.tail, k.ENOMEM, w.trace ++ [Event.alloc 0]⟩)
      else
        (read_heap ((top w.heap + 1, Obj.bytes (List.replicate n 0)) :: w.heap) src n).map
          fun bs => (0, top w.heap + 1, n,
            ⟨(top w.heap + 1, Obj.bytes bs) :: w.heap, w.plan.tail, w.errno,
             w.trace ++ [Event.alloc (top w.heap + 1)]⟩) := by
  unfold ucma_copy_ai_addr calloc alloc
  by_cases hp : w.plan.head? = some false
  · simp [hp, ERR]
  · simp only [if_neg hp]
    cases hr : read_heap ((top w.heap + 1, Obj.bytes (List.replicate n 0)) :: w.heap) src n with
    | none => simp
    | some bs =>
      have hl := read_heap_length _ _ _ _ hr
      simp [write_head _ _ _ _ _ _ _ hl]

/-! ## Normal forms of the translation steps -/

/-- Normal form of `ucma_convert_to_rai` on a result set whose first entry is `a`. -/
theorem ucma_convert_to_rai_eq (k : Consts) (rai : rdma_addrinfo) (ai : Ptr) (w : World)
    (a : addrinfo) (rest : List addrinfo) (mem : List (Ptr × List Nat))
    (hf : find w.heap ai = some (Obj.gai (a :: rest) mem)) :
    ucma_convert_to_rai k rai ai w =
      if w.plan.head? = some false
      then some (-1, convert_fields k rai a,
                 ⟨w.heap, w.plan.tail, k.ENOMEM, w.trace ++ [Event.alloc 0]⟩)
      else
        match read_mem mem a.ai_addr a.ai_addrlen with
        | none => none
        | some bs =>
          if a.ai_canonname = 0
          then some (0, place k (convert_fields k rai a) a (top w.heap + 1) 0,
                     ⟨(top w.heap + 1, Obj.bytes bs) :: w.heap, w.plan.tail, w.errno,
                      w.trace ++ [Event.alloc (top w.heap + 1)]⟩)
          else
            match read_str mem a.ai_canonname with
            | none => none
            | some s =>
              if w.plan.tail.head? = some false
              then some (0, place k (convert_fields k rai a) a (top w.heap + 1) 0,
                         ⟨(top w.heap + 1, Obj.bytes bs) :: w.heap, w.plan.tail.tail, k.ENOMEM,
                          w.trace ++ [Event.alloc (top w.heap + 1), Event.alloc 0]⟩)
              else some (0, place k (convert_fields k rai a) a (top w.heap + 1) (top w.heap + 2),
                         ⟨(top w.heap + 2, Obj.bytes s) :: (top w.heap + 1, Obj.bytes bs) :: w.heap,
                          w.plan.tail.tail, w.errno,
                          w.trace ++ [Event.alloc (top w.heap + 1),
                                      Event.alloc (top w.heap + 2)]⟩) := by
  unfold ucma_convert_to_rai
  rw [hf]
  by_cases hp : w.plan.head? = some false
  · simp [malloc, alloc, hp, ERR]
  · simp only [malloc, alloc, if_neg hp, Nat.add_one_ne_zero, if_false]
    by_cases hc : a.ai_canonname = 0
    · simp only [copy_canonname, hc, if_true]
      cases hr : read_mem mem a.ai_addr a.ai_addrlen with
      | none => simp
      | some bs =>
        have hl := read_mem_length _ _ _ _ hr
        simp [write_head _ _ _ _ _ _ _ hl]
    · simp only [copy_canonname, hc, if_false]
      cases hs : read_str mem a.ai_canonname with
      | none =>
        cases hr : read_mem mem a.ai_addr a.ai_addrlen <;> simp
      | some s =>
        by_cases hp2 : w.plan.tail.head? = some false
        · simp only [malloc, alloc, hp2, if_true]
          cases hr : read_mem mem a.ai_addr a.ai_addrlen with
          | none => simp
          | some bs =>
            have hl := read_mem_length _ _ _ _ hr
            simp [write_head _ _ _ _ _ _ _ hl]
        · simp only [malloc, alloc, hp2, if_false, Nat.add_one_ne_zero, top_fresh]
          rw [write_head _ _ _ _ _ _ _ rfl]
          cases hr : read_mem mem a.ai_addr a.ai_addrlen with
          | none => simp
          | some bs =>
            have hl := read_mem_length _ _ _ _ hr
            simp [write_second _ _ _ _ _ _ _ _ _ hl]

/-- The node `ucma_convert_gai` works on after line 142. -/
theorem ucma_convert_gai_fail (k : Consts) (env : Env) (node service : Ptr)
    (hints : Option rdma_addrinfo) (rai : rdma_addrinfo) (w : World)
    (hE : (env.getaddrinfo node service (hints.map (ucma_convert_to_ai k))).1 ≠ 0) :
    ucma_convert_gai k env node service hints rai w =
      some ((env.getaddrinfo node service (hints.map (ucma_convert_to_ai k))).1,
            (take_flags hints rai),
            ⟨w.heap, w.plan, w.errno, w.trace ++ [Event.getaddrinfo]⟩) := by
  simp [ucma_convert_gai, getaddrinfo, hE]

theorem ucma_convert_gai_nil (k : Consts) (env : Env) (node service : Ptr)
    (hints : Option rdma_addrinfo) (rai : rdma_addrinfo) (w : World)
    (mem : List (Ptr × List Nat))
    (hE : env.getaddrinfo node service (hints.map (ucma_convert_to_ai k)) = (0, [], mem)) :
    ucma_convert_gai k env node service hints rai w = none := by
  simp [ucma_convert_gai, getaddrinfo, hE, ucma_convert_to_rai, find]

/-- Normal form of `ucma_convert_gai` when the resolver succeeds with first entry `a`. -/
theorem ucma_convert_gai_eq (k : Consts) (env : Env) (node service : Ptr)
    (hints : Option rdma_addrinfo) (rai : rdma_addrinfo) (w : World)
    (a : addrinfo) (rest : List addrinfo) (mem : List (Ptr × List Nat))
    (hE : env.getaddrinfo node service (hints.map (ucma_convert_to_ai k)) = (0, a :: rest, mem)) :
    ucma_convert_gai k env node service hints rai w =
      if w.plan.head? = some false
      then some (-1, convert_fields k (take_flags hints rai) a,
                 ⟨w.heap, w.plan.tail, k.ENOMEM,
                  w.trace ++ [Event.getaddrinfo, Event.alloc 0,
                              Event.freeaddrinfo (top w.heap + 1)]⟩)
      else
        match read_mem mem a.ai_addr a.ai_addrlen with
        | none => none
        | some bs =>
          if a.ai_canonname = 0
          then some (0, place k (convert_fields k (take_flags hints rai) a) a (top w.heap + 2) 0,
                     ⟨(top w.heap + 2, Obj.bytes bs) :: w.heap, w.plan.tail, w.errno,
                      w.trace ++ [Event.getaddrinfo, Event.alloc (top w.heap + 2),
                                  Event.freeaddrinfo (top w.heap + 1)]⟩)
          else
            match read_str mem a.ai_canonname with
            | none => none
            | some s =>
              if w.plan.tail.head? = some false
              then some (0, place k (convert_fields k (take_flags hints rai) a) a (top w.heap + 2) 0,
                         ⟨(top w.heap + 2, Obj.bytes bs) :: w.heap, w.plan.tail.tail, k.ENOMEM,
                          w.trace ++ [Event.getaddrinfo, Event.alloc (top w.heap + 2),
                                      Event.alloc 0, Event.freeaddrinfo (top w.heap + 1)]⟩)
              else some (0, place k (convert_fields k (take_flags hints rai) a) a (top w.heap + 2) (top w.heap + 3),
                         ⟨(top w.heap + 3, Obj.bytes s) :: (top w.heap + 2, Obj.bytes bs) :: w.heap,
                          w.plan.tail.tail, w.errno,
                          w.trace ++ [Event.getaddrinfo, Event.alloc (top w.heap + 2),
                                      Event.alloc (top w.heap + 3),
                                      Event.freeaddrinfo (top w.heap + 1)]⟩) := by
  unfold ucma_convert_gai getaddrinfo
  simp only [hE, ne_eq, not_true_eq_false, if_false]
  rw [ucma_convert_to_rai_eq k _ _ _ a rest mem (by simp [find])]
  simp only [top_fresh]
  by_cases hp : w.plan.head? = some false
  · simp [hp, freeaddrinfo, find, erase]
  · simp only [if_neg hp]
    cases hr : read_mem mem a.ai_addr a.ai_addrlen with
    | none => simp
    | some bs =>
      by_cases hc : a.ai_canonname = 0
      · simp [hc, freeaddrinfo, find, erase]
      · simp only [if_neg hc]
        cases hs : read_str mem a.ai_canonname with
        | none => simp
        | some s =>
          by_cases hp2 : w.plan.tail.head? = some false
          · simp only [if_pos hp2]
            simp [freeaddrinfo, find, erase]
          · simp only [if_neg hp2]
            simp [freeaddrinfo, find, erase]

/-! ## The stages of `rdma_getaddrinfo` -/

theorem free_loop_null (n : Nat) (w : World) : free_loop n 0 w = some w := by
  cases n <;> simp [free_loop]

/-- Past the argument check, with `ucma_init` returning `0` and the node
allocated, `rdma_getaddrinfo_build` is the path, the back-fill and the `err`
label run from `entered w`. -/
theorem build_entered (k : Consts) (env : Env) (node service : Ptr)
    (hints : Option rdma_addrinfo) (w : World)
    (harg : ¬ (service = 0 ∧ node = 0 ∧ hints = none)) (hinit : env.ucma_init = 0)
    (halloc : w.plan.head? ≠ some false) :
    rdma_getaddrinfo_build k env node service hints w =
      match resolve_paths k env node service hints 0 (top w.heap + 1) rai_zero (entered w) with
      | none => none
      | some s1 =>
        if s1.ret ≠ 0 then err_exit s1
        else
          match backfill_src k hints s1 with
          | none => none
          | some s2 =>
            if s2.ret ≠ 0 then err_exit s2
            else some ⟨0, s2.rai, s2.node, commit s2⟩ := by
  unfold rdma_getaddrinfo_build
  rw [if_neg harg]
  have h1 : ucma_init env w = (0, ⟨w.heap, w.plan, w.errno, w.trace ++ [Event.init]⟩) := by
    simp [ucma_init, hinit]
  rw [h1]
  have h2 : calloc_rai k ⟨w.heap, w.plan, w.errno, w.trace ++ [Event.init]⟩ =
      (top w.heap + 1, entered w) := by
    simp [calloc_rai, alloc, halloc, entered]
  simp only [h2, ne_eq, not_true_eq_false, if_false, Nat.add_one_ne_zero]

/-- The three early returns of lines 176-185. -/
theorem build_early (k : Consts) (env : Env) (node service : Ptr)
    (hints : Option rdma_addrinfo) (w : World) (s : Stage)
    (hb : rdma_getaddrinfo_build k env node service hints w = some s)
    (h : (service = 0 ∧ node = 0 ∧ hints = none) ∨ env.ucma_init ≠ 0 ∨
         w.plan.head? = some false) :
    s.ret ≠ 0 ∧ s.w.heap = w.heap := by
  unfold rdma_getaddrinfo_build at hb
  by_cases harg : service = 0 ∧ node = 0 ∧ hints = none
  · rw [if_pos harg] at hb
    simp [ERR] at hb
    subst hb; simp
  · rw [if_neg harg] at hb
    by_cases hi : env.ucma_init = 0
    · have hp : w.plan.head? = some false := by
        rcases h with h | h | h
        · exact absurd h harg
        · exact absurd hi h
        · exact h
      simp [ucma_init, hi, calloc_rai, alloc, hp, ERR] at hb
      subst hb; simp
    · simp [ucma_init, hi] at hb
      subst hb; simp [hi]

theorem convert_fields_shape (k : Consts) (r : rdma_addrinfo) (a : addrinfo) :
    convert_fields k r a =
      { r with ai_family := a.ai_family,
               ai_qp_type := (convert_fields k r a).ai_qp_type,
               ai_port_space := (convert_fields k r a).ai_port_space } := by
  unfold convert_fields
  split_ifs <;> rfl

theorem take_flags_shape (hints : Option rdma_addrinfo) (r : rdma_addrinfo) :
    take_flags hints r = { r with ai_flags := (take_flags hints r).ai_flags } := by
  cases hints <;> rfl

theorem err_exit_ret (s s2 : Stage) (h : err_exit s = some s2) : s2.ret = s.ret := by
  unfold err_exit at h
  cases hf : rdma_freeaddrinfo s.rai (commit s) with
  | none => rw [hf] at h; simp at h
  | some w2 => rw [hf] at h; simp at h; rw [← h]

/-- A successful `rdma_getaddrinfo_build` ran a successful path and a
successful back-fill from `entered w`. -/
theorem build_success (k : Consts) (env : Env) (node service : Ptr)
    (hints : Option rdma_addrinfo) (w : World) (s : Stage)
    (hb : rdma_getaddrinfo_build k env node service hints w = some s) (hs : s.ret = 0) :
    ¬ (service = 0 ∧ node = 0 ∧ hints = none) ∧ env.ucma_init = 0 ∧
    w.plan.head? ≠ some false ∧
    ∃ s1 s2, resolve_paths k env node service hints 0 (top w.heap + 1) rai_zero (entered w) =
        some s1 ∧ s1.ret = 0 ∧ backfill_src k hints s1 = some s2 ∧ s2.ret = 0 ∧
      s = ⟨0, s2.rai, s2.node, commit s2⟩ := by
  by_cases hearly : (service = 0 ∧ node = 0 ∧ hints = none) ∨ env.ucma_init ≠ 0 ∨
      w.plan.head? = some false
  · exact absurd hs (build_early k env node service hints w s hb hearly).1
  · simp only [not_or, not_not] at hearly
    obtain ⟨harg, hinit, halloc⟩ := hearly
    refine ⟨harg, hinit, halloc, ?_⟩
    rw [build_entered k env node service hints w harg hinit halloc] at hb
    cases h1 : resolve_paths k env node service hints 0 (top w.heap + 1) rai_zero (entered w) with
    | none => rw [h1] at hb; simp at hb
    | some s1 =>
      rw [h1] at hb
      simp only at hb
      by_cases hr1 : s1.ret = 0
      · simp only [hr1, ne_eq, not_true_eq_false, if_false] at hb
        cases h2 : backfill_src k hints s1 with
        | none => rw [h2] at hb; simp at hb
        | some s2 =>
          rw [h2] at hb
          simp only at hb
          by_cases hr2 : s2.ret = 0
          · simp only [hr2, not_true_eq_false, if_false, Option.some.injEq] at hb
            exact ⟨s1, s2, rfl, hr1, h2, hr2, hb.symm⟩
          · simp only [hr2, not_false_eq_true, if_true] at hb
            exact absurd ((err_exit_ret s2 s hb).symm.trans hs) hr2
      · simp only [ne_eq, hr1, not_false_eq_true, if_true] at hb
        exact absurd ((err_exit_ret s1 s hb).symm.trans hs) hr1

/-- What a successful name-based path leaves: the node carries the first
entry's triple at `x = top w.heap + 3`, with the canonical name either absent
or copied at `x + 1`. -/
theorem paths_name_success (k : Consts) (env : Env) (node service : Ptr)
    (hints : Option rdma_addrinfo) (w : World) (s1 : Stage)
    (a : addrinfo) (rest : List addrinfo) (mem : List (Ptr × List Nat))
    (hpath : node ≠ 0 ∨ service ≠ 0)
    (hE : env.getaddrinfo node service (hints.map (ucma_convert_to_ai k)) = (0, a :: rest, mem))
    (h1 : resolve_paths k env node service hints 0 (top w.heap + 1) rai_zero (entered w) =
      some s1) (hr1 : s1.ret = 0) :
    ∃ bs c E pl en tr, read_mem mem a.ai_addr a.ai_addrlen = some bs ∧
      s1 = ⟨0, top w.heap + 1,
            place k (convert_fields k (take_flags hints rai_zero) a) a (top w.heap + 3) c,
            ⟨E ++ (top w.heap + 3, Obj.bytes bs) :: (entered w).heap, pl, en, tr⟩⟩ ∧
      ((c = 0 ∧ E = []) ∨
       (c = top w.heap + 4 ∧ a.ai_canonname ≠ 0 ∧
          ∃ str, read_str mem a.ai_canonname = some str ∧ E = [(c, Obj.bytes str)])) := by
  unfold resolve_paths at h1
  rw [if_pos hpath, ucma_convert_gai_eq k env node service hints _ _ a rest mem hE] at h1
  have ht : top (entered w).heap = top w.heap + 1 := by simp [entered, top_fresh]
  simp only [ht] at h1
  by_cases hp1 : (entered w).plan.head? = some false
  · simp only [if_pos hp1, Option.some.injEq] at h1
    rw [← h1] at hr1; simp at hr1
  · simp only [if_neg hp1] at h1
    cases hr : read_mem mem a.ai_addr a.ai_addrlen with
    | none => rw [hr] at h1; simp at h1
    | some bs =>
      rw [hr] at h1
      simp only at h1
      by_cases hcn : a.ai_canonname = 0
      · simp only [if_pos hcn, Option.some.injEq] at h1
        exact ⟨bs, 0, [], _, _, _, rfl, by rw [← h1]; rfl, Or.inl ⟨rfl, rfl⟩⟩
      · simp only [if_neg hcn] at h1
        cases hs : read_str mem a.ai_canonname with
        | none => rw [hs] at h1; simp at h1
        | some str =>
          rw [hs] at h1
          by_cases hp2 : (entered w).plan.tail.head? = some false
          · simp only [if_pos hp2, Option.some.injEq] at h1
            exact ⟨bs, 0, [], _, _, _, rfl, by rw [← h1]; rfl, Or.inl ⟨rfl, rfl⟩⟩
          · simp only [if_neg hp2, Option.some.injEq] at h1
            exact ⟨bs, top w.heap + 4, [(top w.heap + 4, Obj.bytes str)], _, _, _, rfl,
              by rw [← h1]; rfl, Or.inr ⟨rfl, hcn, str, rfl, rfl⟩⟩

/-- What a successful address-based path leaves. -/
theorem paths_addr_success (k : Consts) (env : Env) (node service : Ptr)
    (h : rdma_addrinfo) (w : World) (s1 : Stage)
    (hpath : ¬ (node ≠ 0 ∨ service ≠ 0))
    (h1 : resolve_paths k env node service (some h) 0 (top w.heap + 1) rai_zero (entered w) =
      some s1) (hr1 : s1.ret = 0) :
    (h.ai_dst_len = 0 ∧
      s1 = ⟨0, top w.heap + 1,
            { rai_zero with ai_flags := h.ai_flags, ai_family := h.ai_family,
                            ai_qp_type := h.ai_qp_type, ai_port_space := h.ai_port_space },
            entered w⟩) ∨
    (h.ai_dst_len ≠ 0 ∧
      ∃ bs, read_heap ((top w.heap + 2, Obj.bytes (List.replicate h.ai_dst_len 0)) ::
              (entered w).heap) h.ai_dst_addr h.ai_dst_len = some bs ∧
        s1 = ⟨0, top w.heap + 1,
              { rai_zero with ai_flags := h.ai_flags, ai_family := h.ai_family,
                              ai_qp_type := h.ai_qp_type, ai_port_space := h.ai_port_space,
                              ai_dst_addr := top w.heap + 2, ai_dst_len := h.ai_dst_len },
              ⟨(top w.heap + 2, Obj.bytes bs) :: (entered w).heap, (entered w).plan.tail,
               w.errno, (entered w).trace ++ [Event.alloc (top w.heap + 2)]⟩⟩) := by
  unfold resolve_paths at h1
  rw [if_neg hpath] at h1
  have ht : top (entered w).heap = top w.heap + 1 := by simp [entered, top_fresh]
  simp only [ucma_copy_ai_addr_eq, ht] at h1
  by_cases hd : h.ai_dst_len = 0
  · left
    simp only [hd, ne_eq, not_true_eq_false, if_false, Option.some.injEq] at h1
    exact ⟨hd, h1.symm⟩
  · right
    simp only [hd, ne_eq, not_false_eq_true, if_true] at h1
    by_cases hp1 : (entered w).plan.head? = some false
    · simp only [if_pos hp1, Option.some.injEq] at h1
      rw [← h1] at hr1; simp at hr1
    · simp only [if_neg hp1] at h1
      cases hr : read_heap ((top w.heap + 2, Obj.bytes (List.replicate h.ai_dst_len 0)) ::
              (entered w).heap) h.ai_dst_addr h.ai_dst_len with
      | none => rw [hr] at h1; simp at h1
      | some bs =>
        rw [hr] at h1
        simp only [Option.map, Option.some.injEq] at h1
        exact ⟨hd, bs, rfl, by rw [← h1]; rfl⟩

/-- What a successful back-fill does: nothing, or a copy of the hints' source
address at a fresh address. -/
theorem backfill_success (k : Consts) (hints : Option rdma_addrinfo) (s1 s2 : Stage)
    (h2 : backfill_src k hints s1 = some s2) (hr2 : s2.ret = 0) :
    (s2 = s1 ∧ ∀ h, hints = some h → ¬ (s1.node.ai_src_len = 0 ∧ h.ai_src_len ≠ 0)) ∨
    (∃ h bs, hints = some h ∧ s1.node.ai_src_len = 0 ∧ h.ai_src_len ≠ 0 ∧
      read_heap ((top s1.w.heap + 1, Obj.bytes (List.replicate h.ai_src_len 0)) :: s1.w.heap)
        h.ai_src_addr h.ai_src_len = some bs ∧
      s2 = ⟨0, s1.rai,
            { s1.node with ai_src_addr := top s1.w.heap + 1, ai_src_len := h.ai_src_len },
            ⟨(top s1.w.heap + 1, Obj.bytes bs) :: s1.w.heap, s1.w.plan.tail, s1.w.errno,
             s1.w.trace ++ [Event.alloc (top s1.w.heap + 1)]⟩⟩) := by
  unfold backfill_src at h2
  cases hints with
  | none =>
    simp only [Option.some.injEq] at h2
    exact Or.inl ⟨h2.symm, by intro h hh; cases hh⟩
  | some h =>
    simp only at h2
    by_cases hcond : s1.node.ai_src_len = 0 ∧ h.ai_src_len ≠ 0
    · right
      rw [if_pos hcond, ucma_copy_ai_addr_eq] at h2
      by_cases hpl : s1.w.plan.head? = some false
      · simp only [if_pos hpl, Option.some.injEq] at h2
        rw [← h2] at hr2; simp at hr2
      · simp only [if_neg hpl] at h2
        cases hr : read_heap ((top s1.w.heap + 1, Obj.bytes (List.replicate h.ai_src_len 0)) ::
            s1.w.heap) h.ai_src_addr h.ai_src_len with
        | none => rw [hr] at h2; simp at h2
        | some bs =>
          rw [hr] at h2
          simp only [Option.map, Option.some.injEq] at h2
          exact ⟨h, bs, rfl, hcond.1, hcond.2, hr, h2.symm⟩
    · left
      rw [if_neg hcond] at h2
      simp only [Option.some.injEq] at h2
      exact ⟨h2.symm, by intro h' hh; cases hh; exact hcond⟩

theorem find_put_ne (h : List (Ptr × Obj)) (p x : Ptr) (o : Obj) (hx : x ≠ p) :
    find (put h p o) x = find h x := by
  induction h with
  | nil => rfl
  | cons b t ih =>
    obtain ⟨q, y⟩ := b
    by_cases hq : q = p
    · subst hq
      have : ¬ q = x := fun e => hx e.symm
      simp [put, find, this]
    · by_cases hqx : q = x
      · subst hqx
        simp [put, find, hq]
      · simp [put, find, hq, hqx, ih]

theorem find_put_same (h : List (Ptr × Obj)) (p : Ptr) (o o2 : Obj)
    (hf : find h p = some o2) : find (put h p o) p = some o := by
  induction h with
  | nil => simp [find] at hf
  | cons b t ih =>
    obtain ⟨q, y⟩ := b
    by_cases hq : q = p
    · simp [put, find, hq]
    · simp only [find, if_neg hq] at hf
      simp [put, find, hq, ih hf]

theorem find_grow (h : List (Ptr × Obj)) (x : Ptr) (o o2 : Obj) (hf : find h x = some o) :
    find ((top h + 1, o2) :: h) x = some o := by
  have hle := find_le_top h x o hf
  have hne : ¬ top h + 1 = x := by
    intro e; rw [← e] at hle; exact absurd hle (Nat.not_succ_le_self _)
  simp [find, hne, hf]

theorem read_heap_grow_some (h : List (Ptr × Obj)) (o : Obj) (p : Ptr) (n : Nat) (bs : List Nat)
    (hr : read_heap h p n = some bs) : read_heap ((top h + 1, o) :: h) p n = some bs := by
  rcases read_heap_grow h o p n with hn | he
  · rw [hn] at hr; cases hr
  · rw [he]; exact hr

/-- The back-fill keeps the node's other fields, and every block that was live. -/
theorem backfill_keeps (k : Consts) (hints : Option rdma_addrinfo) (s1 s2 : Stage)
    (h2 : backfill_src k hints s1 = some s2) (hr2 : s2.ret = 0) :
    s2.rai = s1.rai ∧
    s2.node = { s1.node with ai_src_addr := s2.node.ai_src_addr,
                             ai_src_len := s2.node.ai_src_len } ∧
    (s1.node.ai_src_len ≠ 0 → s2 = s1) ∧
    (∀ x o, find s1.w.heap x = some o → find s2.w.heap x = some o) := by
  rcases backfill_success k hints s1 s2 h2 hr2 with ⟨he, -⟩ | ⟨h, bs, -, h0, -, -, he⟩
  · subst he
    exact ⟨rfl, rfl, fun _ => rfl, fun _ _ hx => hx⟩
  · subst he
    exact ⟨rfl, rfl, fun hne => absurd h0 hne, fun x o hx => find_grow _ _ _ _ hx⟩

theorem commit_find (s : Stage) (x : Ptr) (hx : x ≠ s.rai) :
    find (commit s).heap x = find s.w.heap x := by
  simp [commit, find_put_ne _ _ _ _ hx]

theorem commit_find_self (s : Stage) (o : Obj) (hf : find s.w.heap s.rai = some o) :
    find (commit s).heap s.rai = some (Obj.rai s.node) := by
  simp [commit, find_put_same _ _ _ _ hf]

/-- The node is live at `s.rai` with the fields `s.node` after a successful
`rdma_getaddrinfo_build`. -/
theorem build_node_live (k : Consts) (env : Env) (node service : Ptr)
    (hints : Option rdma_addrinfo) (w : World) (s : Stage)
    (hb : rdma_getaddrinfo_build k env node service hints w = some s) (hs : s.ret = 0) :
    s.rai = top w.heap + 1 ∧ find s.w.heap s.rai = some (Obj.rai s.node) := by
  obtain ⟨harg, -, -, s1, s2, h1, hr1, h2, hr2, hse⟩ :=
    build_success k env node service hints w s hb hs
  obtain ⟨hrai, -, -, hlive⟩ := backfill_keeps k hints s1 s2 h2 hr2
  have hp : s1.rai = top w.heap + 1 ∧
      find s1.w.heap (top w.heap + 1) = some (Obj.rai rai_zero) := by
    by_cases hpath : node ≠ 0 ∨ service ≠ 0
    · rcases hE : env.getaddrinfo node service (hints.map (ucma_convert_to_ai k)) with
        ⟨c, l, mem⟩
      have h1' := h1
      unfold resolve_paths at h1'
      rw [if_pos hpath] at h1'
      by_cases hc : c = 0
      · subst hc
        cases l with
        | nil =>
          rw [ucma_convert_gai_nil k env node service hints _ _ mem hE] at h1'
          simp at h1'
        | cons a rest =>
          obtain ⟨bs, c, E, pl, en, tr, -, hs1, hcc⟩ :=
            paths_name_success k env node service hints w s1 a rest mem hpath hE h1 hr1
          rw [hs1]
          rcases hcc with ⟨-, hE0⟩ | ⟨hc4, -, str, -, hE1⟩
          · subst hE0; simp [find, entered]
          · subst hE1; rw [hc4]; simp [find, entered]
      · have hg : (env.getaddrinfo node service (hints.map (ucma_convert_to_ai k))).1 ≠ 0 := by
          rw [hE]; exact hc
        rw [ucma_convert_gai_fail k env node service hints _ _ hg] at h1'
        simp only [Option.some.injEq] at h1'
        rw [← h1'] at hr1
        exact absurd hr1 hg
    · cases hints with
      | none =>
        exfalso; apply harg
        simp only [not_or, not_not] at hpath
        exact ⟨hpath.2, hpath.1, rfl⟩
      | some h =>
        rcases paths_addr_success k env node service h w s1 hpath h1 hr1 with
          ⟨-, hs1⟩ | ⟨-, bs, -, hs1⟩
        · rw [hs1]; simp [find, entered]
        · rw [hs1]; simp [find, entered]
  rw [hse]
  simp only
  rw [hrai, hp.1]
  refine ⟨rfl, ?_⟩
  have := commit_find_self s2 (Obj.rai rai_zero) (by rw [hrai, hp.1]; exact hlive _ _ hp.2)
  rw [hrai, hp.1] at this
  exact this

/-- Where the name-based path places the translated triple: it goes to
the source side exactly when the first entry's own `ai_flags` has
`RAI_PASSIVE`, whatever the hints say; then the destination side stays empty.
Otherwise the triple goes to the destination side. -/
theorem name_placement (k : Consts) (env : Env) (node service : Ptr)
    (hints : Option rdma_addrinfo) (w : World) (s : Stage)
    (a : addrinfo) (rest : List addrinfo) (mem : List (Ptr × List Nat))
    (hpath : node ≠ 0 ∨ service ≠ 0)
    (hE : env.getaddrinfo node service (hints.map (ucma_convert_to_ai k)) = (0, a :: rest, mem))
    (hlen : a.ai_addrlen ≠ 0)
    (hb : rdma_getaddrinfo_build k env node service hints w = some s) (hs : s.ret = 0) :
    ∃ bs, read_mem mem a.ai_addr a.ai_addrlen = some bs ∧
      (a.ai_flags &&& k.RAI_PASSIVE ≠ 0 →
        s.node.ai_src_addr ≠ 0 ∧ s.node.ai_src_len = a.ai_addrlen ∧
        find s.w.heap s.node.ai_src_addr = some (Obj.bytes bs) ∧
        (s.node.ai_src_canonname = 0 ∨
          ∃ str, read_str mem a.ai_canonname = some str ∧
            find s.w.heap s.node.ai_src_canonname = some (Obj.bytes str)) ∧
        s.node.ai_dst_addr = 0 ∧ s.node.ai_dst_len = 0 ∧ s.node.ai_dst_canonname = 0) ∧
      (a.ai_flags &&& k.RAI_PASSIVE = 0 →
        s.node.ai_dst_addr ≠ 0 ∧ s.node.ai_dst_len = a.ai_addrlen ∧
        find s.w.heap s.node.ai_dst_addr = some (Obj.bytes bs) ∧
        (s.node.ai_dst_canonname = 0 ∨
          ∃ str, read_str mem a.ai_canonname = some str ∧
            find s.w.heap s.node.ai_dst_canonname = some (Obj.bytes str)) ∧
        s.node.ai_src_canonname = 0) := by
  obtain ⟨-, -, -, s1, s2, h1, hr1, h2, hr2, hse⟩ :=
    build_success k env node service hints w s hb hs
  obtain ⟨bs, c, E, pl, en, tr, hrd, hs1, hc⟩ :=
    paths_name_success k env node service hints w s1 a rest mem hpath hE h1 hr1
  obtain ⟨hrai, hnode, hkeep, hlive⟩ := backfill_keeps k hints s1 s2 h2 hr2
  have hx : find s1.w.heap (top w.heap + 3) = some (Obj.bytes bs) := by
    rcases hc with ⟨-, hE0⟩ | ⟨hc4, -, str, -, hE1⟩
    · subst hE0; rw [hs1]; simp [find]
    · subst hE1; rw [hs1, hc4]; simp [find]
  have hcn : c = 0 ∨ ∃ str, read_str mem a.ai_canonname = some str ∧
      find s1.w.heap c = some (Obj.bytes str) := by
    rcases hc with ⟨hc0, -⟩ | ⟨hc4, -, str, hstr, hE1⟩
    · exact Or.inl hc0
    · right; subst hE1; exact ⟨str, hstr, by rw [hs1]; simp [find]⟩
  have hfin : ∀ x o, x ≠ top w.heap + 1 → find s1.w.heap x = some o →
      find s.w.heap x = some o := by
    intro x o hne hf
    rw [hse]
    simp only
    rw [commit_find s2 x (by rw [hrai, hs1]; exact hne)]
    exact hlive x o hf
  have hc1 : c ≠ 0 → c ≠ top w.heap + 1 := by
    intro _
    rcases hc with ⟨hc0, -⟩ | ⟨hc4, -⟩
    · contradiction
    · rw [hc4]; simp
  refine ⟨bs, hrd, ?_, ?_⟩
  · intro hpass
    have hn1 : s1.node = { convert_fields k (take_flags hints rai_zero) a with
        ai_src_addr := top w.heap + 3, ai_src_len := a.ai_addrlen, ai_src_canonname := c } := by
      rw [hs1]; simp [place, hpass]
    have h21 : s2 = s1 := hkeep (by rw [hn1]; exact hlen)
    have hsn : s.node = s1.node := by rw [hse, h21]
    rw [hsn, hn1, convert_fields_shape, take_flags_shape]
    simp only [rai_zero]
    refine ⟨by simp, trivial, hfin _ _ (by simp) hx, ?_, trivial, trivial, trivial⟩
    rcases hcn with h0 | ⟨str, hstr, hf⟩
    · exact Or.inl h0
    · by_cases hc0 : c = 0
      · exact Or.inl hc0
      · exact Or.inr ⟨str, hstr, hfin _ _ (hc1 hc0) hf⟩
  · intro hpass
    have hn1 : s1.node = { convert_fields k (take_flags hints rai_zero) a with
        ai_dst_addr := top w.heap + 3, ai_dst_len := a.ai_addrlen, ai_dst_canonname := c } := by
      rw [hs1]; simp [place, hpass]
    have hsn : s.node = s2.node := by rw [hse]
    rw [hsn, hnode, hn1, convert_fields_shape, take_flags_shape]
    simp only [rai_zero]
    refine ⟨by simp, trivial, hfin _ _ (by simp) hx, ?_, trivial⟩
    rcases hcn with h0 | ⟨str, hstr, hf⟩
    · exact Or.inl h0
    · by_cases hc0 : c = 0
      · exact Or.inl hc0
      · exact Or.inr ⟨str, hstr, hfin _ _ (hc1 hc0) hf⟩

/-- A successful name-based path had a resolver answer with a first entry. -/
theorem paths_name_entry (k : Consts) (env : Env) (node service : Ptr)
    (hints : Option rdma_addrinfo) (w : World) (s1 : Stage)
    (hpath : node ≠ 0 ∨ service ≠ 0)
    (h1 : resolve_paths k env node service hints 0 (top w.heap + 1) rai_zero (entered w) =
      some s1) (hr1 : s1.ret = 0) :
    ∃ a rest mem,
      env.getaddrinfo node service (hints.map (ucma_convert_to_ai k)) = (0, a :: rest, mem) := by
  rcases hE : env.getaddrinfo node service (hints.map (ucma_convert_to_ai k)) with ⟨c, l, mem⟩
  unfold resolve_paths at h1
  rw [if_pos hpath] at h1
  by_cases hc : c = 0
  · subst hc
    cases l with
    | nil =>
      rw [ucma_convert_gai_nil k env node service hints _ _ mem hE] at h1
      simp at h1
    | cons a rest => exact ⟨a, rest, mem, rfl⟩
  · have hg : (env.getaddrinfo node service (hints.map (ucma_convert_to_ai k))).1 ≠ 0 := by
      rw [hE]; exact hc
    rw [ucma_convert_gai_fail k env node service hints _ _ hg] at h1
    simp only [Option.some.injEq] at h1
    rw [← h1] at hr1
    exact absurd hr1 hg

/-- A successful `rdma_getaddrinfo` is a successful build followed by the
hook, which is run exactly when the node's flags lack `RAI_PASSIVE`. -/
theorem getaddrinfo_success (k : Consts) (env : Env) (node service : Ptr)
    (hints : Option rdma_addrinfo) (res : Ptr) (w : World) (o : Outcome)
    (hr : rdma_getaddrinfo k env node service hints res w = some o) (h0 : o.ret = 0) :
    ∃ s, rdma_getaddrinfo_build k env node service hints w = some s ∧ s.ret = 0 ∧
      o.res = s.rai ∧
      ((s.node.ai_flags &&& k.RAI_PASSIVE ≠ 0 ∧ o.w = s.w) ∨
       (s.node.ai_flags &&& k.RAI_PASSIVE = 0 ∧
        o.w = env.ucma_ib_resolve s.rai hints
          ⟨s.w.heap, s.w.plan, s.w.errno, s.w.trace ++ [Event.ib_resolve s.rai]⟩)) := by
  unfold rdma_getaddrinfo at hr
  cases hb : rdma_getaddrinfo_build k env node service hints w with
  | none => rw [hb] at hr; simp at hr
  | some s =>
    rw [hb] at hr
    simp only at hr
    by_cases hs : s.ret = 0
    · simp only [hs, ne_eq, not_true_eq_false, if_false] at hr
      by_cases hp : s.node.ai_flags &&& k.RAI_PASSIVE = 0
      · simp only [if_pos hp, Option.some.injEq] at hr
        exact ⟨s, rfl, hs, by rw [← hr], Or.inr ⟨hp, by rw [← hr]⟩⟩
      · simp only [if_neg hp, Option.some.injEq] at hr
        exact ⟨s, rfl, hs, by rw [← hr], Or.inl ⟨hp, by rw [← hr]⟩⟩
    · simp only [ne_eq, hs, not_false_eq_true, if_true, Option.some.injEq] at hr
      rw [← hr] at h0
      exact absurd h0 hs

theorem to_ai_socktype (k : Consts) (h : rdma_addrinfo) :
    (ucma_convert_to_ai k h).ai_socktype =
      if h.ai_qp_type = k.IBV_QPT_RC then k.SOCK_STREAM
      else if h.ai_qp_type = k.IBV_QPT_UD then k.SOCK_DGRAM else 0 := by
  unfold ucma_convert_to_ai
  simp only [ai_zero]
  split_ifs <;> rfl

theorem to_ai_protocol (k : Consts) (h : rdma_addrinfo) :
    (ucma_convert_to_ai k h).ai_protocol =
      if h.ai_port_space = k.RDMA_PS_TCP then k.IPPROTO_TCP
      else if h.ai_port_space = k.RDMA_PS_IPOIB ∨ h.ai_port_space = k.RDMA_PS_UDP
      then k.IPPROTO_UDP else 0 := by
  unfold ucma_convert_to_ai
  simp only [ai_zero]
  split_ifs <;> rfl

/-- Whatever `ucma_convert_to_rai` returns, family, queue-pair type and port
space of the node are those of lines 90-108. -/
theorem to_rai_fields (k : Consts) (rai : rdma_addrinfo) (ai : Ptr) (w : World)
    (a : addrinfo) (rest : List addrinfo) (mem : List (Ptr × List Nat))
    (ret : Int) (r : rdma_addrinfo) (w2 : World)
    (hf : find w.heap ai = some (Obj.gai (a :: rest) mem))
    (hres : ucma_convert_to_rai k rai ai w = some (ret, r, w2)) :
    r.ai_family = a.ai_family ∧
    r.ai_qp_type = (convert_fields k rai a).ai_qp_type ∧
    r.ai_port_space = (convert_fields k rai a).ai_port_space := by
  have hplace : ∀ x c, (place k (convert_fields k rai a) a x c).ai_family = a.ai_family ∧
      (place k (convert_fields k rai a) a x c).ai_qp_type = (convert_fields k rai a).ai_qp_type ∧
      (place k (convert_fields k rai a) a x c).ai_port_space =
        (convert_fields k rai a).ai_port_space := by
    intro x c
    have hfam : (convert_fields k rai a).ai_family = a.ai_family := by
      rw [convert_fields_shape]
    unfold place
    split_ifs <;> exact ⟨hfam, rfl, rfl⟩
  rw [ucma_convert_to_rai_eq k rai ai w a rest mem hf] at hres
  by_cases hp : w.plan.head? = some false
  · simp only [if_pos hp, Option.some.injEq, Prod.mk.injEq] at hres
    rw [← hres.2.1]
    exact ⟨by rw [convert_fields_shape], rfl, rfl⟩
  · simp only [if_neg hp] at hres
    cases hr : read_mem mem a.ai_addr a.ai_addrlen with
    | none => rw [hr] at hres; simp at hres
    | some bs =>
      rw [hr] at hres
      simp only at hres
      by_cases hc : a.ai_canonname = 0
      · simp only [if_pos hc, Option.some.injEq, Prod.mk.injEq] at hres
        rw [← hres.2.1]; exact hplace _ _
      · simp only [if_neg hc] at hres
        cases hs : read_str mem a.ai_canonname with
        | none => rw [hs] at hres; simp at hres
        | some str =>
          rw [hs] at hres
          by_cases hp2 : w.plan.tail.head? = some false
          · simp only [if_pos hp2, Option.some.injEq, Prod.mk.injEq] at hres
            rw [← hres.2.1]; exact hplace _ _
          · simp only [if_neg hp2, Option.some.injEq, Prod.mk.injEq] at hres
            rw [← hres.2.1]; exact hplace _ _

/-- The node a successful build returns is the only one of its list and
carries no route or connection data yet. -/
theorem build_node_single (k : Consts) (env : Env) (node service : Ptr)
    (hints : Option rdma_addrinfo) (w : World) (s : Stage)
    (hb : rdma_getaddrinfo_build k env node service hints w = some s) (hs : s.ret = 0) :
    s.node.ai_next = 0 ∧ s.node.ai_route = 0 ∧ s.node.ai_connect = 0 := by
  obtain ⟨harg, -, -, s1, s2, h1, hr1, h2, hr2, hse⟩ :=
    build_success k env node service hints w s hb hs
  obtain ⟨-, hnode, -, -⟩ := backfill_keeps k hints s1 s2 h2 hr2
  have hsn : s.node = s2.node := by rw [hse]
  rw [hsn, hnode]
  simp only
  by_cases hpath : node ≠ 0 ∨ service ≠ 0
  · obtain ⟨a, rest, mem, hE⟩ := paths_name_entry k env node service hints w s1 hpath h1 hr1
    obtain ⟨bs, c, E, pl, en, tr, -, hs1, -⟩ :=
      paths_name_success k env node service hints w s1 a rest mem hpath hE h1 hr1
    rw [hs1, convert_fields_shape, take_flags_shape]
    unfold place
    split_ifs <;> exact ⟨rfl, rfl, rfl⟩
  · cases hints with
    | none =>
      exfalso; apply harg
      simp only [not_or, not_not] at hpath
      exact ⟨hpath.2, hpath.1, rfl⟩
    | some h =>
      rcases paths_addr_success k env node service h w s1 hpath h1 hr1 with
        ⟨-, hs1⟩ | ⟨-, bs, -, hs1⟩ <;> (rw [hs1]; exact ⟨rfl, rfl, rfl⟩)

/-- Only the first entry of the resolver's answer reaches `ucma_convert_gai`'s
result. -/
theorem gai_first_only (k : Consts) (env env2 : Env) (node service : Ptr)
    (hints : Option rdma_addrinfo) (rai : rdma_addrinfo) (w : World)
    (a : addrinfo) (rest rest2 : List addrinfo) (mem : List (Ptr × List Nat))
    (hE : env.getaddrinfo node service (hints.map (ucma_convert_to_ai k)) = (0, a :: rest, mem))
    (hE2 : env2.getaddrinfo node service (hints.map (ucma_convert_to_ai k)) =
      (0, a :: rest2, mem)) :
    ucma_convert_gai k env node service hints rai w =
      ucma_convert_gai k env2 node service hints rai w := by
  rw [ucma_convert_gai_eq k env node service hints rai w a rest mem hE,
    ucma_convert_gai_eq k env2 node service hints rai w a rest2 mem hE2]

theorem plan_head_ok (l : List Bool) (h : ∀ b ∈ l, b = true) : l.head? ≠ some false := by
  cases l with
  | nil => simp
  | cons b t =>
    have := h b (by simp)
    simp [this]

theorem plan_tail_ok (l : List Bool) (h : ∀ b ∈ l, b = true) : ∀ b ∈ l.tail, b = true := by
  intro b hb
  exact h b (List.mem_of_mem_tail hb)

theorem top_fresh2 (h : List (Ptr × Obj)) (o o2 : Obj) :
    top ((top h + 1 + 1, o) :: (top h + 1, o2) :: h) = top h + 1 + 1 := by
  simp only [top]
  omega

/-- `ucma_copy_ai_addr` with the allocation succeeding and a readable source. -/
theorem copy_ok (k : Consts) (dl : Nat) (src : Ptr) (n : Nat) (w : World) (bs : List Nat)
    (hp : w.plan.head? ≠ some false) (hr : read_heap w.heap src n = some bs) :
    ucma_copy_ai_addr k dl src n w =
      some (0, top w.heap + 1, n,
        ⟨(top w.heap + 1, Obj.bytes bs) :: w.heap, w.plan.tail, w.errno,
         w.trace ++ [Event.alloc (top w.heap + 1)]⟩) := by
  rw [ucma_copy_ai_addr_eq, if_neg hp, read_heap_grow_some _ _ _ _ _ hr]
  rfl

/-- The address-based path without a destination length. -/
theorem paths_addr_plain (k : Consts) (env : Env) (h : rdma_addrinfo) (ret : Int) (p : Ptr)
    (w : World) (hd : h.ai_dst_len = 0) :
    resolve_paths k env 0 0 (some h) ret p rai_zero w =
      some ⟨ret, p,
        { rai_zero with ai_flags := h.ai_flags, ai_family := h.ai_family,
                        ai_qp_type := h.ai_qp_type, ai_port_space := h.ai_port_space }, w⟩ := by
  simp [resolve_paths, hd]

/-- The address-based path copying the destination address. -/
theorem paths_addr_copy (k : Consts) (env : Env) (h : rdma_addrinfo) (ret : Int) (p : Ptr)
    (w : World) (bd : List Nat) (hd : h.ai_dst_len ≠ 0) (hp : w.plan.head? ≠ some false)
    (hr : read_heap w.heap h.ai_dst_addr h.ai_dst_len = some bd) :
    resolve_paths k env 0 0 (some h) ret p rai_zero w =
      some ⟨0, p,
        { rai_zero with ai_flags := h.ai_flags, ai_family := h.ai_family,
                        ai_qp_type := h.ai_qp_type, ai_port_space := h.ai_port_space,
                        ai_dst_addr := top w.heap + 1, ai_dst_len := h.ai_dst_len },
        ⟨(top w.heap + 1, Obj.bytes bd) :: w.heap, w.plan.tail, w.errno,
         w.trace ++ [Event.alloc (top w.heap + 1)]⟩⟩ := by
  simp [resolve_paths, hd, copy_ok k _ _ _ w bd hp hr, rai_zero]

/-- The back-fill copying the hints' source address. -/
theorem backfill_copy (k : Consts) (h : rdma_addrinfo) (s1 : Stage) (bs : List Nat)
    (hz : s1.node.ai_src_len = 0) (hs : h.ai_src_len ≠ 0)
    (hp : s1.w.plan.head? ≠ some false)
    (hr : read_heap s1.w.heap h.ai_src_addr h.ai_src_len = some bs) :
    backfill_src k (some h) s1 =
      some ⟨0, s1.rai,
        { s1.node with ai_src_addr := top s1.w.heap + 1, ai_src_len := h.ai_src_len },
        ⟨(top s1.w.heap + 1, Obj.bytes bs) :: s1.w.heap, s1.w.plan.tail, s1.w.errno,
         s1.w.trace ++ [Event.alloc (top s1.w.heap + 1)]⟩⟩ := by
  simp [backfill_src, hz, hs, copy_ok k _ _ _ s1.w bs hp hr]

/-- The back-fill when there is nothing to copy. -/
theorem backfill_skip (k : Consts) (h : rdma_addrinfo) (s1 : Stage)
    (hno : h.ai_src_len = 0 ∨ s1.node.ai_src_len ≠ 0) :
    backfill_src k (some h) s1 = some s1 := by
  rcases hno with h0 | h0 <;> simp [backfill_src, h0]

theorem read_heap_of_find (h h2 : List (Ptr × Obj)) (p : Ptr) (n : Nat) (bs : List Nat)
    (hk : ∀ o, find h p = some o → find h2 p = some o)
    (hr : read_heap h p n = some bs) : read_heap h2 p n = some bs := by
  unfold read_heap at hr ⊢
  by_cases hn : n = 0
  · simpa [hn] using hr
  · rw [if_neg hn] at hr ⊢
    cases hf : find h p with
    | none => rw [hf] at hr; simp at hr
    | some o => rw [hk o hf]; rw [hf] at hr; exact hr

/-- A successful path keeps the node live at `top w.heap + 1` and every block
of the caller as it was. -/
theorem paths_live (k : Consts) (env : Env) (node service : Ptr)
    (hints : Option rdma_addrinfo) (w : World) (s1 : Stage)
    (harg : ¬ (service = 0 ∧ node = 0 ∧ hints = none))
    (h1 : resolve_paths k env node service hints 0 (top w.heap + 1) rai_zero (entered w) =
      some s1) (hr1 : s1.ret = 0) :
    s1.rai = top w.heap + 1 ∧
    find s1.w.heap (top w.heap + 1) = some (Obj.rai rai_zero) ∧
    ∀ x o, find w.heap x = some o → find s1.w.heap x = some o := by
  have hold : ∀ (x : Nat) o, find w.heap x = some o →
      x ≠ top w.heap + 1 ∧ x ≠ top w.heap + 2 ∧ x ≠ top w.heap + 3 ∧ x ≠ top w.heap + 4 := by
    intro x o hx
    have hle : x ≤ top w.heap := find_le_top w.heap x o hx
    omega
  by_cases hpath : node ≠ 0 ∨ service ≠ 0
  · obtain ⟨a, rest, mem, hE⟩ := paths_name_entry k env node service hints w s1 hpath h1 hr1
    obtain ⟨bs, c, E, pl, en, tr, -, hs1, hcc⟩ :=
      paths_name_success k env node service hints w s1 a rest mem hpath hE h1 hr1
    rw [hs1]
    rcases hcc with ⟨-, hE0⟩ | ⟨hc4, -, str, -, hE1⟩
    · subst hE0
      refine ⟨rfl, by simp [find, entered], ?_⟩
      intro x o hx
      obtain ⟨n1, n2, n3, n4⟩ := hold x o hx
      simp [find, entered, Ne.symm n1, Ne.symm n3, hx]
    · subst hE1
      rw [hc4]
      refine ⟨rfl, by simp [find, entered], ?_⟩
      intro x o hx
      obtain ⟨n1, n2, n3, n4⟩ := hold x o hx
      simp [find, entered, Ne.symm n1, Ne.symm n3, Ne.symm n4, hx]
  · cases hints with
    | none =>
      exfalso; apply harg
      simp only [not_or, not_not] at hpath
      exact ⟨hpath.2, hpath.1, rfl⟩
    | some h =>
      rcases paths_addr_success k env node service h w s1 hpath h1 hr1 with
        ⟨-, hs1⟩ | ⟨-, bs, -, hs1⟩
      · rw [hs1]
        refine ⟨rfl, by simp [find, entered], ?_⟩
        intro x o hx
        obtain ⟨n1, n2, n3, n4⟩ := hold x o hx
        simp [find, entered, Ne.symm n1, hx]
      · rw [hs1]
        refine ⟨rfl, by simp [find, entered], ?_⟩
        intro x o hx
        obtain ⟨n1, n2, n3, n4⟩ := hold x o hx
        simp [find, entered, Ne.symm n1, Ne.symm n2, hx]

/-! ## The hints normalizer -/

theorem to_ai_flags (k : Consts) (h : rdma_addrinfo) :
    (ucma_convert_to_ai k h).ai_flags =
      (if h.ai_flags &&& k.RAI_PASSIVE ≠ 0 then k.AI_PASSIVE else 0) |||
      (if h.ai_flags &&& k.RAI_NUMERICHOST ≠ 0 then k.AI_NUMERICHOST else 0) := by
  unfold ucma_convert_to_ai
  simp only [ai_zero]
  split_ifs <;> rfl

/-- Address and length follow the passive flag; the name is always the
destination name (line 81). -/
theorem to_ai_triple (k : Consts) (h : rdma_addrinfo) :
    (ucma_convert_to_ai k h).ai_canonname = h.ai_dst_canonname ∧
    (ucma_convert_to_ai k h).ai_addr =
      (if h.ai_flags &&& k.RAI_PASSIVE ≠ 0 then h.ai_src_addr else h.ai_dst_addr) ∧
    (ucma_convert_to_ai k h).ai_addrlen =
      (if h.ai_flags &&& k.RAI_PASSIVE ≠ 0 then h.ai_src_len else h.ai_dst_len) := by
  unfold ucma_convert_to_ai
  simp only [ai_zero]
  split_ifs <;> simp

theorem or_and_left_self (p n : Nat) : (p ||| n) &&& p = p := by
  apply Nat.eq_of_testBit_eq
  intro i
  simp only [Nat.testBit_and, Nat.testBit_or]
  cases p.testBit i <;> cases n.testBit i <;> rfl

theorem or_and_right_self (p n : Nat) : (p ||| n) &&& n = n := by
  rw [Nat.lor_comm]; exact or_and_left_self n p

theorem and_or_self_left (p n : Nat) : p &&& (p ||| n) = p := by
  rw [Nat.land_comm]; exact or_and_left_self p n

theorem and_or_self_right (p n : Nat) : n &&& (p ||| n) = n := by
  rw [Nat.land_comm]; exact or_and_right_self p n

/-! ## Sides of the node and forward runs -/

theorem find_above (h : List (Ptr × Obj)) (q : Nat) (hq : top h < q) : find h q = none := by
  cases hf : find h q with
  | none => rfl
  | some o =>
    have hle : q ≤ top h := find_le_top h q o hf
    omega

/-- After a successful path each side of the node is either empty (null
pointer, zero length) or a live byte block other than the node, as long as
its length; the length is not zero when the resolver's first entry has a
non-zero address length. -/
theorem paths_sides (k : Consts) (env : Env) (node service : Ptr)
    (hints : Option rdma_addrinfo) (w : World) (s1 : Stage)
    (harg : ¬ (service = 0 ∧ node = 0 ∧ hints = none))
    (h1 : resolve_paths k env node service hints 0 (top w.heap + 1) rai_zero (entered w) =
      some s1) (hr1 : s1.ret = 0) :
    ((s1.node.ai_src_addr = 0 ∧ s1.node.ai_src_len = 0) ∨
      (s1.node.ai_src_addr ≠ 0 ∧ s1.node.ai_src_addr ≠ top w.heap + 1 ∧
        ((∀ a rest mem,
          env.getaddrinfo node service (hints.map (ucma_convert_to_ai k)) =
            (0, a :: rest, mem) → a.ai_addrlen ≠ 0) → s1.node.ai_src_len ≠ 0) ∧
        ∃ bs, find s1.w.heap s1.node.ai_src_addr = some (Obj.bytes bs) ∧
          bs.length = s1.node.ai_src_len)) ∧
    ((s1.node.ai_dst_addr = 0 ∧ s1.node.ai_dst_len = 0) ∨
      (s1.node.ai_dst_addr ≠ 0 ∧ s1.node.ai_dst_addr ≠ top w.heap + 1 ∧
        ((∀ a rest mem,
          env.getaddrinfo node service (hints.map (ucma_convert_to_ai k)) =
            (0, a :: rest, mem) → a.ai_addrlen ≠ 0) → s1.node.ai_dst_len ≠ 0) ∧
        ∃ bs, find s1.w.heap s1.node.ai_dst_addr = some (Obj.bytes bs) ∧
          bs.length = s1.node.ai_dst_len)) := by
  by_cases hpath : node ≠ 0 ∨ service ≠ 0
  · obtain ⟨a, rest, mem, hE⟩ := paths_name_entry k env node service hints w s1 hpath h1 hr1
    have hlen : (∀ a rest mem,
        env.getaddrinfo node service (hints.map (ucma_convert_to_ai k)) =
          (0, a :: rest, mem) → a.ai_addrlen ≠ 0) → a.ai_addrlen ≠ 0 :=
      fun hwf => hwf a rest mem hE
    obtain ⟨bs, c, E, pl, en, tr, hrd, hs1, hcc⟩ :=
      paths_name_success k env node service hints w s1 a rest mem hpath hE h1 hr1
    have hbl := read_mem_length _ _ _ _ hrd
    have hx : find s1.w.heap (top w.heap + 3) = some (Obj.bytes bs) := by
      rcases hcc with ⟨-, hE0⟩ | ⟨hc4, -, str, -, hE1⟩
      · subst hE0; rw [hs1]; simp [find]
      · subst hE1; rw [hs1, hc4]; simp [find]
    have hfull : (top w.heap + 3 ≠ 0 ∧ top w.heap + 3 ≠ top w.heap + 1 ∧
        ((∀ a rest mem,
          env.getaddrinfo node service (hints.map (ucma_convert_to_ai k)) =
            (0, a :: rest, mem) → a.ai_addrlen ≠ 0) → a.ai_addrlen ≠ 0) ∧
        ∃ bs, find s1.w.heap (top w.heap + 3) = some (Obj.bytes bs) ∧
          bs.length = a.ai_addrlen) := ⟨by simp, by simp, hlen, bs, hx, hbl⟩
    by_cases hpass : a.ai_flags &&& k.RAI_PASSIVE ≠ 0
    · have hn1 : s1.node = { convert_fields k (take_flags hints rai_zero) a with
          ai_src_addr := top w.heap + 3, ai_src_len := a.ai_addrlen, ai_src_canonname := c } := by
        rw [hs1]; simp [place, hpass]
      rw [hn1, convert_fields_shape, take_flags_shape]
      exact ⟨Or.inr hfull, Or.inl ⟨rfl, rfl⟩⟩
    · have hn1 : s1.node = { convert_fields k (take_flags hints rai_zero) a with
          ai_dst_addr := top w.heap + 3, ai_dst_len := a.ai_addrlen, ai_dst_canonname := c } := by
        rw [hs1]; simp [place, hpass]
      rw [hn1, convert_fields_shape, take_flags_shape]
      exact ⟨Or.inl ⟨rfl, rfl⟩, Or.inr hfull⟩
  · cases hints with
    | none =>
      exfalso; apply harg
      simp only [not_or, not_not] at hpath
      exact ⟨hpath.2, hpath.1, rfl⟩
    | some h =>
      rcases paths_addr_success k env node service h w s1 hpath h1 hr1 with
        ⟨-, hs1⟩ | ⟨hd, bs, hrd, hs1⟩
      · rw [hs1]; exact ⟨Or.inl ⟨rfl, rfl⟩, Or.inl ⟨rfl, rfl⟩⟩
      · rw [hs1]
        refine ⟨Or.inl ⟨rfl, rfl⟩, Or.inr ⟨by simp, by simp, fun _ => hd, bs, by simp [find], ?_⟩⟩
        exact read_heap_length _ _ _ _ hrd

/-- The name-based path with every allocation succeeding and the entry's
memory readable. -/
theorem paths_name_ok (k : Consts) (env : Env) (node service : Ptr)
    (hints : Option rdma_addrinfo) (w : World)
    (a : addrinfo) (rest : List addrinfo) (mem : List (Ptr × List Nat)) (bs str : List Nat)
    (hpath : node ≠ 0 ∨ service ≠ 0) (hplan : ∀ b ∈ w.plan, b = true)
    (hE : env.getaddrinfo node service (hints.map (ucma_convert_to_ai k)) = (0, a :: rest, mem))
    (haddr : read_mem mem a.ai_addr a.ai_addrlen = some bs)
    (hname : a.ai_canonname ≠ 0 → read_str mem a.ai_canonname = some str) :
    ∃ s1, resolve_paths k env node service hints 0 (top w.heap + 1) rai_zero (entered w) =
        some s1 ∧ s1.ret = 0 ∧ ∀ b ∈ s1.w.plan, b = true := by
  have hpe : ∀ b ∈ (entered w).plan, b = true := plan_tail_ok _ hplan
  have hp1 := plan_head_ok _ hpe
  have hp2 := plan_head_ok _ (plan_tail_ok _ hpe)
  unfold resolve_paths
  rw [if_pos hpath, ucma_convert_gai_eq k env node service hints _ _ a rest mem hE, if_neg hp1,
    haddr]
  by_cases hc : a.ai_canonname = 0
  · simp only [if_pos hc]
    exact ⟨_, rfl, rfl, plan_tail_ok _ hpe⟩
  · simp only [if_neg hc, hname hc, if_neg hp2]
    exact ⟨_, rfl, rfl, plan_tail_ok _ (plan_tail_ok _ hpe)⟩

/-- The back-fill with the allocation succeeding and the hints' source
readable. -/
theorem backfill_ok (k : Consts) (hints : Option rdma_addrinfo) (s1 : Stage) (bsrc : List Nat)
    (hr1 : s1.ret = 0) (hplan : ∀ b ∈ s1.w.plan, b = true)
    (hsrc : ∀ h, hints = some h → h.ai_src_len ≠ 0 →
      read_heap s1.w.heap h.ai_src_addr h.ai_src_len = some bsrc) :
    ∃ s2, backfill_src k hints s1 = some s2 ∧ s2.ret = 0 := by
  cases hints with
  | none => exact ⟨s1, rfl, hr1⟩
  | some h =>
    by_cases hcond : s1.node.ai_src_len = 0 ∧ h.ai_src_len ≠ 0
    · rw [backfill_copy k h s1 bsrc hcond.1 hcond.2 (plan_head_ok _ hplan)
        (hsrc h rfl hcond.2)]
      exact ⟨_, rfl, rfl⟩
    · have hno : h.ai_src_len = 0 ∨ s1.node.ai_src_len ≠ 0 := by
        by_cases h0 : h.ai_src_len = 0
        · exact Or.inl h0
        · exact Or.inr (fun hz => hcond ⟨hz, h0⟩)
      rw [backfill_skip k h s1 hno]
      exact ⟨s1, rfl, hr1⟩

/-- A successful path followed by a successful back-fill is a successful build. -/
theorem build_of_stages (k : Consts) (env : Env) (node service : Ptr)
    (hints : Option rdma_addrinfo) (w : World) (s1 s2 : Stage)
    (harg : ¬ (service = 0 ∧ node = 0 ∧ hints = none)) (hinit : env.ucma_init = 0)
    (halloc : w.plan.head? ≠ some false)
    (h1 : resolve_paths k env node service hints 0 (top w.heap + 1) rai_zero (entered w) =
      some s1) (hr1 : s1.ret = 0)
    (h2 : backfill_src k hints s1 = some s2) (hr2 : s2.ret = 0) :
    rdma_getaddrinfo_build k env node service hints w =
      some ⟨0, s2.rai, s2.node, commit s2⟩ := by
  rw [build_entered k env node service hints w harg hinit halloc, h1]
  simp only [hr1, ne_eq, not_true_eq_false, if_false, h2, hr2]

/-- A successful build makes `rdma_getaddrinfo` return `0`. -/
theorem getaddrinfo_of_build (k : Consts) (env : Env) (node service : Ptr)
    (hints : Option rdma_addrinfo) (res : Ptr) (w : World) (s : Stage)
    (hb : rdma_getaddrinfo_build k env node service hints w = some s) (hs : s.ret = 0) :
    ∃ o, rdma_getaddrinfo k env node service hints res w = some o ∧ o.ret = 0 ∧
      o.res = s.rai := by
  unfold rdma_getaddrinfo
  rw [hb]
  simp only [hs, ne_eq, not_true_eq_false, if_false]
  split_ifs
  · exact ⟨_, rfl, rfl, rfl⟩
  · exact ⟨_, rfl, rfl, rfl⟩

/-- The node of a successful name-based build has the queue-pair type and
port space of lines 92-108 applied to a zeroed node. -/
theorem name_fields (k : Consts) (env : Env) (node service : Ptr)
    (hints : Option rdma_addrinfo) (w : World) (s : Stage)
    (a : addrinfo) (rest : List addrinfo) (mem : List (Ptr × List Nat))
    (hpath : node ≠ 0 ∨ service ≠ 0)
    (hE : env.getaddrinfo node service (hints.map (ucma_convert_to_ai k)) = (0, a :: rest, mem))
    (hb : rdma_getaddrinfo_build k env node service hints w = some s) (hs : s.ret = 0) :
    s.node.ai_family = a.ai_family ∧
    s.node.ai_qp_type = (convert_fields k rai_zero a).ai_qp_type ∧
    s.node.ai_port_space = (convert_fields k rai_zero a).ai_port_space ∧
    s.node.ai_flags = (take_flags hints rai_zero).ai_flags := by
  obtain ⟨-, -, -, s1, s2, h1, hr1, h2, hr2, hse⟩ :=
    build_success k env node service hints w s hb hs
  obtain ⟨bs, c, E, pl, en, tr, -, hs1, -⟩ :=
    paths_name_success k env node service hints w s1 a rest mem hpath hE h1 hr1
  obtain ⟨-, hnode, -, -⟩ := backfill_keeps k hints s1 s2 h2 hr2
  have hsn : s.node = s2.node := by rw [hse]
  rw [hsn, hnode, hs1]
  simp only
  unfold place convert_fields
  cases hints <;> simp only [take_flags, rai_zero] <;> split_ifs <;> exact ⟨rfl, rfl, rfl, rfl⟩

/-! ## Calls of the hook -/

theorem hook_calls_append (l m : List Event) :
    hook_calls (l ++ m) = hook_calls l + hook_calls m := by
  simp [hook_calls, List.filter_append]

theorem alloc_quiet (o : Obj) (w : World) :
    hook_calls (alloc k o w).2.trace = hook_calls w.trace := by
  unfold alloc
  split_ifs <;> simp [hook_calls_append, hook_calls, is_hook_call]

theorem free_quiet (p : Ptr) (w w2 : World) (h : free p w = some w2) :
    hook_calls w2.trace = hook_calls w.trace := by
  unfold free at h
  split at h
  · simp at h
  · simp only [Option.some.injEq] at h
    rw [← h]
    simp [hook_calls_append, hook_calls, is_hook_call]

theorem free_if_quiet (p : Ptr) (w w2 : World) (h : free_if p w = some w2) :
    hook_calls w2.trace = hook_calls w.trace := by
  unfold free_if at h
  split_ifs at h
  · simp only [Option.some.injEq] at h; rw [h]
  · exact free_quiet p w w2 h

theorem free_loop_quiet (n : Nat) : ∀ (res : Ptr) (w w2 : World),
    free_loop n res w = some w2 → hook_calls w2.trace = hook_calls w.trace := by
  induction n with
  | zero =>
    intro res w w2 h
    unfold free_loop at h
    split_ifs at h
    · simp only [Option.some.injEq] at h; rw [h]
  | succ m ih =>
    intro res w w2 h
    unfold free_loop at h
    split_ifs at h
    · simp only [Option.some.injEq] at h; rw [h]
    · simp only at h
      split at h
      · rename_i rai hfind
        simp only [Option.bind_eq_some] at h
        obtain ⟨w1, h1, w2', h2, w3, h3, w4, h4, w5, h5, w6, h6, w7, h7, h8⟩ := h
        rw [ih _ _ _ h8, free_quiet _ _ _ h7, free_if_quiet _ _ _ h6, free_if_quiet _ _ _ h5,
          free_if_quiet _ _ _ h4, free_if_quiet _ _ _ h3, free_if_quiet _ _ _ h2,
          free_if_quiet _ _ _ h1]
      · simp at h

theorem err_exit_quiet (s s2 : Stage) (h : err_exit s = some s2) :
    hook_calls s2.w.trace = hook_calls s.w.trace := by
  unfold err_exit rdma_freeaddrinfo at h
  cases hf : free_loop (commit s).heap.length s.rai (commit s) with
  | none => rw [hf] at h; simp at h
  | some w2 =>
    rw [hf] at h
    simp only [Option.map, Option.some.injEq] at h
    rw [← h]
    have := free_loop_quiet _ _ _ _ hf
    simpa [commit] using this

theorem copy_quiet (k : Consts) (dl : Nat) (src : Ptr) (n : Nat) (w : World)
    (ret : Int) (d : Ptr) (dl2 : Nat) (w2 : World)
    (h : ucma_copy_ai_addr k dl src n w = some (ret, d, dl2, w2)) :
    hook_calls w2.trace = hook_calls w.trace := by
  rw [ucma_copy_ai_addr_eq] at h
  split_ifs at h
  · simp only [Option.some.injEq, Prod.mk.injEq] at h
    rw [← h.2.2.2]
    simp [hook_calls_append, hook_calls, is_hook_call]
  · cases hr : read_heap ((top w.heap + 1, Obj.bytes (List.replicate n 0)) :: w.heap) src n with
    | none => rw [hr] at h; simp at h
    | some bs =>
      rw [hr] at h
      simp only [Option.map, Option.some.injEq, Prod.mk.injEq] at h
      rw [← h.2.2.2]
      simp [hook_calls_append, hook_calls, is_hook_call]

theorem gai_quiet (k : Consts) (env : Env) (node service : Ptr)
    (hints : Option rdma_addrinfo) (rai : rdma_addrinfo) (w : World)
    (ret : Int) (r : rdma_addrinfo) (w2 : World)
    (h : ucma_convert_gai k env node service hints rai w = some (ret, r, w2)) :
    hook_calls w2.trace = hook_calls w.trace := by
  rcases hE : env.getaddrinfo node service (hints.map (ucma_convert_to_ai k)) with ⟨c, l, mem⟩
  by_cases hc : c = 0
  · subst hc
    cases l with
    | nil =>
      rw [ucma_convert_gai_nil k env node service hints _ _ mem hE] at h
      simp at h
    | cons a rest =>
      rw [ucma_convert_gai_eq k env node service hints _ _ a rest mem hE] at h
      by_cases hp1 : w.plan.head? = some false
      · simp only [if_pos hp1, Option.some.injEq, Prod.mk.injEq] at h
        rw [← h.2.2]
        simp [hook_calls_append, hook_calls, is_hook_call]
      · simp only [if_neg hp1] at h
        cases hr : read_mem mem a.ai_addr a.ai_addrlen with
        | none => rw [hr] at h; simp at h
        | some bs =>
          rw [hr] at h
          simp only at h
          by_cases hcn : a.ai_canonname = 0
          · simp only [if_pos hcn, Option.some.injEq, Prod.mk.injEq] at h
            rw [← h.2.2]
            simp [hook_calls_append, hook_calls, is_hook_call]
          · simp only [if_neg hcn] at h
            cases hs : read_str mem a.ai_canonname with
            | none => rw [hs] at h; simp at h
            | some str =>
              rw [hs] at h
              simp only at h
              by_cases hp2 : w.plan.tail.head? = some false
              · simp only [if_pos hp2, Option.some.injEq, Prod.mk.injEq] at h
                rw [← h.2.2]
                simp [hook_calls_append, hook_calls, is_hook_call]
              · simp only [if_neg hp2, Option.some.injEq, Prod.mk.injEq] at h
                rw [← h.2.2]
                simp [hook_calls_append, hook_calls, is_hook_call]
  · have hg : (env.getaddrinfo node service (hints.map (ucma_convert_to_ai k))).1 ≠ 0 := by
      rw [hE]; exact hc
    rw [ucma_convert_gai_fail k env node service hints _ _ hg] at h
    simp only [Option.some.injEq, Prod.mk.injEq] at h
    rw [← h.2.2]
    simp [hook_calls_append, hook_calls, is_hook_call]

theorem paths_quiet (k : Consts) (env : Env) (node service : Ptr)
    (hints : Option rdma_addrinfo) (ret : Int) (p : Ptr) (rai : rdma_addrinfo) (w : World)
    (s1 : Stage) (h : resolve_paths k env node service hints ret p rai w = some s1) :
    hook_calls s1.w.trace = hook_calls w.trace := by
  unfold resolve_paths at h
  split_ifs at h
  · cases hg : ucma_convert_gai k env node service hints rai w with
    | none => rw [hg] at h; simp at h
    | some x =>
      obtain ⟨ret2, rai2, w2⟩ := x
      rw [hg] at h
      simp only [Option.some.injEq] at h
      rw [← h]
      exact gai_quiet k env node service hints rai w ret2 rai2 w2 hg
  · cases hints with
    | none => simp at h
    | some hh =>
      simp only at h
      split_ifs at h
      · cases hc : ucma_copy_ai_addr k rai.ai_dst_len hh.ai_dst_addr hh.ai_dst_len w with
        | none => rw [hc] at h; simp at h
        | some x =>
          obtain ⟨ret2, d, dl, w2⟩ := x
          rw [hc] at h
          simp only [Option.some.injEq] at h
          rw [← h]
          exact copy_quiet k _ _ _ w ret2 d dl w2 hc
      · simp only [Option.some.injEq] at h
        rw [← h]

theorem backfill_quiet (k : Consts) (hints : Option rdma_addrinfo) (s1 s2 : Stage)
    (h : backfill_src k hints s1 = some s2) :
    hook_calls s2.w.trace = hook_calls s1.w.trace := by
  unfold backfill_src at h
  cases hints with
  | none => simp only [Option.some.injEq] at h; rw [h]
  | some hh =>
    simp only at h
    split_ifs at h
    · cases hc : ucma_copy_ai_addr k s1.node.ai_src_len hh.ai_src_addr hh.ai_src_len s1.w with
      | none => rw [hc] at h; simp at h
      | some x =>
        obtain ⟨ret2, d, dl, w2⟩ := x
        rw [hc] at h
        simp only [Option.some.injEq] at h
        rw [← h]
        exact copy_quiet k _ _ _ s1.w ret2 d dl w2 hc
    · simp only [Option.some.injEq] at h; rw [h]

/-- Nothing before line 209 calls the hook: the build leaves the number of
hook calls in the trace as it was, whether it succeeds or fails. -/
theorem build_quiet (k : Consts) (env : Env) (node service : Ptr)
    (hints : Option rdma_addrinfo) (w : World) (s : Stage)
    (hb : rdma_getaddrinfo_build k env node service hints w = some s) :
    hook_calls s.w.trace = hook_calls w.trace := by
  have hent : hook_calls (entered w).trace = hook_calls w.trace := by
    simp [entered, hook_calls_append, hook_calls, is_hook_call]
  by_cases harg : service = 0 ∧ node = 0 ∧ hints = none
  · unfold rdma_getaddrinfo_build at hb
    rw [if_pos harg] at hb
    simp only [ERR, Option.some.injEq] at hb
    rw [← hb]
  · by_cases hinit : env.ucma_init = 0
    · by_cases halloc : w.plan.head? = some false
      · unfold rdma_getaddrinfo_build at hb
        rw [if_neg harg] at hb
        simp [ucma_init, hinit, calloc_rai, alloc, halloc, ERR] at hb
        rw [← hb]
        simp [hook_calls_append, hook_calls, is_hook_call]
      · rw [build_entered k env node service hints w harg hinit halloc] at hb
        cases h1 : resolve_paths k env node service hints 0 (top w.heap + 1) rai_zero
            (entered w) with
        | none => rw [h1] at hb; simp at hb
        | some s1 =>
          rw [h1] at hb
          simp only at hb
          have q1 := paths_quiet k env node service hints 0 _ _ _ s1 h1
          split_ifs at hb
          · rw [err_exit_quiet s1 s hb, q1, hent]
          · cases h2 : backfill_src k hints s1 with
            | none => rw [h2] at hb; simp at hb
            | some s2 =>
              rw [h2] at hb
              simp only at hb
              have q2 := backfill_quiet k hints s1 s2 h2
              split_ifs at hb
              · rw [err_exit_quiet s2 s hb, q2, q1, hent]
              · simp only [Option.some.injEq] at hb
                rw [← hb]
                simp only [commit]
                rw [q2, q1, hent]
    · unfold rdma_getaddrinfo_build at hb
      rw [if_neg harg] at hb
      simp [ucma_init, hinit] at hb
      rw [← hb]
      simp [hook_calls_append, hook_calls, is_hook_call]

/-- The flags of the node built are the hints' flags, or zero without hints. -/
theorem build_flags (k : Consts) (env : Env) (node service : Ptr)
    (hints : Option rdma_addrinfo) (w : World) (s : Stage)
    (hb : rdma_getaddrinfo_build k env node service hints w = some s) (hs : s.ret = 0) :
    s.node.ai_flags = (take_flags hints rai_zero).ai_flags := by
  obtain ⟨harg, -, -, s1, s2, h1, hr1, h2, hr2, hse⟩ :=
    build_success k env node service hints w s hb hs
  by_cases hpath : node ≠ 0 ∨ service ≠ 0
  · obtain ⟨a, rest, mem, hE⟩ := paths_name_entry k env node service hints w s1 hpath h1 hr1
    exact (name_fields k env node service hints w s a rest mem hpath hE hb hs).2.2.2
  · cases hints with
    | none =>
      exfalso; apply harg
      simp only [not_or, not_not] at hpath
      exact ⟨hpath.2, hpath.1, rfl⟩
    | some h =>
      obtain ⟨-, hnode, -, -⟩ := backfill_keeps k (some h) s1 s2 h2 hr2
      have hsn : s.node = s2.node := by rw [hse]
      rw [hsn, hnode]
      rcases paths_addr_success k env node service h w s1 hpath h1 hr1 with
        ⟨-, hs1⟩ | ⟨-, bs, -, hs1⟩ <;> (rw [hs1]; rfl)

/-! ## Releasing a list -/

theorem find_erase_ne (h : List (Ptr × Obj)) (p q : Ptr) (hne : q ≠ p) :
    find (erase h p) q = find h q := by
  induction h with
  | nil => rfl
  | cons a t ih =>
    obtain ⟨a1, a2⟩ := a
    by_cases h1 : a1 = p
    · subst h1
      have h2 : ¬ a1 = q := fun e => hne e.symm
      simp [erase, find, h2]
    · by_cases h2 : a1 = q
      · subst h2
        simp [erase, find, h1]
      · simp [erase, find, h1, h2, ih]

theorem find_foldl_erase (l : List Ptr) (h : List (Ptr × Obj)) (q : Ptr) (hq : q ∉ l) :
    find (l.foldl erase h) q = find h q := by
  induction l generalizing h with
  | nil => rfl
  | cons p t ih =>
    simp only [List.mem_cons, not_or] at hq
    simp only [List.foldl_cons]
    rw [ih _ hq.2, find_erase_ne _ _ _ hq.1]

theorem free_all_append (a b : List Ptr) (w : World) :
    free_all (a ++ b) w = free_all b (free_all a w) := by
  simp [free_all, List.foldl_append, List.append_assoc]

theorem free_ok (p : Ptr) (w : World) (hl : find w.heap p ≠ none) :
    free p w = some (free_all [p] w) := by
  unfold free
  cases hf : find w.heap p with
  | none => exact absurd hf hl
  | some o => simp [free_all]

/-- The guarded releases of pairwise distinct live blocks succeed and release
the non-null ones in order. -/
theorem free_ifs_ok (l : List Ptr) (w : World)
    (hd : (l.filter (fun q => decide (q ≠ 0))).Nodup)
    (hl : ∀ q ∈ l.filter (fun q => decide (q ≠ 0)), find w.heap q ≠ none) :
    free_ifs l w = some (free_all (l.filter (fun q => decide (q ≠ 0))) w) := by
  induction l generalizing w with
  | nil => simp [free_ifs, free_all]
  | cons p t ih =>
    by_cases hp : p = 0
    · have hfil : (p :: t).filter (fun q => decide (q ≠ 0)) = t.filter (fun q => decide (q ≠ 0)) := by
        simp [List.filter_cons, hp]
      rw [hfil] at hd hl ⊢
      simp only [free_ifs, free_if, hp, if_true, Option.some_bind]
      exact ih w hd hl
    · have hfil : (p :: t).filter (fun q => decide (q ≠ 0)) = p :: t.filter (fun q => decide (q ≠ 0)) := by
        simp [List.filter_cons, hp]
      rw [hfil] at hd hl ⊢
      rw [List.nodup_cons] at hd
      have hlp : find w.heap p ≠ none := hl p (List.mem_cons_self _ _)
      simp only [free_ifs, free_if, hp, if_false, free_ok p w hlp, Option.some_bind]
      rw [ih (free_all [p] w) hd.2]
      · have := free_all_append [p] (t.filter (fun q => decide (q ≠ 0))) w
        simpa using congrArg some this.symm
      · intro q hq
        have hne : q ≠ p := fun e => hd.1 (e ▸ hq)
        have : find (free_all [p] w).heap q = find w.heap q := by
          simp [free_all, find_erase_ne _ _ _ hne]
        rw [this]
        exact hl q (List.mem_cons_of_mem _ hq)

theorem chain_congr (h h2 : List (Ptr × Obj)) (nodes : List (Ptr × rdma_addrinfo)) (res : Ptr)
    (he : ∀ q ∈ spec_release_order nodes, find h2 q = find h q)
    (hc : chain h res nodes = true) : chain h2 res nodes = true := by
  induction nodes generalizing res with
  | nil => simpa [chain] using hc
  | cons a rest ih =>
    obtain ⟨p, r⟩ := a
    simp only [chain, Bool.and_eq_true, decide_eq_true_eq] at hc ⊢
    obtain ⟨⟨⟨h1, h2a⟩, h3⟩, h4⟩ := hc
    refine ⟨⟨⟨h1, h2a⟩, ?_⟩, ?_⟩
    · rw [he p (by simp [spec_release_order, spec_node_releases])]
      exact h3
    · apply ih _ _ h4
      intro q hq
      exact he q (by simp [spec_release_order, hq])

/-- One turn of the loop of lines 224-247 on a live node. -/
theorem free_loop_step (m : Nat) (res : Ptr) (w : World) (r : rdma_addrinfo)
    (h0 : res ≠ 0) (hf : find w.heap res = some (Obj.rai r)) :
    free_loop (m + 1) res w =
      (free_ifs (buffer_fields r) w).bind fun w6 =>
        (free res w6).bind fun w7 => free_loop m r.ai_next w7 := by
  rw [free_loop.eq_def]
  simp only [h0, if_false, hf, free_ifs, buffer_fields, Option.bind_assoc, Option.bind_some]

/-- With enough fuel, the loop releases a well-formed list in the spec's
order. -/
theorem free_loop_chain (nodes : List (Ptr × rdma_addrinfo)) (fuel : Nat) (res : Ptr)
    (w : World) (hc : chain w.heap res nodes = true)
    (hd : (spec_release_order nodes).Nodup)
    (hl : ∀ q ∈ spec_release_order nodes, find w.heap q ≠ none)
    (hfuel : nodes.length ≤ fuel) :
    free_loop fuel res w = some (free_all (spec_release_order nodes) w) := by
  induction nodes generalizing fuel res w with
  | nil =>
    simp only [chain, decide_eq_true_eq] at hc
    rw [free_loop.eq_def]
    simp [hc, free_all, spec_release_order]
  | cons a rest ih =>
    obtain ⟨p, r⟩ := a
    simp only [chain, Bool.and_eq_true, decide_eq_true_eq] at hc
    obtain ⟨⟨⟨h1, h2⟩, h3⟩, h4⟩ := hc
    subst h1
    cases fuel with
    | zero => simp at hfuel
    | succ m =>
      simp only [List.length_cons, Nat.add_le_add_iff_right] at hfuel
      simp only [spec_release_order, spec_node_releases] at hd hl ⊢
      rw [List.nodup_append] at hd
      obtain ⟨hd1, hd2, hdis⟩ := hd
      rw [List.nodup_append] at hd1
      obtain ⟨hd11, -, hdis1⟩ := hd1
      rw [free_loop_step m res w r h2 h3]
      rw [free_ifs_ok (buffer_fields r) w hd11
        (fun q hq => hl q (by simp only [List.mem_append]; exact Or.inl (Or.inl hq)))]
      simp only [Option.some_bind]
      have hres : res ∉ (buffer_fields r).filter (fun q => decide (q ≠ 0)) :=
        fun hm => hdis1 hm (List.mem_singleton_self _)
      have hlive : find (free_all ((buffer_fields r).filter (fun q => decide (q ≠ 0))) w).heap res
          ≠ none := by
        have : find (free_all ((buffer_fields r).filter (fun q => decide (q ≠ 0))) w).heap res
            = find w.heap res := find_foldl_erase _ _ _ hres
        rw [this, h3]; simp
      rw [free_ok _ _ hlive]
      simp only [Option.some_bind]
      rw [← free_all_append]
      have hkeep : ∀ q ∈ spec_release_order rest,
          find (free_all ((buffer_fields r).filter (fun q => decide (q ≠ 0)) ++ [res]) w).heap q
            = find w.heap q := by
        intro q hq
        apply find_foldl_erase
        intro hm
        exact hdis hm hq
      rw [ih m r.ai_next _ (chain_congr _ _ _ _ hkeep h4) hd2 ?_ hfuel]
      · rw [← free_all_append]
      · intro q hq
        rw [hkeep q hq]
        exact hl q (by simp only [List.mem_append]; exact Or.inr hq)

theorem find_mem_keys (h : List (Ptr × Obj)) (p : Ptr) (hf : find h p ≠ none) :
    p ∈ h.map Prod.fst := by
  induction h with
  | nil => simp [find] at hf
  | cons a t ih =>
    obtain ⟨a1, a2⟩ := a
    by_cases h1 : a1 = p
    · simp [h1]
    · simp only [find, h1, if_false] at hf
      simp [ih hf]

theorem nodes_sublist (nodes : List (Ptr × rdma_addrinfo)) :
    List.Sublist (nodes.map Prod.fst) (spec_release_order nodes) := by
  induction nodes with
  | nil => simp [spec_release_order]
  | cons a rest ih =>
    obtain ⟨p, r⟩ := a
    simp only [List.map_cons, spec_release_order, spec_node_releases]
    have h1 : List.Sublist [p] ((buffer_fields r).filter (fun q => decide (q ≠ 0)) ++ [p]) :=
      List.sublist_append_right _ _
    exact List.Sublist.append h1 ih

/-- A well-formed list has no more nodes than the heap has blocks. -/
theorem nodes_length_le (nodes : List (Ptr × rdma_addrinfo)) (h : List (Ptr × Obj))
    (hd : (spec_release_order nodes).Nodup)
    (hl : ∀ q ∈ spec_release_order nodes, find h q ≠ none) :
    nodes.length ≤ h.length := by
  have hs := nodes_sublist nodes
  have hn : (nodes.map Prod.fst).Nodup := hd.sublist hs
  have hsub : nodes.map Prod.fst ⊆ h.map Prod.fst := fun q hq =>
    find_mem_keys h q (hl q (hs.subset hq))
  have := (List.subperm_of_subset hn hsub).length_le
  simpa using this

/-- Release of a well-formed list by `rdma_freeaddrinfo`. -/
theorem freeaddrinfo_chain (nodes : List (Ptr × rdma_addrinfo)) (res : Ptr) (w : World)
    (hc : chain w.heap res nodes = true) (hd : (spec_release_order nodes).Nodup)
    (hl : ∀ q ∈ spec_release_order nodes, find w.heap q ≠ none) :
    rdma_freeaddrinfo res w = some (free_all (spec_release_order nodes) w) :=
  free_loop_chain nodes _ res w hc hd hl (nodes_length_le nodes w.heap hd hl)

theorem mem_release_order (nodes : List (Ptr × rdma_addrinfo)) (p : Ptr) (r : rdma_addrinfo)
    (q : Ptr) (hm : (p, r) ∈ nodes) (hq : q = p ∨ (q ∈ buffer_fields r ∧ q ≠ 0)) :
    q ∈ spec_release_order nodes := by
  induction nodes with
  | nil => simp at hm
  | cons a rest ih =>
    simp only [List.mem_cons] at hm
    rcases hm with hm | hm
    · subst hm
      simp only [spec_release_order, spec_node_releases, List.mem_append, List.mem_filter,
        decide_eq_true_eq, List.mem_singleton]
      rcases hq with hq | hq
      · exact Or.inl (Or.inr hq)
      · exact Or.inl (Or.inl hq)
    · obtain ⟨a1, a2⟩ := a
      simp only [spec_release_order, List.mem_append]
      exact Or.inr (ih hm)

/-- A node two of whose fields name the same block has that block released
twice, which `free` does not define. -/
theorem aliased_buffers_undefined : rdma_freeaddrinfo 10 ex_world_alias = none := by
  decide

/-! ## The claims -/

/-- Claim C1: called with node, service and hints all absent, `rdma_getaddrinfo`
returns `-1` with `errno = EINVAL` whatever `*res` holds; `*res`, the heap, the
allocation plan and the trace are untouched, so neither the initialiser, nor
the allocator, nor the resolver has been called. -/
theorem C1_invalid_argument (k : Consts) (env : Env) (res : Ptr) (w : World) :
    rdma_getaddrinfo k env 0 0 none res w =
      some ⟨-1, res, ⟨w.heap, w.plan, k.EINVAL, w.trace⟩⟩ := by
  simp [rdma_getaddrinfo, rdma_getaddrinfo_build, ERR]

/-- Claim C2: on the name-based path, when the resolver returns the non-zero
code `c`, `rdma_getaddrinfo` returns exactly `c`, leaves `errno` and `*res` as
they were, and has released the node it allocated. -/
theorem C2_resolver_error (k : Consts) (env : Env) (node service : Ptr)
    (hints : Option rdma_addrinfo) (res : Ptr) (w : World) (c : Int)
    (hpath : node ≠ 0 ∨ service ≠ 0) (hinit : env.ucma_init = 0)
    (halloc : w.plan.head? ≠ some false)
    (hgai : (env.getaddrinfo node service (hints.map (ucma_convert_to_ai k))).1 = c)
    (hc : c ≠ 0) :
    rdma_getaddrinfo k env node service hints res w =
      some ⟨c, res, ⟨w.heap, w.plan.tail, w.errno,
                     w.trace ++ [Event.init, Event.alloc (top w.heap + 1),
                       Event.getaddrinfo, Event.free (top w.heap + 1)]⟩⟩ := by
  have h1 : ¬ (service = 0 ∧ node = 0 ∧ hints = none) := by
    rintro ⟨h1, h2, -⟩; rcases hpath with h | h <;> contradiction
  have hg : (env.getaddrinfo node service (hints.map (ucma_convert_to_ai k))).1 ≠ 0 := by
    rw [hgai]; exact hc
  unfold rdma_getaddrinfo
  rw [build_entered k env node service hints w h1 hinit halloc]
  unfold resolve_paths
  rw [if_pos hpath, ucma_convert_gai_fail k env node service hints _ _ hg, hgai]
  cases hints <;>
  simp [hc, entered, take_flags, err_exit, commit, put, rdma_freeaddrinfo, free_loop, find,
    free_if, free, erase, rai_zero, free_loop_null]

/-- Witness of C2: the resolver of `ex_env_fail` fails with `-2`. -/
theorem C2_resolver_error_witness :
    rdma_getaddrinfo hdr ex_env_fail 5 0 none 99 ex_world =
      some ⟨-2, 99, ⟨[(7, Obj.bytes [192, 168, 0, 1])], [], 0,
                     [Event.init, Event.alloc 8, Event.getaddrinfo, Event.free 8]⟩⟩ :=
  C2_resolver_error hdr ex_env_fail 5 0 none 99 ex_world (-2) (by decide) rfl (by decide) rfl
    (by decide)

/-- Counterexample to C3: the entry carries a canonical name, the address
buffer is allocated and the allocation for the name fails; the translation
returns `0`, not `-1`, with the address placed and no canonical name. -/
theorem C3_counterexample :
    ex_entry.ai_canonname ≠ 0 ∧ ex_world_gai.plan = [true, false] ∧
    ucma_convert_to_rai hdr rai_zero 50 ex_world_gai =
      some (0,
        { rai_zero with ai_family := 2, ai_qp_type := 2, ai_port_space := 262,
                        ai_dst_len := 16, ai_dst_addr := 51, ai_dst_canonname := 0 },
        ⟨[(51, Obj.bytes [2, 0, 19, 136, 10, 0, 0, 1, 0, 0, 0, 0, 0, 0, 0, 0]),
          (50, Obj.gai [ex_entry] ex_mem)], [], 12, [Event.alloc 51, Event.alloc 0]⟩) := by
  decide

/-- Claim C3, amended: when the entry carries a canonical name and the
allocation for its copy fails after the address buffer was allocated,
`ucma_convert_to_rai` returns `0` with the address placed and the canonical
name pointer `NULL`, in the world the two allocator calls left.  The
translation fails with `ENOMEM` when the allocation of the address buffer
itself fails. -/
theorem C3_name_allocation_failure_tolerated (k : Consts) (rai : rdma_addrinfo) (ai : Ptr)
    (w : World) (a : addrinfo) (rest : List addrinfo) (mem : List (Ptr × List Nat))
    (bs str : List Nat)
    (hf : find w.heap ai = some (Obj.gai (a :: rest) mem))
    (hname : a.ai_canonname ≠ 0) (hstr : read_str mem a.ai_canonname = some str)
    (haddr : read_mem mem a.ai_addr a.ai_addrlen = some bs)
    (hfirst : w.plan.head? ≠ some false) (hsecond : w.plan.tail.head? = some false) :
    ucma_convert_to_rai k rai ai w =
      some (0, place k (convert_fields k rai a) a (top w.heap + 1) 0,
        ⟨(top w.heap + 1, Obj.bytes bs) :: w.heap, w.plan.tail.tail, k.ENOMEM,
         w.trace ++ [Event.alloc (top w.heap + 1), Event.alloc 0]⟩) ∧
    ucma_convert_to_rai k rai ai ⟨w.heap, false :: w.plan, w.errno, w.trace⟩ =
      some (-1, convert_fields k rai a,
        ⟨w.heap, w.plan, k.ENOMEM, w.trace ++ [Event.alloc 0]⟩) := by
  constructor
  · rw [ucma_convert_to_rai_eq k rai ai w a rest mem hf, if_neg hfirst, haddr]
    simp only [if_neg hname, hstr, if_pos hsecond]
  · rw [ucma_convert_to_rai_eq k rai ai ⟨w.heap, false :: w.plan, w.errno, w.trace⟩ a rest mem hf]
    simp

/-- Witness of the amended C3. -/
theorem C3_name_allocation_failure_tolerated_witness :
    ucma_convert_to_rai hdr rai_zero 50 ex_world_gai =
      some (0, place hdr (convert_fields hdr rai_zero ex_entry) ex_entry
                 (top ex_world_gai.heap + 1) 0,
        ⟨(top ex_world_gai.heap + 1,
            Obj.bytes [2, 0, 19, 136, 10, 0, 0, 1, 0, 0, 0, 0, 0, 0, 0, 0]) :: ex_world_gai.heap,
         ex_world_gai.plan.tail.tail, hdr.ENOMEM,
         ex_world_gai.trace ++ [Event.alloc (top ex_world_gai.heap + 1), Event.alloc 0]⟩) ∧
    ucma_convert_to_rai hdr rai_zero 50
        ⟨ex_world_gai.heap, false :: ex_world_gai.plan, ex_world_gai.errno, ex_world_gai.trace⟩ =
      some (-1, convert_fields hdr rai_zero ex_entry,
        ⟨ex_world_gai.heap, ex_world_gai.plan, hdr.ENOMEM,
         ex_world_gai.trace ++ [Event.alloc 0]⟩) :=
  C3_name_allocation_failure_tolerated hdr rai_zero 50 ex_world_gai ex_entry [] ex_mem
    [2, 0, 19, 136, 10, 0, 0, 1, 0, 0, 0, 0, 0, 0, 0, 0] [104, 0]
    (by decide) (by decide) (by decide) (by decide) (by decide) (by decide)

/-- Claim C5, amended: on the name-based path the translated triple goes to
the source side exactly when the first entry's own `ai_flags` has
`RAI_PASSIVE`, whatever the hints say; then the destination side stays empty.
Otherwise the triple goes to the destination side. -/
theorem C5_placement_follows_entry_flags (k : Consts) (env : Env) (node service : Ptr)
    (hints : Option rdma_addrinfo) (w : World) (s : Stage)
    (a : addrinfo) (rest : List addrinfo) (mem : List (Ptr × List Nat))
    (hpath : node ≠ 0 ∨ service ≠ 0)
    (hE : env.getaddrinfo node service (hints.map (ucma_convert_to_ai k)) = (0, a :: rest, mem))
    (hlen : a.ai_addrlen ≠ 0)
    (hb : rdma_getaddrinfo_build k env node service hints w = some s) (hs : s.ret = 0) :
    ∃ bs, read_mem mem a.ai_addr a.ai_addrlen = some bs ∧
      (a.ai_flags &&& k.RAI_PASSIVE ≠ 0 →
        s.node.ai_src_addr ≠ 0 ∧ s.node.ai_src_len = a.ai_addrlen ∧
        find s.w.heap s.node.ai_src_addr = some (Obj.bytes bs) ∧
        (s.node.ai_src_canonname = 0 ∨
          ∃ str, read_str mem a.ai_canonname = some str ∧
            find s.w.heap s.node.ai_src_canonname = some (Obj.bytes str)) ∧
        s.node.ai_dst_addr = 0 ∧ s.node.ai_dst_len = 0 ∧ s.node.ai_dst_canonname = 0) ∧
      (a.ai_flags &&& k.RAI_PASSIVE = 0 →
        s.node.ai_dst_addr ≠ 0 ∧ s.node.ai_dst_len = a.ai_addrlen ∧
        find s.w.heap s.node.ai_dst_addr = some (Obj.bytes bs) ∧
        (s.node.ai_dst_canonname = 0 ∨
          ∃ str, read_str mem a.ai_canonname = some str ∧
            find s.w.heap s.node.ai_dst_canonname = some (Obj.bytes str)) ∧
        s.node.ai_src_canonname = 0) :=
  name_placement k env node service hints w s a rest mem hpath hE hlen hb hs

/-- Counterexample to C5: with passive hints and a first entry whose own
`ai_flags` is `0` the triple lands on the destination side and the source
side stays empty; without hints and with a first entry whose `ai_flags` has
the bit, the triple lands on the source side. -/
theorem C5_counterexample :
    ex_hints_passive.ai_flags &&& hdr.RAI_PASSIVE ≠ 0 ∧
    rdma_getaddrinfo hdr ex_env 0 6 (some ex_hints_passive) 99 ex_world =
      some ⟨0, 8, ⟨ex_heap_built { ex_node_dst with ai_flags := 1 }, [], 0, ex_trace_built⟩⟩ ∧
    rdma_getaddrinfo_build hdr ex_env_flagged 5 0 none ex_world =
      some ⟨0, 8, ex_node_src, ⟨ex_heap_built ex_node_src, [], 0, ex_trace_built⟩⟩ := by
  decide

/-- Witness of the amended C5: the entry of `ex_env_flagged` has the bit and
there are no hints. -/
theorem C5_placement_follows_entry_flags_witness :
    ∃ bs, read_mem ex_mem ex_entry_flagged.ai_addr ex_entry_flagged.ai_addrlen = some bs ∧
      (ex_entry_flagged.ai_flags &&& hdr.RAI_PASSIVE ≠ 0 →
        ex_node_src.ai_src_addr ≠ 0 ∧ ex_node_src.ai_src_len = ex_entry_flagged.ai_addrlen ∧
        find (ex_heap_built ex_node_src) ex_node_src.ai_src_addr = some (Obj.bytes bs) ∧
        (ex_node_src.ai_src_canonname = 0 ∨
          ∃ str, read_str ex_mem ex_entry_flagged.ai_canonname = some str ∧
            find (ex_heap_built ex_node_src) ex_node_src.ai_src_canonname =
              some (Obj.bytes str)) ∧
        ex_node_src.ai_dst_addr = 0 ∧ ex_node_src.ai_dst_len = 0 ∧
        ex_node_src.ai_dst_canonname = 0) ∧
      (ex_entry_flagged.ai_flags &&& hdr.RAI_PASSIVE = 0 →
        ex_node_src.ai_dst_addr ≠ 0 ∧ ex_node_src.ai_dst_len = ex_entry_flagged.ai_addrlen ∧
        find (ex_heap_built ex_node_src) ex_node_src.ai_dst_addr = some (Obj.bytes bs) ∧
        (ex_node_src.ai_dst_canonname = 0 ∨
          ∃ str, read_str ex_mem ex_entry_flagged.ai_canonname = some str ∧
            find (ex_heap_built ex_node_src) ex_node_src.ai_dst_canonname =
              some (Obj.bytes str)) ∧
        ex_node_src.ai_src_canonname = 0) :=
  C5_placement_follows_entry_flags hdr ex_env_flagged 5 0 none ex_world
    ⟨0, 8, ex_node_src, ⟨ex_heap_built ex_node_src, [], 0, ex_trace_built⟩⟩
    ex_entry_flagged [] ex_mem (by decide) rfl (by decide) (by decide) rfl

/-- Claim C6, amended: after a successful call, with a hook that leaves the
flags and the address fields of the node as they are.  On the name-based
path, when the first entry has a non-empty address and its own `RAI_PASSIVE`
bit agrees with the hints' flag, a passive result has a populated source
address and a non-passive one a populated destination address.  On the
address-based path the destination is populated exactly when the hints give a
destination length, and the source exactly when they give a source length,
whatever the passive flag. -/
theorem C6_populated_side (k : Consts) (env : Env) (node service : Ptr)
    (hints : Option rdma_addrinfo) (res : Ptr) (w : World) (o : Outcome)
    (hhook : ∀ p hs w1 r, find w1.heap p = some (Obj.rai r) →
      ∃ r2, find (env.ucma_ib_resolve p hs w1).heap p = some (Obj.rai r2) ∧
        r2.ai_flags = r.ai_flags ∧ r2.ai_src_addr = r.ai_src_addr ∧
        r2.ai_src_len = r.ai_src_len ∧ r2.ai_dst_addr = r.ai_dst_addr ∧
        r2.ai_dst_len = r.ai_dst_len)
    (hr : rdma_getaddrinfo k env node service hints res w = some o) (h0 : o.ret = 0) :
    ∃ r, find o.w.heap o.res = some (Obj.rai r) ∧
      ((node ≠ 0 ∨ service ≠ 0) → ∀ a rest mem,
        env.getaddrinfo node service (hints.map (ucma_convert_to_ai k)) = (0, a :: rest, mem) →
        a.ai_addrlen ≠ 0 →
        (a.ai_flags &&& k.RAI_PASSIVE ≠ 0 ↔ r.ai_flags &&& k.RAI_PASSIVE ≠ 0) →
        (r.ai_flags &&& k.RAI_PASSIVE ≠ 0 → r.ai_src_addr ≠ 0 ∧ r.ai_src_len ≠ 0) ∧
        (r.ai_flags &&& k.RAI_PASSIVE = 0 → r.ai_dst_addr ≠ 0 ∧ r.ai_dst_len ≠ 0)) ∧
      (node = 0 ∧ service = 0 → ∀ h, hints = some h →
        ((r.ai_dst_addr ≠ 0 ∧ r.ai_dst_len ≠ 0) ↔ h.ai_dst_len ≠ 0) ∧
        ((r.ai_src_addr ≠ 0 ∧ r.ai_src_len ≠ 0) ↔ h.ai_src_len ≠ 0)) := by
  obtain ⟨s, hb, hs, hres, hw⟩ := getaddrinfo_success k env node service hints res w o hr h0
  obtain ⟨-, hlive⟩ := build_node_live k env node service hints w s hb hs
  -- the node the caller reads agrees with `s.node` on flags and address fields
  have hnode : ∃ r, find o.w.heap o.res = some (Obj.rai r) ∧
      r.ai_flags = s.node.ai_flags ∧ r.ai_src_addr = s.node.ai_src_addr ∧
      r.ai_src_len = s.node.ai_src_len ∧ r.ai_dst_addr = s.node.ai_dst_addr ∧
      r.ai_dst_len = s.node.ai_dst_len := by
    rcases hw with ⟨-, hw⟩ | ⟨-, hw⟩
    · exact ⟨s.node, by rw [hw, hres]; exact hlive, rfl, rfl, rfl, rfl, rfl⟩
    · obtain ⟨r2, hf, h⟩ := hhook s.rai hints
        ⟨s.w.heap, s.w.plan, s.w.errno, s.w.trace ++ [Event.ib_resolve s.rai]⟩ s.node hlive
      exact ⟨r2, by rw [hw, hres]; exact hf, h⟩
  obtain ⟨r, hfr, hfl, hsa, hsl, hda, hdl⟩ := hnode
  refine ⟨r, hfr, ?_, ?_⟩
  · intro hpath a rest mem hE hlen hecho
    obtain ⟨bs, -, hP, hN⟩ :=
      name_placement k env node service hints w s a rest mem hpath hE hlen hb hs
    rw [hsa, hsl, hda, hdl]
    constructor
    · intro hp
      obtain ⟨h1, h2, -⟩ := hP (hecho.mpr hp)
      exact ⟨h1, by rw [h2]; exact hlen⟩
    · intro hp
      have : a.ai_flags &&& k.RAI_PASSIVE = 0 := by
        by_contra hne
        exact (hecho.mp hne) hp
      obtain ⟨h1, h2, -⟩ := hN this
      exact ⟨h1, by rw [h2]; exact hlen⟩
  · rintro ⟨hn, hsv⟩ h hh
    subst hh
    obtain ⟨-, -, -, s1, s2, h1, hr1, h2, hr2, hse⟩ :=
      build_success k env node service (some h) w s hb hs
    have hpath : ¬ (node ≠ 0 ∨ service ≠ 0) := by simp [hn, hsv]
    have hsn : s.node = s2.node := by rw [hse]
    rw [hsa, hsl, hda, hdl, hsn]
    rcases paths_addr_success k env node service h w s1 hpath h1 hr1 with
      ⟨hd, hs1⟩ | ⟨hd, bs, -, hs1⟩ <;>
    rcases backfill_success k (some h) s1 s2 h2 hr2 with
      ⟨he, hno⟩ | ⟨h', bs', hh', hz, hsl', -, he⟩
    · subst he hs1
      have hsrc : h.ai_src_len = 0 := by
        by_contra hne
        exact hno h rfl ⟨rfl, hne⟩
      simp [rai_zero, hd, hsrc]
    · cases hh'
      subst he
      rw [hs1]
      simp [rai_zero, hd, hsl']
    · subst he hs1
      have hsrc : h.ai_src_len = 0 := by
        by_contra hne
        exact hno h rfl ⟨rfl, hne⟩
      simp [rai_zero, hd, hsrc]
    · cases hh'
      subst he
      rw [hs1]
      simp [rai_zero, hd, hsl']

/-- Counterexample to C6: on the address-based path, passive hints that give
only a destination address produce a successful result whose passive flag is
set and whose source address is absent. -/
theorem C6_counterexample :
    rdma_getaddrinfo hdr ex_env 0 0 (some ex_hints_passive_dst) 99 ex_world =
      some ⟨0, 8, ⟨[(9, Obj.bytes [192, 168, 0, 1]),
                    (8, Obj.rai { ex_hints_passive_dst with ai_dst_addr := 9 }),
                    (7, Obj.bytes [192, 168, 0, 1])], [], 0,
                   [Event.init, Event.alloc 8, Event.alloc 9]⟩⟩ ∧
    ex_hints_passive_dst.ai_flags &&& hdr.RAI_PASSIVE ≠ 0 ∧
    ex_hints_passive_dst.ai_src_addr = 0 ∧ ex_hints_passive_dst.ai_src_len = 0 := by
  decide

/-- Witness of the amended C6: the name-based call of `ex_env` without hints. -/
theorem C6_populated_side_witness :
    ∃ r, find (ex_heap_built ex_node_dst) 8 = some (Obj.rai r) ∧
      ((5 ≠ 0 ∨ 0 ≠ 0) → ∀ a rest mem,
        ex_env.getaddrinfo 5 0 (Option.map (ucma_convert_to_ai hdr) none) = (0, a :: rest, mem) →
        a.ai_addrlen ≠ 0 →
        (a.ai_flags &&& hdr.RAI_PASSIVE ≠ 0 ↔ r.ai_flags &&& hdr.RAI_PASSIVE ≠ 0) →
        (r.ai_flags &&& hdr.RAI_PASSIVE ≠ 0 → r.ai_src_addr ≠ 0 ∧ r.ai_src_len ≠ 0) ∧
        (r.ai_flags &&& hdr.RAI_PASSIVE = 0 → r.ai_dst_addr ≠ 0 ∧ r.ai_dst_len ≠ 0)) ∧
      (5 = 0 ∧ 0 = 0 → ∀ h : rdma_addrinfo, none = some h →
        ((r.ai_dst_addr ≠ 0 ∧ r.ai_dst_len ≠ 0) ↔ h.ai_dst_len ≠ 0) ∧
        ((r.ai_src_addr ≠ 0 ∧ r.ai_src_len ≠ 0) ↔ h.ai_src_len ≠ 0)) :=
  C6_populated_side hdr ex_env 5 0 none 99 ex_world
    ⟨0, 8, ⟨ex_heap_built ex_node_dst, [], 0, ex_trace_built ++ [Event.ib_resolve 8]⟩⟩
    (fun _ _ _ r hf => ⟨r, hf, rfl, rfl, rfl, rfl, rfl⟩) (by decide) rfl

/-- Counterexample to C7: the pair (`IBV_QPT_RC`, `RDMA_PS_IPOIB`) comes back
with port space `RDMA_PS_UDP`. -/
theorem C7_counterexample :
    (ucma_convert_to_rai hdr rai_zero 50
        (ex_world_back (ex_hints_pair hdr.IBV_QPT_RC hdr.RDMA_PS_IPOIB))).map
      (fun x => (x.1, x.2.1.ai_qp_type, x.2.1.ai_port_space)) =
      some (0, hdr.IBV_QPT_RC, hdr.RDMA_PS_UDP) ∧
    hdr.RDMA_PS_UDP ≠ hdr.RDMA_PS_IPOIB := by
  decide

/-- Claim C7, amended: for a queue-pair type in {RC, UD} and a port space in
{TCP, UDP}, `ucma_convert_to_ai` followed by `ucma_convert_to_rai` into a
zeroed node gives back the pair; `RDMA_PS_IPOIB` comes back as `RDMA_PS_UDP`.
The case labels of each `switch` are distinct constants. -/
theorem C7_round_trip (k : Consts) (h : rdma_addrinfo) (ai : Ptr) (w : World)
    (a : addrinfo) (rest : List addrinfo) (mem : List (Ptr × List Nat))
    (ret : Int) (r : rdma_addrinfo) (w2 : World)
    (hsock : k.SOCK_STREAM ≠ k.SOCK_DGRAM) (hproto : k.IPPROTO_TCP ≠ k.IPPROTO_UDP)
    (hps : k.RDMA_PS_TCP ≠ k.RDMA_PS_IPOIB)
    (hq : h.ai_qp_type = k.IBV_QPT_RC ∨ h.ai_qp_type = k.IBV_QPT_UD)
    (hp : h.ai_port_space = k.RDMA_PS_TCP ∨ h.ai_port_space = k.RDMA_PS_UDP ∨
          h.ai_port_space = k.RDMA_PS_IPOIB)
    (hf : find w.heap ai = some (Obj.gai (a :: rest) mem))
    (hst : a.ai_socktype = (ucma_convert_to_ai k h).ai_socktype)
    (hpr : a.ai_protocol = (ucma_convert_to_ai k h).ai_protocol)
    (hres : ucma_convert_to_rai k rai_zero ai w = some (ret, r, w2)) :
    r.ai_qp_type = h.ai_qp_type ∧
    r.ai_port_space =
      if h.ai_port_space = k.RDMA_PS_IPOIB then k.RDMA_PS_UDP else h.ai_port_space := by
  obtain ⟨-, hqp, hpsp⟩ := to_rai_fields k rai_zero ai w a rest mem ret r w2 hf hres
  rw [hqp, hpsp]
  unfold convert_fields
  simp only [hst, hpr, to_ai_socktype, to_ai_protocol]
  constructor
  · rcases hq with hq | hq
    · simp [hq]; split_ifs <;> simp_all
    · by_cases hrc : k.IBV_QPT_UD = k.IBV_QPT_RC
      · simp [hq, hrc]; split_ifs <;> simp_all
      · simp [hq, hrc, hsock.symm]; split_ifs <;> simp_all
  · rcases hp with hp | hp | hp
    · simp [hp, hps]
    · by_cases htu : k.RDMA_PS_UDP = k.RDMA_PS_TCP
      · simp [hp, htu, hps]
      · by_cases hui : k.RDMA_PS_UDP = k.RDMA_PS_IPOIB
        · simp [hp, htu, hui, hproto.symm]; split_ifs <;> simp_all
        · simp [hp, htu, hui, hproto.symm]
    · simp [hp, hps.symm, hproto.symm]

/-- Witness of the amended C7: (`IBV_QPT_UD`, `RDMA_PS_UDP`) comes back. -/
theorem C7_round_trip_witness :
    (ex_hints_pair 4 273).ai_qp_type = (ex_hints_pair 4 273).ai_qp_type ∧
    hdr.RDMA_PS_UDP =
      if (ex_hints_pair 4 273).ai_port_space = hdr.RDMA_PS_IPOIB then hdr.RDMA_PS_UDP
      else (ex_hints_pair 4 273).ai_port_space :=
  C7_round_trip hdr (ex_hints_pair 4 273) 50 (ex_world_back (ex_hints_pair 4 273))
    { ex_entry2 with ai_socktype := (ucma_convert_to_ai hdr (ex_hints_pair 4 273)).ai_socktype,
                     ai_protocol := (ucma_convert_to_ai hdr (ex_hints_pair 4 273)).ai_protocol }
    [] ex_mem 0
    { rai_zero with ai_family := 2, ai_qp_type := 4, ai_port_space := 273, ai_dst_len := 16,
                    ai_dst_addr := 51 }
    ⟨[(51, Obj.bytes [2, 0, 19, 136, 10, 0, 0, 1, 0, 0, 0, 0, 0, 0, 0, 0]),
      (50, Obj.gai [{ ex_entry2 with
          ai_socktype := (ucma_convert_to_ai hdr (ex_hints_pair 4 273)).ai_socktype,
          ai_protocol := (ucma_convert_to_ai hdr (ex_hints_pair 4 273)).ai_protocol }] ex_mem)],
     [], 0, [Event.alloc 51]⟩
    (by decide) (by decide) (by decide) (Or.inr rfl) (Or.inr (Or.inl rfl)) rfl rfl rfl
    (by decide)

/-- Claim C8: on the name-based path, when the resolver answers `a :: rest`,
`rdma_getaddrinfo` returns what it returns when the resolver answers `[a]`
(same return value, same `*res`, same world), and the node built has a null
`ai_next`: the list has one node. -/
theorem C8_first_entry_only (k : Consts) (env env2 : Env) (node service : Ptr)
    (hints : Option rdma_addrinfo) (res : Ptr) (w : World)
    (a : addrinfo) (rest : List addrinfo) (mem : List (Ptr × List Nat))
    (hpath : node ≠ 0 ∨ service ≠ 0)
    (hE : env.getaddrinfo node service (hints.map (ucma_convert_to_ai k)) = (0, a :: rest, mem))
    (hE2 : env2.getaddrinfo node service (hints.map (ucma_convert_to_ai k)) = (0, [a], mem))
    (hinit : env2.ucma_init = env.ucma_init)
    (hhook : env2.ucma_ib_resolve = env.ucma_ib_resolve) :
    rdma_getaddrinfo k env node service hints res w =
      rdma_getaddrinfo k env2 node service hints res w ∧
    ∀ s, rdma_getaddrinfo_build k env node service hints w = some s → s.ret = 0 →
      find s.w.heap s.rai = some (Obj.rai s.node) ∧ s.node.ai_next = 0 := by
  constructor
  · have hbuild : rdma_getaddrinfo_build k env node service hints w =
        rdma_getaddrinfo_build k env2 node service hints w := by
      unfold rdma_getaddrinfo_build resolve_paths
      simp only [ucma_init, hinit, if_pos hpath,
        gai_first_only k env env2 node service hints _ _ a rest [] mem hE hE2]
    unfold rdma_getaddrinfo
    rw [hbuild, hhook]
  · intro s hb hs
    exact ⟨(build_node_live k env node service hints w s hb hs).2,
      (build_node_single k env node service hints w s hb hs).1⟩

/-- Witness of C8: the resolver of `ex_env_two` answers two entries, that of
`ex_env` the first of them. -/
theorem C8_first_entry_only_witness :
    rdma_getaddrinfo hdr ex_env_two 5 0 none 99 ex_world =
      rdma_getaddrinfo hdr ex_env 5 0 none 99 ex_world ∧
    (∀ s, rdma_getaddrinfo_build hdr ex_env_two 5 0 none ex_world = some s → s.ret = 0 →
      find s.w.heap s.rai = some (Obj.rai s.node) ∧ s.node.ai_next = 0) ∧
    rdma_getaddrinfo hdr ex_env_two 5 0 none 99 ex_world =
      some ⟨0, 8, ⟨ex_heap_built ex_node_dst, [], 0, ex_trace_built ++ [Event.ib_resolve 8]⟩⟩ :=
  ⟨(C8_first_entry_only hdr ex_env_two ex_env 5 0 none 99 ex_world ex_entry [ex_entry2] ex_mem
      (by decide) rfl rfl rfl rfl).1,
   (C8_first_entry_only hdr ex_env_two ex_env 5 0 none 99 ex_world ex_entry [ex_entry2] ex_mem
      (by decide) rfl rfl rfl rfl).2, by decide⟩

/-- Claim C9: on the address-based path, when `ucma_init` has returned `0`, no
allocation fails and the hints' buffers are readable, the call succeeds; before
the hook runs the node holds the hints' flags, family, queue-pair type and port
space; with a non-zero destination length its destination buffer holds exactly
the hints' destination bytes, with the same length, and otherwise it has no
destination address; the resolver is not called. -/
theorem C9_address_path (k : Consts) (env : Env) (h : rdma_addrinfo) (res : Ptr) (w : World)
    (bd bs : List Nat)
    (hinit : env.ucma_init = 0) (hplan : ∀ b ∈ w.plan, b = true)
    (hdst : h.ai_dst_len ≠ 0 → read_heap w.heap h.ai_dst_addr h.ai_dst_len = some bd)
    (hsrc : h.ai_src_len ≠ 0 → read_heap w.heap h.ai_src_addr h.ai_src_len = some bs) :
    ∃ s, rdma_getaddrinfo_build k env 0 0 (some h) w = some s ∧ s.ret = 0 ∧
      rdma_getaddrinfo k env 0 0 (some h) res w =
        some (if s.node.ai_flags &&& k.RAI_PASSIVE = 0
              then ⟨0, s.rai, env.ucma_ib_resolve s.rai (some h)
                     ⟨s.w.heap, s.w.plan, s.w.errno, s.w.trace ++ [Event.ib_resolve s.rai]⟩⟩
              else ⟨0, s.rai, s.w⟩) ∧
      find s.w.heap s.rai = some (Obj.rai s.node) ∧
      s.node.ai_flags = h.ai_flags ∧ s.node.ai_family = h.ai_family ∧
      s.node.ai_qp_type = h.ai_qp_type ∧ s.node.ai_port_space = h.ai_port_space ∧
      (h.ai_dst_len ≠ 0 →
        s.node.ai_dst_len = h.ai_dst_len ∧ bd.length = h.ai_dst_len ∧
        find s.w.heap s.node.ai_dst_addr = some (Obj.bytes bd)) ∧
      (h.ai_dst_len = 0 → s.node.ai_dst_addr = 0 ∧ s.node.ai_dst_len = 0) ∧
      ∃ l, s.w.trace = w.trace ++ l ∧ Event.getaddrinfo ∉ l := by
  have harg : ¬ ((0 : Ptr) = 0 ∧ (0 : Ptr) = 0 ∧ some h = none) := by simp
  have hp0 := plan_head_ok _ hplan
  have hp1 : (entered w).plan.head? ≠ some false :=
    plan_head_ok _ (plan_tail_ok _ hplan)
  have hp2 : (entered w).plan.tail.head? ≠ some false :=
    plan_head_ok _ (plan_tail_ok _ (plan_tail_ok _ hplan))
  have hfin : ∀ s : Stage, rdma_getaddrinfo_build k env 0 0 (some h) w = some s → s.ret = 0 →
      rdma_getaddrinfo k env 0 0 (some h) res w =
        some (if s.node.ai_flags &&& k.RAI_PASSIVE = 0
              then ⟨0, s.rai, env.ucma_ib_resolve s.rai (some h)
                     ⟨s.w.heap, s.w.plan, s.w.errno, s.w.trace ++ [Event.ib_resolve s.rai]⟩⟩
              else ⟨0, s.rai, s.w⟩) := by
    intro s hb hs
    unfold rdma_getaddrinfo
    rw [hb]
    simp only [hs, ne_eq, not_true_eq_false, if_false]
    split_ifs <;> rfl
  have e1 : ¬ top w.heap + 1 + 1 = top w.heap := by omega
  have hb := build_entered k env 0 0 (some h) w harg hinit hp0
  by_cases hd : h.ai_dst_len = 0
  · rw [paths_addr_plain k env h 0 _ _ hd] at hb
    simp only [ne_eq, not_true_eq_false, if_false] at hb
    by_cases hs : h.ai_src_len = 0
    · rw [backfill_skip k h _ (Or.inl hs)] at hb
      simp only [not_true_eq_false, if_false] at hb
      refine ⟨_, hb, rfl, hfin _ hb rfl, ?_⟩
      simp [commit, entered, put, find, hd, rai_zero, top_fresh]
    · rw [backfill_copy k h _ bs rfl hs hp1
        (read_heap_grow_some w.heap (Obj.rai rai_zero) _ _ _ (hsrc hs))] at hb
      simp only [not_true_eq_false, if_false] at hb
      refine ⟨_, hb, rfl, hfin _ hb rfl, ?_⟩
      simp [commit, entered, put, find, hd, rai_zero, top_fresh]
  · have hbd := read_heap_length _ _ _ _ (hdst hd)
    rw [paths_addr_copy k env h 0 _ _ bd hd hp1
      (read_heap_grow_some w.heap (Obj.rai rai_zero) _ _ _ (hdst hd))] at hb
    simp only [ne_eq, not_true_eq_false, if_false] at hb
    by_cases hs : h.ai_src_len = 0
    · rw [backfill_skip k h _ (Or.inl hs)] at hb
      simp only [not_true_eq_false, if_false] at hb
      refine ⟨_, hb, rfl, hfin _ hb rfl, ?_⟩
      simp [commit, entered, put, find, hd, rai_zero, hbd, top_fresh, top_fresh2, e1]
    · rw [backfill_copy k h _ bs rfl hs hp2
        (read_heap_grow_some _ (Obj.bytes bd) _ _ _
          (read_heap_grow_some w.heap (Obj.rai rai_zero) _ _ _ (hsrc hs)))] at hb
      simp only [not_true_eq_false, if_false] at hb
      refine ⟨_, hb, rfl, hfin _ hb rfl, ?_⟩
      simp [commit, entered, put, find, hd, rai_zero, hbd, top_fresh, top_fresh2, e1]

/-- Witness of C9: hints with a 4-byte destination address and no source. -/
theorem C9_address_path_witness :
    ∃ s, rdma_getaddrinfo_build hdr ex_env 0 0 (some ex_hints_dst) ex_world = some s ∧
      s.ret = 0 ∧
      rdma_getaddrinfo hdr ex_env 0 0 (some ex_hints_dst) 99 ex_world =
        some (if s.node.ai_flags &&& hdr.RAI_PASSIVE = 0
              then ⟨0, s.rai, ex_env.ucma_ib_resolve s.rai (some ex_hints_dst)
                     ⟨s.w.heap, s.w.plan, s.w.errno, s.w.trace ++ [Event.ib_resolve s.rai]⟩⟩
              else ⟨0, s.rai, s.w⟩) ∧
      find s.w.heap s.rai = some (Obj.rai s.node) ∧
      s.node.ai_flags = ex_hints_dst.ai_flags ∧ s.node.ai_family = ex_hints_dst.ai_family ∧
      s.node.ai_qp_type = ex_hints_dst.ai_qp_type ∧
      s.node.ai_port_space = ex_hints_dst.ai_port_space ∧
      (ex_hints_dst.ai_dst_len ≠ 0 →
        s.node.ai_dst_len = ex_hints_dst.ai_dst_len ∧
        [192, 168, 0, 1].length = ex_hints_dst.ai_dst_len ∧
        find s.w.heap s.node.ai_dst_addr = some (Obj.bytes [192, 168, 0, 1])) ∧
      (ex_hints_dst.ai_dst_len = 0 → s.node.ai_dst_addr = 0 ∧ s.node.ai_dst_len = 0) ∧
      ∃ l, s.w.trace = ex_world.trace ++ l ∧ Event.getaddrinfo ∉ l :=
  C9_address_path hdr ex_env ex_hints_dst 99 ex_world [192, 168, 0, 1] [] rfl (by decide)
    (fun _ => by decide) (fun h => absurd rfl h)

/-- Claim C10: after a successful call, with `s1` what path 1 or 2 left.  If
`s1` has source length zero and the hints supply a readable source address of
non-zero length, the node's source buffer is a fresh block holding exactly the
hints' source bytes, with the hints' source length.  If `s1` has a non-zero
source length, the back-fill changes nothing: the node is the one of `s1` and
no block is added or rewritten. -/
theorem C10_source_backfill (k : Consts) (env : Env) (node service : Ptr)
    (hints : Option rdma_addrinfo) (w : World) (s s1 : Stage)
    (hb : rdma_getaddrinfo_build k env node service hints w = some s) (hs : s.ret = 0)
    (h1 : resolve_paths k env node service hints 0 (top w.heap + 1) rai_zero (entered w) =
      some s1) :
    (s1.node.ai_src_len = 0 → ∀ h bs, hints = some h → h.ai_src_len ≠ 0 →
      read_heap w.heap h.ai_src_addr h.ai_src_len = some bs →
      s.node.ai_src_len = h.ai_src_len ∧ bs.length = h.ai_src_len ∧
      s.node.ai_src_addr ≠ 0 ∧ find s1.w.heap s.node.ai_src_addr = none ∧
      find s.w.heap s.node.ai_src_addr = some (Obj.bytes bs)) ∧
    (s1.node.ai_src_len ≠ 0 → s.node = s1.node ∧ s.w = commit s1) := by
  obtain ⟨harg, -, -, s1', s2, h1', hr1, h2, hr2, hse⟩ :=
    build_success k env node service hints w s hb hs
  rw [h1] at h1'
  cases h1'
  obtain ⟨hrai, hnl, hkeep⟩ := paths_live k env node service hints w s1 harg h1 hr1
  constructor
  · intro hz h bs hh hsl hrd
    subst hh
    rcases backfill_success k (some h) s1 s2 h2 hr2 with
      ⟨-, hno⟩ | ⟨h', bs', hh', -, -, hrd', he⟩
    · exact absurd ⟨hz, hsl⟩ (hno h rfl)
    · cases hh'
      have hrd1 : read_heap s1.w.heap h.ai_src_addr h.ai_src_len = some bs :=
        read_heap_of_find w.heap s1.w.heap _ _ _ (fun o ho => hkeep _ o ho) hrd
      have hbs : bs' = bs := by
        have := read_heap_grow_some s1.w.heap
          (Obj.bytes (List.replicate h.ai_src_len 0)) _ _ _ hrd1
        rw [hrd'] at this
        exact Option.some.inj this
      subst hbs
      have hne : top s1.w.heap + 1 ≠ s1.rai := by
        have hle : top w.heap + 1 ≤ top s1.w.heap := find_le_top s1.w.heap _ _ hnl
        rw [hrai]; omega
      have hf2 : find (commit s2).heap (top s1.w.heap + 1) = some (Obj.bytes bs') := by
        rw [commit_find s2 _ (by rw [he]; exact hne), he]
        simp [find]
      rw [hse]
      simp only
      rw [he] at hf2 ⊢
      exact ⟨rfl, read_heap_length _ _ _ _ hrd, by simp, find_fresh _, hf2⟩
  · intro hnz
    have h21 := (backfill_keeps k hints s1 s2 h2 hr2).2.2.1 hnz
    rw [hse, h21]
    exact ⟨rfl, rfl⟩

/-- Witness of C10: the name-based path placed a destination address, the
hints supply the 4-byte source address at `7`. -/
theorem C10_source_backfill_witness :
    (ex_stage_path.node.ai_src_len = 0 → ∀ h bs, some ex_hints_src = some h →
      h.ai_src_len ≠ 0 → read_heap ex_world.heap h.ai_src_addr h.ai_src_len = some bs →
      ex_stage_done.node.ai_src_len = h.ai_src_len ∧ bs.length = h.ai_src_len ∧
      ex_stage_done.node.ai_src_addr ≠ 0 ∧
      find ex_stage_path.w.heap ex_stage_done.node.ai_src_addr = none ∧
      find ex_stage_done.w.heap ex_stage_done.node.ai_src_addr = some (Obj.bytes bs)) ∧
    (ex_stage_path.node.ai_src_len ≠ 0 →
      ex_stage_done.node = ex_stage_path.node ∧ ex_stage_done.w = commit ex_stage_path) :=
  C10_source_backfill hdr ex_env 5 0 (some ex_hints_src) ex_world ex_stage_done ex_stage_path
    (by decide) rfl (by decide)

/-- Counterexample to C11: the hook fails with `-1`; `rdma_getaddrinfo`
returns `0`, stores the node in `*res` and leaves every block of the result
live. -/
theorem C11_counterexample :
    (ex_hook_fail 8 none
        ⟨ex_heap_built ex_node_dst, [], 0, ex_trace_built ++ [Event.ib_resolve 8]⟩).1 = -1 ∧
    rdma_getaddrinfo hdr ex_env_hook_fail 5 0 none 99 ex_world =
      some ⟨0, 8, ⟨ex_heap_built ex_node_dst, [], 110,
                   ex_trace_built ++ [Event.ib_resolve 8]⟩⟩ := by
  decide

/-- Claim C11, amended: on a non-passive call that reaches the hook, the
status the hook reports is not consulted: `rdma_getaddrinfo` returns `0` and
stores the node in `*res`, and the world is the one the hook left. -/
theorem C11_hook_status_dropped (k : Consts) (env : Env) (hk : Hook) (node service : Ptr)
    (hints : Option rdma_addrinfo) (res : Ptr) (w : World) (s : Stage)
    (hhook : env.ucma_ib_resolve = ib_resolve_stmt hk)
    (hb : rdma_getaddrinfo_build k env node service hints w = some s) (hs : s.ret = 0)
    (hact : s.node.ai_flags &&& k.RAI_PASSIVE = 0) :
    rdma_getaddrinfo k env node service hints res w =
      some ⟨0, s.rai,
        (hk s.rai hints
          ⟨s.w.heap, s.w.plan, s.w.errno, s.w.trace ++ [Event.ib_resolve s.rai]⟩).2⟩ := by
  unfold rdma_getaddrinfo
  rw [hb]
  simp only [hs, ne_eq, not_true_eq_false, if_false, if_pos hact, hhook, ib_resolve_stmt]

/-- Witness of the amended C11, with the failing hook `ex_hook_fail`. -/
theorem C11_hook_status_dropped_witness :
    rdma_getaddrinfo hdr ex_env_hook_fail 5 0 none 99 ex_world =
      some ⟨0, 8,
        (ex_hook_fail 8 none
          ⟨ex_heap_built ex_node_dst, [], 0, ex_trace_built ++ [Event.ib_resolve 8]⟩).2⟩ :=
  C11_hook_status_dropped hdr ex_env_hook_fail ex_hook_fail 5 0 none 99 ex_world
    ⟨0, 8, ex_node_dst, ⟨ex_heap_built ex_node_dst, [], 0, ex_trace_built⟩⟩
    rfl (by decide) rfl (by decide)

/-- Claim C13: the sockets-style flags `ucma_convert_to_ai` produces contain
`AI_PASSIVE` exactly when the hints have `RAI_PASSIVE`, contain
`AI_NUMERICHOST` exactly when the hints have `RAI_NUMERICHOST`, and have no
bit outside these two.  `AI_PASSIVE` and `AI_NUMERICHOST` are distinct,
non-zero flag bits. -/
theorem C13_flags_translation (k : Consts) (h : rdma_addrinfo)
    (hP : k.AI_PASSIVE ≠ 0) (hN : k.AI_NUMERICHOST ≠ 0)
    (hdisj : k.AI_PASSIVE &&& k.AI_NUMERICHOST = 0) :
    ((ucma_convert_to_ai k h).ai_flags &&& k.AI_PASSIVE = k.AI_PASSIVE ↔
      h.ai_flags &&& k.RAI_PASSIVE ≠ 0) ∧
    ((ucma_convert_to_ai k h).ai_flags &&& k.AI_NUMERICHOST = k.AI_NUMERICHOST ↔
      h.ai_flags &&& k.RAI_NUMERICHOST ≠ 0) ∧
    (ucma_convert_to_ai k h).ai_flags &&& (k.AI_PASSIVE ||| k.AI_NUMERICHOST) =
      (ucma_convert_to_ai k h).ai_flags := by
  have hdisj2 : k.AI_NUMERICHOST &&& k.AI_PASSIVE = 0 := by rw [Nat.land_comm]; exact hdisj
  rw [to_ai_flags]
  by_cases hp : h.ai_flags &&& k.RAI_PASSIVE ≠ 0 <;>
  by_cases hn : h.ai_flags &&& k.RAI_NUMERICHOST ≠ 0
  · simp only [if_pos hp, if_pos hn]
    refine ⟨⟨fun _ => hp, fun _ => or_and_left_self _ _⟩,
      ⟨fun _ => hn, fun _ => or_and_right_self _ _⟩, Nat.and_self _⟩
  · simp only [if_pos hp, if_neg hn, Nat.or_zero]
    refine ⟨⟨fun _ => hp, fun _ => Nat.and_self _⟩, ⟨fun e => ?_, fun e => absurd e hn⟩,
      and_or_self_left _ _⟩
    rw [hdisj] at e; exact absurd e.symm hN
  · simp only [if_neg hp, if_pos hn, Nat.zero_or]
    refine ⟨⟨fun e => ?_, fun e => absurd e hp⟩, ⟨fun _ => hn, fun _ => Nat.and_self _⟩,
      and_or_self_right _ _⟩
    rw [hdisj2] at e; exact absurd e.symm hP
  · simp only [if_neg hp, if_neg hn, Nat.or_zero, Nat.zero_and]
    exact ⟨⟨fun e => absurd e.symm hP, fun e => absurd e hp⟩,
      ⟨fun e => absurd e.symm hN, fun e => absurd e hn⟩, trivial⟩

/-- Witness of C13: a flags word with `RAI_NOROUTE` and `RAI_FAMILY` set too. -/
theorem C13_flags_translation_witness :
    ((ucma_convert_to_ai hdr ex_hints_all_flags).ai_flags &&& hdr.AI_PASSIVE = hdr.AI_PASSIVE ↔
      ex_hints_all_flags.ai_flags &&& hdr.RAI_PASSIVE ≠ 0) ∧
    ((ucma_convert_to_ai hdr ex_hints_all_flags).ai_flags &&& hdr.AI_NUMERICHOST =
        hdr.AI_NUMERICHOST ↔
      ex_hints_all_flags.ai_flags &&& hdr.RAI_NUMERICHOST ≠ 0) ∧
    (ucma_convert_to_ai hdr ex_hints_all_flags).ai_flags &&&
        (hdr.AI_PASSIVE ||| hdr.AI_NUMERICHOST) =
      (ucma_convert_to_ai hdr ex_hints_all_flags).ai_flags :=
  C13_flags_translation hdr ex_hints_all_flags (by decide) (by decide) (by decide)

/-- Claim C14 at hints with `RAI_PASSIVE` and a source name: address and length
are the hints' source address and length, but the name handed on is the
destination name (line 81 is outside the `if`), not the source name. -/
theorem C14_passive_canonname_from_destination :
    ex_hints_names.ai_flags &&& hdr.RAI_PASSIVE ≠ 0 ∧
    (ucma_convert_to_ai hdr ex_hints_names).ai_addr = ex_hints_names.ai_src_addr ∧
    (ucma_convert_to_ai hdr ex_hints_names).ai_addrlen = ex_hints_names.ai_src_len ∧
    (ucma_convert_to_ai hdr ex_hints_names).ai_canonname = ex_hints_names.ai_dst_canonname ∧
    (ucma_convert_to_ai hdr ex_hints_names).ai_canonname ≠ ex_hints_names.ai_src_canonname := by
  decide

/-- Claim C19: a call that returns non-zero leaves `*res` as it was; a call
that returns `0` leaves in `*res` the address of the node built, which was not
live before the call and holds the node's fields after the build. -/
theorem C19_res_written_on_success_only (k : Consts) (env : Env) (node service : Ptr)
    (hints : Option rdma_addrinfo) (res : Ptr) (w : World) (o : Outcome)
    (hr : rdma_getaddrinfo k env node service hints res w = some o) :
    (o.ret ≠ 0 → o.res = res) ∧
    (o.ret = 0 → ∃ s, rdma_getaddrinfo_build k env node service hints w = some s ∧
      o.res = s.rai ∧ s.rai ≠ 0 ∧ find w.heap s.rai = none ∧
      find s.w.heap s.rai = some (Obj.rai s.node)) := by
  constructor
  · intro hne
    unfold rdma_getaddrinfo at hr
    cases hb : rdma_getaddrinfo_build k env node service hints w with
    | none => rw [hb] at hr; simp at hr
    | some s =>
      rw [hb] at hr
      simp only at hr
      by_cases hs : s.ret = 0
      · simp only [hs, ne_eq, not_true_eq_false, if_false] at hr
        split at hr <;> (simp at hr; rw [← hr] at hne; simp at hne)
      · simp only [ne_eq, hs, not_false_eq_true, if_true, Option.some.injEq] at hr
        rw [← hr]
  · intro h0
    obtain ⟨s, hb, hs, hres, -⟩ := getaddrinfo_success k env node service hints res w o hr h0
    obtain ⟨hrai, hlive⟩ := build_node_live k env node service hints w s hb hs
    refine ⟨s, hb, hres, by rw [hrai]; simp, by rw [hrai]; exact find_fresh _, hlive⟩

/-- Claim C15: when `ucma_convert_to_rai` succeeds with no allocation failing,
the node has the entry's family; the address placed is a block that was not
live before, as long as the entry's address length and holding exactly the
entry's address bytes; the name placed is `NULL` when the entry has no
canonical name and otherwise a block that was not live before, holding the
entry's name with its terminator. -/
theorem C15_translation_copies (k : Consts) (rai : rdma_addrinfo) (ai : Ptr) (w : World)
    (a : addrinfo) (rest : List addrinfo) (mem : List (Ptr × List Nat))
    (r : rdma_addrinfo) (w2 : World)
    (hf : find w.heap ai = some (Obj.gai (a :: rest) mem))
    (hplan : ∀ b ∈ w.plan, b = true)
    (hres : ucma_convert_to_rai k rai ai w = some (0, r, w2)) :
    r.ai_family = a.ai_family ∧
    ∃ x c bs, r = place k (convert_fields k rai a) a x c ∧
      x ≠ 0 ∧ find w.heap x = none ∧
      read_mem mem a.ai_addr a.ai_addrlen = some bs ∧ bs.length = a.ai_addrlen ∧
      find w2.heap x = some (Obj.bytes bs) ∧
      (a.ai_canonname = 0 → c = 0) ∧
      (a.ai_canonname ≠ 0 → c ≠ 0 ∧ c ≠ x ∧ find w.heap c = none ∧
        ∃ str, read_str mem a.ai_canonname = some str ∧
          find w2.heap c = some (Obj.bytes str)) := by
  have hp1 := plan_head_ok _ hplan
  have hp2 := plan_head_ok _ (plan_tail_ok _ hplan)
  refine ⟨(to_rai_fields k rai ai w a rest mem 0 r w2 hf hres).1, ?_⟩
  rw [ucma_convert_to_rai_eq k rai ai w a rest mem hf, if_neg hp1] at hres
  cases hr : read_mem mem a.ai_addr a.ai_addrlen with
  | none => rw [hr] at hres; simp at hres
  | some bs =>
    rw [hr] at hres
    simp only at hres
    have hlen := read_mem_length _ _ _ _ hr
    by_cases hc : a.ai_canonname = 0
    · simp only [if_pos hc, Option.some.injEq, Prod.mk.injEq, true_and] at hres
      refine ⟨top w.heap + 1, 0, bs, hres.1.symm, by simp, find_fresh _, rfl, hlen, ?_,
        fun _ => rfl, fun hne => absurd hc hne⟩
      rw [← hres.2]; simp [find]
    · simp only [if_neg hc] at hres
      cases hs : read_str mem a.ai_canonname with
      | none => rw [hs] at hres; simp at hres
      | some str =>
        rw [hs] at hres
        simp only [if_neg hp2, Option.some.injEq, Prod.mk.injEq, true_and] at hres
        refine ⟨top w.heap + 1, top w.heap + 2, bs, hres.1.symm, by simp, find_fresh _, rfl,
          hlen, ?_, fun h0 => absurd h0 hc, fun _ => ⟨by simp, by simp, find_above _ _ (by omega),
            str, rfl, ?_⟩⟩
        · rw [← hres.2]; simp [find]
        · rw [← hres.2]; simp [find]

/-- Witness of C15: `ex_entry` translated in `ex_world_gai_ok`. -/
theorem C15_translation_copies_witness :
    ex_node_built_51.ai_family = ex_entry.ai_family ∧
    ∃ x c bs, ex_node_built_51 = place hdr (convert_fields hdr rai_zero ex_entry) ex_entry x c ∧
      x ≠ 0 ∧ find ex_world_gai_ok.heap x = none ∧
      read_mem ex_mem ex_entry.ai_addr ex_entry.ai_addrlen = some bs ∧
      bs.length = ex_entry.ai_addrlen ∧
      find ex_heap_51 x = some (Obj.bytes bs) ∧
      (ex_entry.ai_canonname = 0 → c = 0) ∧
      (ex_entry.ai_canonname ≠ 0 → c ≠ 0 ∧ c ≠ x ∧ find ex_world_gai_ok.heap c = none ∧
        ∃ str, read_str ex_mem ex_entry.ai_canonname = some str ∧
          find ex_heap_51 c = some (Obj.bytes str)) :=
  C15_translation_copies hdr rai_zero 50 ex_world_gai_ok ex_entry [] ex_mem ex_node_built_51
    ⟨ex_heap_51, [], 0, [Event.alloc 51, Event.alloc 52]⟩ (by decide) (by decide) (by decide)

/-- Counterexample to C16: the resolver's first entry has a zero address
length; the call succeeds and the node's destination length is `0` although its
destination buffer, the block `10` that `malloc(0)` handed out, is present. -/
theorem C16_counterexample :
    (rdma_getaddrinfo_build hdr ex_env_empty_addr 5 0 none ex_world).map
      (fun s => (s.ret, s.node.ai_dst_len, s.node.ai_dst_addr,
        find s.w.heap s.node.ai_dst_addr)) =
      some (0, 0, 10, some (Obj.bytes [])) ∧
    (rdma_getaddrinfo hdr ex_env_empty_addr 5 0 none 99 ex_world).map
      (fun o => (o.ret, o.res)) = some (0, 8) := by
  decide

/-- Claim C16, amended: after a successful `rdma_getaddrinfo`, before the hook,
each side of the node is either absent with length zero or a live byte block
whose size is the side's length; when the resolver's first entry has a
non-zero address length, a side of length zero is absent. -/
theorem C16_length_matches_buffer (k : Consts) (env : Env) (node service : Ptr)
    (hints : Option rdma_addrinfo) (w : World) (s : Stage)
    (hb : rdma_getaddrinfo_build k env node service hints w = some s) (hs : s.ret = 0) :
    ((s.node.ai_src_addr = 0 ∧ s.node.ai_src_len = 0) ∨
      (s.node.ai_src_addr ≠ 0 ∧
        ∃ bs, find s.w.heap s.node.ai_src_addr = some (Obj.bytes bs) ∧
          bs.length = s.node.ai_src_len)) ∧
    ((s.node.ai_dst_addr = 0 ∧ s.node.ai_dst_len = 0) ∨
      (s.node.ai_dst_addr ≠ 0 ∧
        ∃ bs, find s.w.heap s.node.ai_dst_addr = some (Obj.bytes bs) ∧
          bs.length = s.node.ai_dst_len)) ∧
    ((∀ a rest mem,
        env.getaddrinfo node service (hints.map (ucma_convert_to_ai k)) = (0, a :: rest, mem) →
        a.ai_addrlen ≠ 0) →
      (s.node.ai_src_len = 0 → s.node.ai_src_addr = 0) ∧
      (s.node.ai_dst_len = 0 → s.node.ai_dst_addr = 0)) := by
  obtain ⟨harg, -, -, s1, s2, h1, hr1, h2, hr2, hse⟩ :=
    build_success k env node service hints w s hb hs
  obtain ⟨hS, hD⟩ := paths_sides k env node service hints w s1 harg h1 hr1
  obtain ⟨hrai1, hnl, -⟩ := paths_live k env node service hints w s1 harg h1 hr1
  obtain ⟨hrai, hnode, hkeep, hlive⟩ := backfill_keeps k hints s1 s2 h2 hr2
  have hfin : ∀ x o, x ≠ top w.heap + 1 → find s1.w.heap x = some o →
      find s.w.heap x = some o := by
    intro x o hne hf
    rw [hse]
    simp only
    rw [commit_find s2 x (by rw [hrai, hrai1]; exact hne)]
    exact hlive x o hf
  have hsn : s.node = s2.node := by rw [hse]
  have hsrc : (s.node.ai_src_addr = 0 ∧ s.node.ai_src_len = 0) ∨
      (s.node.ai_src_addr ≠ 0 ∧
        ((∀ a rest mem,
          env.getaddrinfo node service (hints.map (ucma_convert_to_ai k)) =
            (0, a :: rest, mem) → a.ai_addrlen ≠ 0) → s.node.ai_src_len ≠ 0) ∧
        ∃ bs, find s.w.heap s.node.ai_src_addr = some (Obj.bytes bs) ∧
          bs.length = s.node.ai_src_len) := by
    rcases backfill_success k hints s1 s2 h2 hr2 with ⟨he, -⟩ | ⟨h, bs, -, hz, hsl, hrd, he⟩
    · rw [hsn, he]
      rcases hS with h0 | ⟨ha, hne, hl, bs, hfd, hbl⟩
      · exact Or.inl h0
      · exact Or.inr ⟨ha, hl, bs, hfin _ _ hne hfd, hbl⟩
    · right
      have hne : top s1.w.heap + 1 ≠ s1.rai := by
        have hle : top w.heap + 1 ≤ top s1.w.heap := find_le_top s1.w.heap _ _ hnl
        rw [hrai1]; omega
      have hf2 : find (commit s2).heap (top s1.w.heap + 1) = some (Obj.bytes bs) := by
        rw [commit_find s2 _ (by rw [he]; exact hne), he]
        simp [find]
      rw [hse]
      simp only
      rw [he] at hf2 ⊢
      exact ⟨by simp, fun _ => hsl, bs, hf2, read_heap_length _ _ _ _ hrd⟩
  have hdst : (s.node.ai_dst_addr = 0 ∧ s.node.ai_dst_len = 0) ∨
      (s.node.ai_dst_addr ≠ 0 ∧
        ((∀ a rest mem,
          env.getaddrinfo node service (hints.map (ucma_convert_to_ai k)) =
            (0, a :: rest, mem) → a.ai_addrlen ≠ 0) → s.node.ai_dst_len ≠ 0) ∧
        ∃ bs, find s.w.heap s.node.ai_dst_addr = some (Obj.bytes bs) ∧
          bs.length = s.node.ai_dst_len) := by
    rw [hsn, hnode]
    simp only
    rcases hD with h0 | ⟨ha, hne, hl, bs, hfd, hbl⟩
    · exact Or.inl h0
    · exact Or.inr ⟨ha, hl, bs, hfin _ _ hne hfd, hbl⟩
  refine ⟨?_, ?_, ?_⟩
  · rcases hsrc with h0 | ⟨ha, -, hx⟩
    · exact Or.inl h0
    · exact Or.inr ⟨ha, hx⟩
  · rcases hdst with h0 | ⟨ha, -, hx⟩
    · exact Or.inl h0
    · exact Or.inr ⟨ha, hx⟩
  · intro hwf
    constructor
    · intro hz
      rcases hsrc with h0 | ⟨-, hl, -⟩
      · exact h0.1
      · exact absurd hz (hl hwf)
    · intro hz
      rcases hdst with h0 | ⟨-, hl, -⟩
      · exact h0.1
      · exact absurd hz (hl hwf)

/-- Witness of the amended C16: the name-based call with the source back-filled
from `ex_hints_src`; the first entry of `ex_env` has address length `16`. -/
theorem C16_length_matches_buffer_witness :
    ((ex_stage_done.node.ai_src_addr = 0 ∧ ex_stage_done.node.ai_src_len = 0) ∨
      (ex_stage_done.node.ai_src_addr ≠ 0 ∧
        ∃ bs, find ex_stage_done.w.heap ex_stage_done.node.ai_src_addr = some (Obj.bytes bs) ∧
          bs.length = ex_stage_done.node.ai_src_len)) ∧
    ((ex_stage_done.node.ai_dst_addr = 0 ∧ ex_stage_done.node.ai_dst_len = 0) ∨
      (ex_stage_done.node.ai_dst_addr ≠ 0 ∧
        ∃ bs, find ex_stage_done.w.heap ex_stage_done.node.ai_dst_addr = some (Obj.bytes bs) ∧
          bs.length = ex_stage_done.node.ai_dst_len)) ∧
    (ex_stage_done.node.ai_src_len = 0 → ex_stage_done.node.ai_src_addr = 0) ∧
    (ex_stage_done.node.ai_dst_len = 0 → ex_stage_done.node.ai_dst_addr = 0) :=
  ⟨(C16_length_matches_buffer hdr ex_env 5 0 (some ex_hints_src) ex_world ex_stage_done
      (by decide) rfl).1,
   (C16_length_matches_buffer hdr ex_env 5 0 (some ex_hints_src) ex_world ex_stage_done
      (by decide) rfl).2.1,
   (C16_length_matches_buffer hdr ex_env 5 0 (some ex_hints_src) ex_world ex_stage_done
      (by decide) rfl).2.2
      (by intro a rest mem h; simp [ex_env] at h; rw [← h.1.1]; decide)⟩

/-- Claim C17: `ucma_convert_to_ai` leaves the socket type `0` for a queue-pair
type other than RC and UD and the protocol `0` for a port space other than
TCP, UDP and IPoIB; and on the name-based path, with allocations succeeding
and memory readable, `rdma_getaddrinfo` succeeds whatever the entry's socket
type and protocol are, with queue-pair type `0` when the socket type is
neither stream nor datagram and port space `0` when the protocol is neither
TCP nor UDP. -/
theorem C17_unrecognized_left_unset (k : Consts) (env : Env) (node service : Ptr)
    (hints : Option rdma_addrinfo) (res : Ptr) (w : World)
    (a : addrinfo) (rest : List addrinfo) (mem : List (Ptr × List Nat))
    (bs str bsrc : List Nat)
    (hpath : node ≠ 0 ∨ service ≠ 0) (hinit : env.ucma_init = 0)
    (hplan : ∀ b ∈ w.plan, b = true)
    (hE : env.getaddrinfo node service (hints.map (ucma_convert_to_ai k)) = (0, a :: rest, mem))
    (haddr : read_mem mem a.ai_addr a.ai_addrlen = some bs)
    (hname : a.ai_canonname ≠ 0 → read_str mem a.ai_canonname = some str)
    (hsrc : ∀ h, hints = some h → h.ai_src_len ≠ 0 →
      read_heap w.heap h.ai_src_addr h.ai_src_len = some bsrc) :
    (∀ h : rdma_addrinfo,
      (h.ai_qp_type ≠ k.IBV_QPT_RC → h.ai_qp_type ≠ k.IBV_QPT_UD →
        (ucma_convert_to_ai k h).ai_socktype = 0) ∧
      (h.ai_port_space ≠ k.RDMA_PS_TCP → h.ai_port_space ≠ k.RDMA_PS_UDP →
        h.ai_port_space ≠ k.RDMA_PS_IPOIB → (ucma_convert_to_ai k h).ai_protocol = 0)) ∧
    ∃ s o, rdma_getaddrinfo_build k env node service hints w = some s ∧ s.ret = 0 ∧
      rdma_getaddrinfo k env node service hints res w = some o ∧ o.ret = 0 ∧ o.res = s.rai ∧
      find s.w.heap s.rai = some (Obj.rai s.node) ∧
      (a.ai_socktype ≠ k.SOCK_STREAM → a.ai_socktype ≠ k.SOCK_DGRAM → s.node.ai_qp_type = 0) ∧
      (a.ai_protocol ≠ k.IPPROTO_TCP → a.ai_protocol ≠ k.IPPROTO_UDP →
        s.node.ai_port_space = 0) := by
  constructor
  · intro h
    constructor
    · intro h1 h2
      rw [to_ai_socktype, if_neg h1, if_neg h2]
    · intro h1 h2 h3
      rw [to_ai_protocol, if_neg h1, if_neg (by simp [h2, h3])]
  · have harg : ¬ (service = 0 ∧ node = 0 ∧ hints = none) := by
      rintro ⟨h1, h2, -⟩; rcases hpath with h | h <;> contradiction
    obtain ⟨s1, h1, hr1, hpl1⟩ :=
      paths_name_ok k env node service hints w a rest mem bs str hpath hplan hE haddr hname
    obtain ⟨-, -, hkeep⟩ := paths_live k env node service hints w s1 harg h1 hr1
    obtain ⟨s2, h2, hr2⟩ := backfill_ok k hints s1 bsrc hr1 hpl1
      (fun h hh hl => read_heap_of_find w.heap s1.w.heap _ _ _ (fun o ho => hkeep _ o ho)
        (hsrc h hh hl))
    have hb := build_of_stages k env node service hints w s1 s2 harg hinit
      (plan_head_ok _ hplan) h1 hr1 h2 hr2
    obtain ⟨o, ho, ho0, hores⟩ := getaddrinfo_of_build k env node service hints res w _ hb rfl
    obtain ⟨-, hq, hp, -⟩ := name_fields k env node service hints w _ a rest mem hpath hE hb rfl
    refine ⟨_, o, hb, rfl, ho, ho0, hores,
      (build_node_live k env node service hints w _ hb rfl).2, ?_, ?_⟩
    · intro n1 n2
      rw [hq]; simp [convert_fields, n1, n2, rai_zero]
      split_ifs <;> rfl
    · intro n1 n2
      rw [hp]; simp [convert_fields, n1, n2, rai_zero]
      split_ifs <;> rfl

/-- Witness of C17: the resolver of `ex_env_raw` answers a raw ICMP entry. -/
theorem C17_unrecognized_left_unset_witness :
    (∀ h : rdma_addrinfo,
      (h.ai_qp_type ≠ hdr.IBV_QPT_RC → h.ai_qp_type ≠ hdr.IBV_QPT_UD →
        (ucma_convert_to_ai hdr h).ai_socktype = 0) ∧
      (h.ai_port_space ≠ hdr.RDMA_PS_TCP → h.ai_port_space ≠ hdr.RDMA_PS_UDP →
        h.ai_port_space ≠ hdr.RDMA_PS_IPOIB → (ucma_convert_to_ai hdr h).ai_protocol = 0)) ∧
    ∃ s o, rdma_getaddrinfo_build hdr ex_env_raw 5 0 none ex_world = some s ∧ s.ret = 0 ∧
      rdma_getaddrinfo hdr ex_env_raw 5 0 none 99 ex_world = some o ∧ o.ret = 0 ∧
      o.res = s.rai ∧ find s.w.heap s.rai = some (Obj.rai s.node) ∧
      (ex_entry_raw.ai_socktype ≠ hdr.SOCK_STREAM → ex_entry_raw.ai_socktype ≠ hdr.SOCK_DGRAM →
        s.node.ai_qp_type = 0) ∧
      (ex_entry_raw.ai_protocol ≠ hdr.IPPROTO_TCP → ex_entry_raw.ai_protocol ≠ hdr.IPPROTO_UDP →
        s.node.ai_port_space = 0) :=
  C17_unrecognized_left_unset hdr ex_env_raw 5 0 none 99 ex_world ex_entry_raw [] ex_mem
    [2, 0, 19, 136, 10, 0, 0, 1, 0, 0, 0, 0, 0, 0, 0, 0] [] [] (by decide) rfl (by decide) rfl
    (by decide) (fun h => absurd rfl h) (fun h hh => by cases hh)

/-- Claim C18: a call that fails records no call of the hook.  A call whose
path and back-fill succeed has built a node whose flags are the hints' flags
(zero without hints) without calling the hook; when these flags have
`RAI_PASSIVE` the world returned is that of the build, hook not called; when
they lack it the world returned is the result of one application of the hook,
recorded once in the trace handed to it. -/
theorem C18_hook_once_or_never (k : Consts) (env : Env) (node service : Ptr)
    (hints : Option rdma_addrinfo) (res : Ptr) (w : World) (o : Outcome)
    (hr : rdma_getaddrinfo k env node service hints res w = some o) :
    (o.ret ≠ 0 → hook_calls o.w.trace = hook_calls w.trace) ∧
    (o.ret = 0 → ∃ s, rdma_getaddrinfo_build k env node service hints w = some s ∧ s.ret = 0 ∧
      hook_calls s.w.trace = hook_calls w.trace ∧
      (∀ h, hints = some h → s.node.ai_flags = h.ai_flags) ∧
      (hints = none → s.node.ai_flags = 0) ∧
      (s.node.ai_flags &&& k.RAI_PASSIVE ≠ 0 → o.w = s.w) ∧
      (s.node.ai_flags &&& k.RAI_PASSIVE = 0 →
        o.w = env.ucma_ib_resolve s.rai hints
          ⟨s.w.heap, s.w.plan, s.w.errno, s.w.trace ++ [Event.ib_resolve s.rai]⟩ ∧
        hook_calls (s.w.trace ++ [Event.ib_resolve s.rai]) = hook_calls w.trace + 1)) := by
  constructor
  · intro hne
    unfold rdma_getaddrinfo at hr
    cases hb : rdma_getaddrinfo_build k env node service hints w with
    | none => rw [hb] at hr; simp at hr
    | some s =>
      rw [hb] at hr
      simp only at hr
      by_cases hs : s.ret = 0
      · simp only [hs, ne_eq, not_true_eq_false, if_false] at hr
        split at hr <;> (simp at hr; rw [← hr] at hne; simp at hne)
      · simp only [ne_eq, hs, not_false_eq_true, if_true, Option.some.injEq] at hr
        rw [← hr]
        exact build_quiet k env node service hints w s hb
  · intro h0
    obtain ⟨s, hb, hs, -, hw⟩ := getaddrinfo_success k env node service hints res w o hr h0
    have hq := build_quiet k env node service hints w s hb
    have hfl := build_flags k env node service hints w s hb hs
    refine ⟨s, hb, hs, hq, ?_, ?_, ?_, ?_⟩
    · intro h hh; rw [hfl, hh]; rfl
    · intro hh; rw [hfl, hh]; rfl
    · intro hp
      rcases hw with ⟨-, hw⟩ | ⟨hz, -⟩
      · exact hw
      · exact absurd hz hp
    · intro hz
      rcases hw with ⟨hp, -⟩ | ⟨-, hw⟩
      · exact absurd hz hp
      · refine ⟨hw, ?_⟩
        rw [hook_calls_append, hq]
        rfl

/-- Witness of C18: the name-based call of `ex_env` without hints runs the
hook once. -/
theorem C18_hook_once_or_never_witness :
    (ex_outcome_hooked.ret ≠ 0 → hook_calls ex_outcome_hooked.w.trace = hook_calls ex_world.trace) ∧
    (ex_outcome_hooked.ret = 0 →
      ∃ s, rdma_getaddrinfo_build hdr ex_env 5 0 none ex_world = some s ∧ s.ret = 0 ∧
      hook_calls s.w.trace = hook_calls ex_world.trace ∧
      (∀ h : rdma_addrinfo, none = some h → s.node.ai_flags = h.ai_flags) ∧
      (none = (none : Option rdma_addrinfo) → s.node.ai_flags = 0) ∧
      (s.node.ai_flags &&& hdr.RAI_PASSIVE ≠ 0 → ex_outcome_hooked.w = s.w) ∧
      (s.node.ai_flags &&& hdr.RAI_PASSIVE = 0 →
        ex_outcome_hooked.w = ex_env.ucma_ib_resolve s.rai none
          ⟨s.w.heap, s.w.plan, s.w.errno, s.w.trace ++ [Event.ib_resolve s.rai]⟩ ∧
        hook_calls (s.w.trace ++ [Event.ib_resolve s.rai]) = hook_calls ex_world.trace + 1)) :=
  C18_hook_once_or_never hdr ex_env 5 0 none 99 ex_world ex_outcome_hooked (by decide)

/-- Witness of C19: the name-based call of `ex_env` without hints returns `0`
and hands out the node built at address `8`. -/
theorem C19_res_written_on_success_only_witness :
    (ex_outcome_hooked.ret ≠ 0 → ex_outcome_hooked.res = 99) ∧
    (ex_outcome_hooked.ret = 0 →
      ∃ s, rdma_getaddrinfo_build hdr ex_env 5 0 none ex_world = some s ∧
      ex_outcome_hooked.res = s.rai ∧ s.rai ≠ 0 ∧ find ex_world.heap s.rai = none ∧
      find s.w.heap s.rai = some (Obj.rai s.node)) :=
  C19_res_written_on_success_only hdr ex_env 5 0 none 99 ex_world ex_outcome_hooked (by decide)

/-- Claim C12: for a list whose nodes are live and linked by `ai_next`, and whose
nodes and non-null buffers are pairwise distinct live blocks, `rdma_freeaddrinfo`
returns, leaves plan and `errno` alone, and appends to the trace exactly the
spec's release sequence: per node, head to tail, connection blob, route blob,
source name, destination name, source address, destination address (each only
when non-null), then the node; the heap loses exactly these blocks; every node
and every non-null buffer field is released once; for the null list nothing is
released. -/
theorem C12_release_sequence (nodes : List (Ptr × rdma_addrinfo)) (res : Ptr) (w : World)
    (hc : chain w.heap res nodes = true) (hd : (spec_release_order nodes).Nodup)
    (hl : ∀ q ∈ spec_release_order nodes, find w.heap q ≠ none) :
    ∃ o, rdma_freeaddrinfo res w = some o ∧
      o.trace = w.trace ++ (spec_release_order nodes).map Event.free ∧
      o.heap = (spec_release_order nodes).foldl erase w.heap ∧
      o.plan = w.plan ∧ o.errno = w.errno ∧
      (res = 0 → o = w) ∧
      (∀ p r q, (p, r) ∈ nodes → (q = p ∨ (q ∈ buffer_fields r ∧ q ≠ 0)) →
        o.trace.count (Event.free q) = w.trace.count (Event.free q) + 1) := by
  refine ⟨free_all (spec_release_order nodes) w, freeaddrinfo_chain nodes res w hc hd hl,
    rfl, rfl, rfl, rfl, ?_, ?_⟩
  · intro h0
    cases nodes with
    | nil => simp [free_all, spec_release_order]
    | cons a rest =>
      obtain ⟨p, r⟩ := a
      simp only [chain, Bool.and_eq_true, decide_eq_true_eq] at hc
      exact absurd (hc.1.1.1 ▸ h0) hc.1.1.2
  · intro p r q hm hq
    have hmem := mem_release_order nodes p r q hm hq
    simp only [free_all, List.count_append]
    have hinj : Function.Injective Event.free := fun a b e => by injection e
    rw [List.count_map_of_injective _ _ hinj, List.count_eq_one_of_mem hd hmem]

/-- Witness of C12: the two-node list of `ex_world_list` is released in the
order `12, 11, 10, 22, 23, 21, 20`. -/
theorem C12_release_sequence_witness :
    spec_release_order ex_list_nodes = [12, 11, 10, 22, 23, 21, 20] ∧
    ∃ o, rdma_freeaddrinfo 10 ex_world_list = some o ∧
      o.trace = ex_world_list.trace ++ (spec_release_order ex_list_nodes).map Event.free ∧
      o.heap = (spec_release_order ex_list_nodes).foldl erase ex_world_list.heap ∧
      o.plan = ex_world_list.plan ∧ o.errno = ex_world_list.errno ∧
      (10 = 0 → o = ex_world_list) ∧
      (∀ p r q, (p, r) ∈ ex_list_nodes → (q = p ∨ (q ∈ buffer_fields r ∧ q ≠ 0)) →
        o.trace.count (Event.free q) = ex_world_list.trace.count (Event.free q) + 1) :=
  ⟨by decide, C12_release_sequence ex_list_nodes 10 ex_world_list (by decide) (by decide)
    (by decide)⟩

end Rdma
